import Mathlib

/-!
Cart store of the storefront (`src/context/CartContext.jsx`).

A shallow embedding of the cart operations of `CartProvider`.

* JavaScript numbers that carry money (`price`, `discountPercent`) are embedded as the
  rationals `ℚ` they denote; quantities are integers `ℤ`. The definitions without a suffix
  read the arithmetic of the source exactly; the definitions with the suffix `F64` round
  every operation to the nearest binary64 number (`rn`), as JavaScript does.
* `null` / `undefined` are embedded as `Option.none`; a variant object
  (`selectedSize`) is `Option SizeVariant`, a label argument (`sizeLabel`) is
  `Option String`.
* Each state updater passed to `setCartItems` is embedded as the pure function
  from the previous item list to the next one.
-/

namespace ShopCart

/-- One entry of `product.sizes`: a priced, separately stocked variant. -/
structure SizeVariant where
  label : String
  price : ℚ
  stock : ℤ
  deriving DecidableEq

/-- The product record as the cart reads it. -/
structure Product where
  _id : String
  name : String
  images : List String
  price : ℚ
  discountPercent : ℚ
  category : String
  stock : Option ℤ
  sizes : Option (List SizeVariant)
  deriving DecidableEq

/-- The object literal `newItem` built by `addToCart`. -/
structure CartItem where
  _id : String
  name : String
  image : Option String
  price : ℚ
  originalPrice : ℚ
  quantity : ℤ
  selectedSize : Option SizeVariant
  category : String
  deriving DecidableEq

/-- The expression `x?.label` for `x` a variant object or `null`:
`undefined` (here `none`) when `x` is `null`. -/
def optLabel (s : Option SizeVariant) : Option String :=
  s.map (fun v => v.label)

/-- The identity key of a line item: product id and selected variant label (or none). -/
def itemKey (item : CartItem) : String × Option String :=
  (item._id, optLabel item.selectedSize)

/-- `Array.prototype.findIndex`: index of the first element satisfying `p`, else `-1`. -/
def findIndex {α : Type} (p : α → Bool) (xs : List α) : ℤ :=
  match xs.findIdx? p with
  | some i => (i : ℤ)
  | none => -1

/-- The predicate given to `findIndex` in `addToCart`:
`item._id === product._id && item.selectedSize?.label === selectedSize?.label`. -/
def addMatches (product : Product) (selectedSize : Option SizeVariant) (item : CartItem) : Bool :=
  item._id == product._id && optLabel item.selectedSize == optLabel selectedSize

/-- The `newItem` object literal of `addToCart` (lines 44-56). -/
def newItem (product : Product) (quantity : ℤ) (selectedSize : Option SizeVariant) : CartItem :=
  let price := match selectedSize with
    | some s => s.price
    | none => product.price
  let discountedPrice := price - (price * product.discountPercent) / 100
  { _id := product._id
    name := product.name
    image := product.images[0]?
    price := discountedPrice
    originalPrice := price
    quantity := quantity
    selectedSize := selectedSize
    category := product.category }

/-- The updater of `addToCart(product, quantity, selectedSize)`. The statement
`updatedItems[existingItemIndex].quantity += quantity` on the copied array is read as the
list in which the item at that index has its quantity increased. -/
def addToCart (product : Product) (quantity : ℤ) (selectedSize : Option SizeVariant)
    (prevItems : List CartItem) : List CartItem :=
  let existingItemIndex := findIndex (addMatches product selectedSize) prevItems
  if existingItemIndex > -1 then
    prevItems.modify (fun item => { item with quantity := item.quantity + quantity })
      existingItemIndex.toNat
  else
    prevItems ++ [newItem product quantity selectedSize]

/-- JavaScript `!sizeLabel` for `sizeLabel` being `null` or a string: true for `null`
and for the empty string. -/
def labelFalsy (sizeLabel : Option String) : Bool :=
  match sizeLabel with
  | none => true
  | some s => s == ""

/-- The comparison `item.selectedSize?.label === sizeLabel` where `sizeLabel` is `null` or a
string: the left side is `undefined` when the item has no variant, and `undefined === null`
is false. -/
def labelEqArg (selectedSize : Option SizeVariant) (sizeLabel : Option String) : Bool :=
  match selectedSize, sizeLabel with
  | some v, some s => v.label == s
  | _, _ => false

/-- The callback of `prevItems.filter` in `removeFromCart`: true means the item is kept. -/
def removeKeeps (productId : String) (sizeLabel : Option String) (item : CartItem) : Bool :=
  if item.selectedSize.isNone && labelFalsy sizeLabel then
    item._id != productId
  else
    !(item._id == productId && labelEqArg item.selectedSize sizeLabel)

/-- The updater of `removeFromCart(productId, sizeLabel = null)`. -/
def removeFromCart (productId : String) (sizeLabel : Option String)
    (prevItems : List CartItem) : List CartItem :=
  prevItems.filter (removeKeeps productId sizeLabel)

/-- The callback of `prevItems.map` in `updateQuantity`. -/
def updateItem (productId : String) (quantity : ℤ) (sizeLabel : Option String)
    (item : CartItem) : CartItem :=
  if item.selectedSize.isNone && labelFalsy sizeLabel && item._id == productId then
    { item with quantity := quantity }
  else if item._id == productId && labelEqArg item.selectedSize sizeLabel then
    { item with quantity := quantity }
  else
    item

/-- The state change of `updateQuantity(productId, quantity, sizeLabel = null)`. -/
def updateQuantity (productId : String) (quantity : ℤ) (sizeLabel : Option String)
    (prevItems : List CartItem) : List CartItem :=
  if quantity ≤ 0 then
    removeFromCart productId sizeLabel prevItems
  else
    prevItems.map (updateItem productId quantity sizeLabel)

/-- The in-memory state change of `clearCart()`: `setCartItems([])`. -/
def clearCart (_prevItems : List CartItem) : List CartItem := []

/-- The reducer of `getCartTotal`. -/
def getCartTotal (cartItems : List CartItem) : ℚ :=
  cartItems.foldl (fun total item => total + item.price * item.quantity) 0

/-- The reducer of `getCartCount`. -/
def getCartCount (cartItems : List CartItem) : ℤ :=
  cartItems.foldl (fun count item => count + item.quantity) 0

/-- One call `addToCart(product, quantity, selectedSize)`. -/
structure AddCall where
  product : Product
  quantity : ℤ
  selectedSize : Option SizeVariant

/-- A sequence of `addToCart` calls applied one after the other to a cart. -/
def addAll (calls : List AddCall) (cart : List CartItem) : List CartItem :=
  calls.foldl (fun items c => addToCart c.product c.quantity c.selectedSize items) cart

/-- A cart mutation exposed by the cart context. -/
inductive CartOp where
  | add (product : Product) (quantity : ℤ) (selectedSize : Option SizeVariant)
  | remove (productId : String) (sizeLabel : Option String)
  | update (productId : String) (quantity : ℤ) (sizeLabel : Option String)
  | clear

/-- The item list after one mutation. -/
def applyOp (cart : List CartItem) : CartOp → List CartItem
  | .add product quantity selectedSize => addToCart product quantity selectedSize cart
  | .remove productId sizeLabel => removeFromCart productId sizeLabel cart
  | .update productId quantity sizeLabel => updateQuantity productId quantity sizeLabel cart
  | .clear => clearCart cart

/-- The cart reached from the empty cart (the initial `useState([])`) by a sequence of
mutations. -/
def runOps (ops : List CartOp) : List CartItem :=
  ops.foldl applyOp []

/-- No two line items share the identity key. -/
def uniqueKeys (cart : List CartItem) : Prop :=
  (cart.map itemKey).Nodup

/-- The value `parseFloat(x.toFixed(2))` read exactly: the multiple of `1/100` nearest to
`x`, a tie going to the one larger in magnitude (`Number.prototype.toFixed`). -/
def round2 (x : ℚ) : ℚ :=
  if x < 0 then -((⌊(-x) * 100 + 1 / 2⌋ : ℤ) : ℚ) / 100
  else ((⌊x * 100 + 1 / 2⌋ : ℤ) : ℚ) / 100

/-- The constant `itemsTotal` of the cart page (`Cart.jsx`, line 96):
`parseFloat(getCartTotal().toFixed(2))`. -/
def itemsTotal (cartItems : List CartItem) : ℚ :=
  round2 (getCartTotal cartItems)

/-- The total as the specification words it: every item's unit price is rounded to two
decimal places before it is multiplied by the quantity. -/
def perItemRoundedTotal (cartItems : List CartItem) : ℚ :=
  (cartItems.map (fun item => round2 item.price * item.quantity)).sum

/-- A product without variants, priced 12.5 with a 1 percent discount. -/
def plainProduct : Product :=
  { _id := "P", name := "Mug", images := ["mug.png"], price := 25 / 2, discountPercent := 1,
    category := "Kitchen", stock := some 10, sizes := none }

/-- The cart after `addToCart(plainProduct, 2)` on the empty cart: one line item without
variant, unit price 12.375, quantity 2. -/
def plainCart : List CartItem :=
  [{ _id := "P", name := "Mug", image := some "mug.png", price := 99 / 8,
     originalPrice := 25 / 2, quantity := 2, selectedSize := none, category := "Kitchen" }]

/-! Cart page (`src/pages/Cart.jsx`): pricing lines, stock reconciliation, checkout. -/

/-- The cart context together with the `'cart'` slot of `localStorage`. The slot is `none`
when it holds no value; a stored string is represented by the item list that
`JSON.stringify` wrote (`some []` is the string `"[]"`). -/
structure CartStore where
  cartItems : List CartItem
  saved : Option (List CartItem)
  deriving DecidableEq

/-- The body of `clearCart()` (lines 97-100): `setCartItems([])` followed by
`localStorage.removeItem('cart')`. -/
def clearCartStore (_s : CartStore) : CartStore :=
  { cartItems := [], saved := none }

/-- The save effect (lines 24-27), run after every change of `cartItems`:
`localStorage.setItem('cart', JSON.stringify(cartItems))`. -/
def saveEffect (s : CartStore) : CartStore :=
  { s with saved := some s.cartItems }

/-- The expression of `deliveryFee` (line 97) as a function of `itemsTotal`. -/
def deliveryFeeOf (itemsTotal : ℚ) : ℚ :=
  if itemsTotal ≥ 999 then 0 else 50

/-- The constant `deliveryFee` of the cart page for a cart. -/
def deliveryFee (cartItems : List CartItem) : ℚ :=
  deliveryFeeOf (itemsTotal cartItems)

/-- The constant `otherCharges` (line 98). -/
def otherCharges : ℚ := 0

/-- The expression of `grandTotal` (line 99) as a function of `itemsTotal`. -/
def grandTotalOf (itemsTotal : ℚ) : ℚ :=
  round2 (itemsTotal + deliveryFeeOf itemsTotal + otherCharges)

/-- The constant `grandTotal` of the cart page for a cart. -/
def grandTotal (cartItems : List CartItem) : ℚ :=
  grandTotalOf (itemsTotal cartItems)

/-- One value of the `stockData` object built by `fetchProductsStock`. -/
structure StockEntry where
  stock : ℤ
  price : ℚ
  name : String
  hasVariants : Bool
  variantLabel : Option String
  availableSizes : Option (List SizeVariant)
  deriving DecidableEq

/-- The object `productsStock`: the property writes, the latest one first. -/
abbrev StockData := List (String × StockEntry)

/-- The property read `productsStock[key]`: the latest write under `key`, if any. -/
def stockLookup (productsStock : StockData) (key : String) : Option StockEntry :=
  productsStock.lookup key

/-- The key used by the catch branch (line 74) and by the three readers (lines 103, 111,
358): `item.selectedSize ? item._id + "-" + item.selectedSize.label : item._id`. -/
def stockKey (item : CartItem) : String :=
  match item.selectedSize with
  | some s => item._id ++ "-" ++ s.label
  | none => item._id

/-- The write of the else branch (lines 64-70): main product stock under the product id. -/
def plainEntry (item : CartItem) (product : Product) : String × StockEntry :=
  (item._id,
    { stock := product.stock.getD 0
      price := product.price
      name := product.name
      hasVariants := false
      variantLabel := none
      availableSizes := some (product.sizes.getD []) })

/-- The write made for an item whose fetch returned `product` (lines 52-71). The guard
`item.selectedSize && item.selectedSize.label` fails for an item without variant and for a
variant whose label is the empty string. -/
def fetchedEntry (item : CartItem) (product : Product) : String × StockEntry :=
  match item.selectedSize with
  | some sel =>
    if sel.label ≠ "" then
      let sizeVariant := (product.sizes.getD []).find? (fun s => s.label == sel.label)
      (item._id ++ "-" ++ sel.label,
        { stock := match sizeVariant with
            | some v => v.stock
            | none => 0
          price := match sizeVariant with
            | some v => v.price
            | none => product.price
          name := product.name
          hasVariants := true
          variantLabel := some sel.label
          availableSizes := none })
    else plainEntry item product
  | none => plainEntry item product

/-- The write of the catch branch (lines 72-81), made when the fetch of the item fails. -/
def failedEntry (item : CartItem) : String × StockEntry :=
  (stockKey item,
    { stock := 0
      price := item.price
      name := item.name
      hasVariants := item.selectedSize.isSome
      variantLabel := none
      availableSizes := none })

/-- The write one line item makes to `stockData`; `getById` is `productsAPI.getById`
followed by `response.data.data`, `none` when the request fails. -/
def entryFor (getById : String → Option Product) (item : CartItem) : String × StockEntry :=
  match getById item._id with
  | some product => fetchedEntry item product
  | none => failedEntry item

/-- The product ids requested by one run of `fetchProductsStock`: the callback of
`cartItems.map` calls `productsAPI.getById(item._id)` once for each line item. -/
def fetchRequests (cartItems : List CartItem) : List String :=
  if cartItems.length = 0 then [] else cartItems.map (fun item => item._id)

/-- The value of `productsStock` after `fetchProductsStock` (lines 34-91). The writes are
made in the order of the line items; for an empty cart the state is left as it is. -/
def fetchProductsStock (getById : String → Option Product) (cartItems : List CartItem)
    (productsStock : StockData) : StockData :=
  if cartItems.length = 0 then productsStock
  else cartItems.foldl (fun stockData item => entryFor getById item :: stockData) []

/-- `isProductAvailable` (lines 102-107). -/
def isProductAvailable (productsStock : StockData) (item : CartItem) : Bool :=
  match stockLookup productsStock (stockKey item) with
  | none => true
  | some productStock => decide (productStock.stock > 0)

/-- `getAvailableStock` (lines 110-114). -/
def getAvailableStock (productsStock : StockData) (item : CartItem) : ℤ :=
  match stockLookup productsStock (stockKey item) with
  | some productStock => productStock.stock
  | none => 0

/-- `isQuantityAvailable` (lines 117-120). -/
def isQuantityAvailable (productsStock : StockData) (item : CartItem) : Bool :=
  decide (item.quantity ≤ getAvailableStock productsStock item)

/-- A delivery address as held in the `address` state. -/
structure Address where
  fullName : String
  phone : String
  addressLine1 : String
  addressLine2 : String
  city : String
  state : String
  zipCode : String
  deriving DecidableEq

/-- The authenticated user as the cart page reads it; `name` is `user.name || ''`. -/
structure User where
  name : String
  addresses : Option (List Address)
  deriving DecidableEq

/-- What a call of `handleCheckout` does (lines 142-188). -/
inductive CheckoutOutcome where
  | loginRedirect
  | nothing
  | outOfStockAlert (outOfStockItems : List CartItem)
  | insufficientAlert (unavailableItems : List CartItem)
  | addressModal (selectedAddressIndex : Option ℕ) (address : Address) (useNewAddress : Bool)
  deriving DecidableEq

/-- The address object set when the user has no saved address (lines 176-184). -/
def blankAddress (user : Option User) : Address :=
  { fullName := match user with
      | some u => u.name
      | none => ""
    phone := "", addressLine1 := "", addressLine2 := "", city := "", state := "",
    zipCode := "" }

/-- `handleCheckout` (lines 142-188). -/
def handleCheckout (isAuthenticated : Bool) (user : Option User) (productsStock : StockData)
    (cartItems : List CartItem) : CheckoutOutcome :=
  if !isAuthenticated then .loginRedirect
  else if cartItems.length = 0 then .nothing
  else
    let outOfStockItems := cartItems.filter (fun item => !isProductAvailable productsStock item)
    if outOfStockItems.length > 0 then .outOfStockAlert outOfStockItems
    else
      let unavailableItems :=
        cartItems.filter (fun item => !isQuantityAvailable productsStock item)
      if unavailableItems.length > 0 then .insufficientAlert unavailableItems
      else
        match user.bind (fun u => u.addresses) with
        | some (first :: _) => .addressModal (some 0) first false
        | _ => .addressModal none (blankAddress user) true

/-- Whether the call ended in `setShowAddressModal(true)`. -/
def opensAddressModal : CheckoutOutcome → Bool
  | .addressModal _ _ _ => true
  | _ => false

/-- The `disabled` attribute of the checkout button (line 521). -/
def checkoutDisabled (loadingStock : Bool) (productsStock : StockData)
    (cartItems : List CartItem) : Bool :=
  loadingStock || cartItems.any (fun item =>
    !isProductAvailable productsStock item || !isQuantityAvailable productsStock item)

/-- One element of `orderData.items` (lines 228-236). -/
structure OrderItem where
  product : String
  name : String
  image : Option String
  price : ℚ
  quantity : ℤ
  size : Option String
  subtotal : ℚ
  deriving DecidableEq

/-- The object `orderData` passed to `ordersAPI.create` (lines 227-242). -/
structure OrderData where
  items : List OrderItem
  shippingAddress : Address
  itemsTotal : ℚ
  deliveryFee : ℚ
  otherCharges : ℚ
  grandTotal : ℚ
  deriving DecidableEq

/-- The callback of `cartItems.map` in `orderData`; `item.selectedSize?.label || null`
is `null` for no variant and for the empty label. -/
def orderItemOf (item : CartItem) : OrderItem :=
  { product := item._id
    name := item.name
    image := item.image
    price := item.price
    quantity := item.quantity
    size := match optLabel item.selectedSize with
      | some l => if l = "" then none else some l
      | none => none
    subtotal := item.price * item.quantity }

/-- The object `orderData` built by `handlePlaceOrder`. -/
def orderDataOf (address : Address) (cartItems : List CartItem) : OrderData :=
  { items := cartItems.map orderItemOf
    shippingAddress := address
    itemsTotal := itemsTotal cartItems
    deliveryFee := deliveryFee cartItems
    otherCharges := otherCharges
    grandTotal := grandTotal cartItems }

/-- The address validation of `handlePlaceOrder` (lines 212-219) passes. -/
def addressComplete (address : Address) : Bool :=
  address.fullName != "" && address.phone != "" && address.addressLine1 != ""
    && address.city != "" && address.state != "" && address.zipCode != ""

/-- The observable result of `handlePlaceOrder`: the payload given to `ordersAPI.create`
(if it was called), the cart afterwards and whether the thank-you modal is shown. -/
structure PlaceOrderResult where
  submitted : Option OrderData
  cartItems : List CartItem
  showThankYouModal : Bool
  deriving DecidableEq

/-- `handlePlaceOrder` (lines 210-258); `create orderData` is true when
`ordersAPI.create(orderData)` resolves and false when it rejects. -/
def handlePlaceOrder (create : OrderData → Bool) (address : Address)
    (cartItems : List CartItem) : PlaceOrderResult :=
  if !addressComplete address then
    { submitted := none, cartItems := cartItems, showThankYouModal := false }
  else
    let orderData := orderDataOf address cartItems
    if create orderData then
      { submitted := some orderData, cartItems := clearCart cartItems,
        showThankYouModal := true }
    else
      { submitted := some orderData, cartItems := cartItems, showThankYouModal := false }

/-- Every `addToCart` of the sequence carries a quantity of at least 1; `removeFromCart`,
`updateQuantity` and `clearCart` are unrestricted. -/
def addsPositive (ops : List CartOp) : Prop :=
  ∀ op ∈ ops, match op with
    | .add _ quantity _ => 1 ≤ quantity
    | _ => True

/-- A cart holding one line item without variant at the given unit price, quantity 1. -/
def pricedCart (price : ℚ) : List CartItem :=
  [{ _id := "P", name := "Mug", image := some "mug.png", price := price,
     originalPrice := price, quantity := 1, selectedSize := none, category := "Kitchen" }]

/-- A line item of product `id` with the variant `label`. -/
def variantItem (id label : String) (quantity : ℤ) : CartItem :=
  { _id := id, name := "Shirt", image := none, price := 100, originalPrice := 100,
    quantity := quantity, selectedSize := some { label := label, price := 100, stock := 9 },
    category := "Wear" }

/-- A line item of product `id` without variant. -/
def flatItem (id : String) (quantity : ℤ) : CartItem :=
  { _id := id, name := "Mug", image := none, price := 100, originalPrice := 100,
    quantity := quantity, selectedSize := none, category := "Kitchen" }

/-- A live product record with the given variants and no flat stock field. -/
def sizedProduct (id : String) (sizes : List SizeVariant) : Product :=
  { _id := id, name := "Shirt", images := [], price := 100, discountPercent := 0,
    category := "Wear", stock := none, sizes := some sizes }

/-- A live product record with a flat stock field and no variants. -/
def flatProduct (id : String) (stock : ℤ) : Product :=
  { _id := id, name := "Mug", images := [], price := 100, discountPercent := 0,
    category := "Kitchen", stock := some stock, sizes := none }

/-- The live catalogue of the reconciliation scenarios: product `"P1"` has the variant
`"L"` with stock 3, product `"P2"` has flat stock 0; any other request fails. -/
def scenarioCatalog : String → Option Product := fun id =>
  if id = "P1" then some (sizedProduct "P1" [{ label := "L", price := 100, stock := 3 }])
  else if id = "P2" then some (flatProduct "P2" 0)
  else none

/-- The cart of the reconciliation scenarios: 5 units of `"P1"` in variant `"L"` and 1 unit
of `"P2"` without variant. -/
def scenarioCart : List CartItem :=
  [variantItem "P1" "L" 5, flatItem "P2" 1]

/-- The product ids of a cart without repetition, as the specification counts fetches. -/
def distinctProductIds (cartItems : List CartItem) : List String :=
  (cartItems.map (fun item => item._id)).dedup

/-- A catalogue in which only product `"P-L"` can be fetched; it has the variant `"M"`
with stock 5. -/
def clashCatalog : String → Option Product := fun id =>
  if id = "P-L" then some (sizedProduct "P-L" [{ label := "M", price := 100, stock := 5 }])
  else none

/-- Two line items with different identity keys and the same stock-map key `"P-L-M"`. -/
def clashCart : List CartItem :=
  [variantItem "P" "L-M" 1, variantItem "P-L" "M" 1]

/-- A complete delivery address. -/
def sampleAddress : Address :=
  { fullName := "A Kumar", phone := "9000000000", addressLine1 := "1 Main Road",
    addressLine2 := "", city := "Pune", state := "MH", zipCode := "411001" }

/-- Every line item has a quantity of at least 1. -/
def quantitiesPositive (cart : List CartItem) : Prop :=
  ∀ item ∈ cart, 1 ≤ item.quantity

/-- Whether a run of the stock effect of the cart page (lines 33-94) issues the product
fetches: for an empty cart the effect body returns at once (lines 35-38). -/
def stockEffectFetches (cartItems : List CartItem) : Bool :=
  !(cartItems.length == 0)

/-- Whether the product fetches are issued when the cart page is mounted with this cart:
the effect runs on every mount of the component. -/
def stockFetchOnMount (cartItems : List CartItem) : Bool :=
  stockEffectFetches cartItems

/-- Whether the product fetches are issued after the cart went from `before` to `after`
while the cart page stays mounted: the dependency list of the effect is
`[cartItems.length]`, so it runs again only when the number of line items differs. -/
def stockFetchOnChange (before after : List CartItem) : Bool :=
  before.length != after.length && stockEffectFetches after

/-- `handleQuantityChange(item, newQuantity)` of the cart page (lines 122-136), as the
change of the cart; `item.selectedSize?.label` is passed as the label argument. -/
def handleQuantityChange (productsStock : StockData) (item : CartItem) (newQuantity : ℤ)
    (cartItems : List CartItem) : List CartItem :=
  if newQuantity < 1 then
    removeFromCart item._id (optLabel item.selectedSize) cartItems
  else
    let availableStock := getAvailableStock productsStock item
    if newQuantity > availableStock then cartItems
    else updateQuantity item._id newQuantity (optLabel item.selectedSize) cartItems

/-- `Math.round`: the nearest integer, a tie going up. -/
def mathRound (x : ℚ) : ℤ :=
  ⌊x + 1 / 2⌋

/-- The constant `discountedPrice` of the product detail page (`ProductDetail.jsx`, lines
87-90). -/
def detailDiscountedPrice (product : Product) (selectedSize : Option SizeVariant) : ℚ :=
  let currentPrice := match selectedSize with
    | some s => s.price
    | none => product.price
  (mathRound (currentPrice - (currentPrice * product.discountPercent) / 100) : ℚ)

/-! Image helper (`src/utils/imageHelper.js`). A regular expression is embedded as a
function that tries to match at the start of a character list and returns the captured
group; `firstMatch` tries every start position from the left, as `String.prototype.match`
does. -/

/-- The character class `[a-zA-Z0-9_-]`. -/
def isIdChar (c : Char) : Bool :=
  c.isAlphanum || c == '_' || c == '-'

/-- Consumes the literal `lit` at the start of `s` and returns the rest, or fails. -/
def dropLiteral : List Char → List Char → Option (List Char)
  | [], s => some s
  | _ :: _, [] => none
  | p :: ps, c :: cs => if p == c then dropLiteral ps cs else none

/-- The group `([a-zA-Z0-9_-]+)` at the start of `rest`: the longest run of id characters,
which must not be empty. -/
def captureId (rest : List Char) : Option (List Char) :=
  let run := rest.takeWhile isIdChar
  if run.isEmpty then none else some run

/-- The pattern `\/file\/d\/([a-zA-Z0-9_-]+)` at the start of `s`. -/
def fileMatchAt (s : List Char) : Option (List Char) :=
  (dropLiteral "/file/d/".toList s).bind captureId

/-- The pattern `[?&]id=([a-zA-Z0-9_-]+)` at the start of `s`. -/
def openMatchAt (s : List Char) : Option (List Char) :=
  match s with
  | c :: cs => if c == '?' || c == '&' then (dropLiteral "id=".toList cs).bind captureId else none
  | [] => none

/-- The captured group of the leftmost match of a pattern in `s`, if there is a match. -/
def firstMatch (pattern : List Char → Option (List Char)) : List Char → Option (List Char)
  | [] => pattern []
  | c :: cs =>
    match pattern (c :: cs) with
    | some captured => some captured
    | none => firstMatch pattern cs

/-- `String.prototype.includes` for a character list. -/
def includesLiteral (lit : List Char) : List Char → Bool
  | [] => (dropLiteral lit []).isSome
  | c :: cs => (dropLiteral lit (c :: cs)).isSome || includesLiteral lit cs

/-- The start of a direct image URL. -/
def directBase : String := "https://drive.google.com/uc?export=view&id="

/-- `getGoogleDriveImageUrl(url)` for a string `url` (lines 9-39); `none` is `null`. -/
def getGoogleDriveImageUrl (url : String) : Option String :=
  if url = "" then none
  else if includesLiteral "drive.google.com/uc?export=view&id=".toList url.toList then some url
  else
    let fileId : Option (List Char) := none
    let fileMatch := firstMatch fileMatchAt url.toList
    let fileId := match fileMatch with
      | some captured => some captured
      | none => fileId
    let openMatch := firstMatch openMatchAt url.toList
    let fileId := match openMatch with
      | some captured => some captured
      | none => fileId
    match fileId with
    | some id => some (directBase ++ String.mk id)
    | none => some url

/-- `extractGoogleDriveFileId(url)` for a string `url` (lines 52-62); `none` is `null`. -/
def extractGoogleDriveFileId (url : String) : Option String :=
  if url = "" then none
  else
    match firstMatch fileMatchAt url.toList with
    | some captured => some (String.mk captured)
    | none =>
      match firstMatch openMatchAt url.toList with
      | some captured => some (String.mk captured)
      | none => none

/-! Orders of the profile page (`src/pages/Profile.jsx`). -/

/-- The object `cancellation` written by `handleCancelOrder`; `cancelledAt` is the value of
`new Date()` as a timestamp. -/
structure Cancellation where
  reason : String
  cancelledAt : ℕ
  cancelledBy : String
  deriving DecidableEq

/-- An order of the local list `orders`, with the fields the profile page changes or tests
and the order total standing for the fields that are copied. -/
structure Order where
  _id : String
  orderStatus : String
  grandTotal : ℚ
  cancellation : Option Cancellation
  deriving DecidableEq

/-- `canCancelOrder(order)` (lines 178-182). -/
def canCancelOrder (order : Order) : Bool :=
  order.orderStatus != "Cancelled" && order.orderStatus != "Delivered"
    && order.orderStatus != "Shipped"

/-- The test `!cancelReason.trim()`: the reason consists of white space only (space, tab,
carriage return, line feed). -/
def reasonBlank (cancelReason : String) : Bool :=
  cancelReason.toList.all Char.isWhitespace

/-- The callback of `orders.map` in `handleCancelOrder` (lines 76-87). -/
def cancelInList (selectedOrder : Order) (cancelReason : String) (now : ℕ) (order : Order) :
    Order :=
  if order._id == selectedOrder._id then
    { order with
      orderStatus := "Cancelled"
      cancellation := some { reason := cancelReason, cancelledAt := now, cancelledBy := "user" } }
  else order

/-- The list `orders` after `handleCancelOrder` (lines 65-98); `cancel id reason` is true
when `ordersAPI.cancel(id, reason)` resolves and false when it rejects. -/
def handleCancelOrder (cancel : String → String → Bool) (now : ℕ) (selectedOrder : Order)
    (cancelReason : String) (orders : List Order) : List Order :=
  if reasonBlank cancelReason then orders
  else if cancel selectedOrder._id cancelReason then
    orders.map (cancelInList selectedOrder cancelReason now)
  else orders

/-- Two orders of a user: one being processed, one delivered. -/
def sampleOrders : List Order :=
  [{ _id := "o1", orderStatus := "Processing", grandTotal := 1000, cancellation := none },
   { _id := "o2", orderStatus := "Delivered", grandTotal := 250, cancellation := none }]

/-- A Drive link of the `/file/d/` form that also carries an `id` query parameter. -/
def mixedDriveUrl : String :=
  "https://drive.google.com/file/d/ABC/view?usp=sharing&id=XYZ"

/-- A catalogue in which product `"P"` has flat stock 10. -/
def mugCatalog : String → Option Product := fun id =>
  if id = "P" then some (flatProduct "P" 10) else none

/-- A catalogue in which product `"P"` has flat stock 2 and product `"P-"` has flat stock 5. -/
def dashCatalog : String → Option Product := fun id =>
  if id = "P" then some (flatProduct "P" 2)
  else if id = "P-" then some (flatProduct "P-" 5)
  else none

/-- A cart of three line items: product `"P"` without variant, product `"P"` with the
variant of label `""`, and product `"P-"` without variant. -/
def emptyLabelCart : List CartItem :=
  [flatItem "P" 1, variantItem "P" "" 1, flatItem "P-" 1]

/-! Binary64 arithmetic. JavaScript numbers are IEEE 754 binary64 values, and every
arithmetic operation returns the binary64 number nearest to the exact result. The
definitions below embed a finite number as the rational it denotes; `Infinity`, `NaN` and
the sign of zero are not represented. The definitions with the suffix `F64` are the money
computations of the source evaluated in this arithmetic; the definitions without the suffix
read the same expressions exactly. -/

/-- The integer nearest to `y`, a tie going to the even one. -/
def roundHalfEven (y : ℚ) : ℤ :=
  if y - ⌊y⌋ < 1 / 2 then ⌊y⌋
  else if 1 / 2 < y - ⌊y⌋ then ⌊y⌋ + 1
  else if ⌊y⌋ % 2 = 0 then ⌊y⌋ else ⌊y⌋ + 1

/-- The exponent of the unit in the last place of the binary64 numbers around `x`:
53 significant bits, the exponents of subnormal numbers clamped at `-1074`. -/
def ulpExp (x : ℚ) : ℤ :=
  max (Int.log 2 |x|) (-1022) - 52

/-- The binary64 number nearest to `x` (round to nearest, ties to even). Overflow is not
represented: the value is meant for `|x| < 2 ^ 1024`. -/
def rn (x : ℚ) : ℚ :=
  (roundHalfEven (x / 2 ^ ulpExp x) : ℚ) * 2 ^ ulpExp x

/-- The JavaScript operator `+` on numbers. -/
def fadd (a b : ℚ) : ℚ := rn (a + b)

/-- The JavaScript operator `-` on numbers. -/
def fsub (a b : ℚ) : ℚ := rn (a - b)

/-- The JavaScript operator `*` on numbers. -/
def fmul (a b : ℚ) : ℚ := rn (a * b)

/-- The JavaScript operator `/` on numbers, for a divisor other than zero. -/
def fdiv (a b : ℚ) : ℚ := rn (a / b)

/-- The expression `price - (price * product.discountPercent) / 100` of `addToCart`
(line 45) in binary64 arithmetic. -/
def discountedPriceF64 (price discountPercent : ℚ) : ℚ :=
  fsub price (fdiv (fmul price discountPercent) 100)

/-- The expression `basePrice × (1 − discountPercent/100)` of the specification in binary64
arithmetic. -/
def formulaPriceF64 (price discountPercent : ℚ) : ℚ :=
  fmul price (fsub 1 (fdiv discountPercent 100))

/-- The `newItem` object literal of `addToCart` (lines 44-56) in binary64 arithmetic. -/
def newItemF64 (product : Product) (quantity : ℤ) (selectedSize : Option SizeVariant) :
    CartItem :=
  let price := match selectedSize with
    | some s => s.price
    | none => product.price
  let discountedPrice := discountedPriceF64 price product.discountPercent
  { _id := product._id
    name := product.name
    image := product.images[0]?
    price := discountedPrice
    originalPrice := price
    quantity := quantity
    selectedSize := selectedSize
    category := product.category }

/-- The updater of `addToCart(product, quantity, selectedSize)` in binary64 arithmetic. -/
def addToCartF64 (product : Product) (quantity : ℤ) (selectedSize : Option SizeVariant)
    (prevItems : List CartItem) : List CartItem :=
  let existingItemIndex := findIndex (addMatches product selectedSize) prevItems
  if existingItemIndex > -1 then
    prevItems.modify (fun item => { item with quantity := item.quantity + quantity })
      existingItemIndex.toNat
  else
    prevItems ++ [newItemF64 product quantity selectedSize]

/-- The reducer of `getCartTotal` in binary64 arithmetic. -/
def getCartTotalF64 (cartItems : List CartItem) : ℚ :=
  cartItems.foldl (fun total item => fadd total (fmul item.price item.quantity)) 0

/-- The value `parseFloat(x.toFixed(2))` in binary64 arithmetic: `toFixed` writes the
decimal with two places nearest to `x` and `parseFloat` reads it as the nearest binary64
number. -/
def round2F64 (x : ℚ) : ℚ :=
  rn (round2 x)

/-- The constant `itemsTotal` of the cart page (line 96) in binary64 arithmetic. -/
def itemsTotalF64 (cartItems : List CartItem) : ℚ :=
  round2F64 (getCartTotalF64 cartItems)

/-- The expression of `grandTotal` (line 99) as a function of `itemsTotal`, in binary64
arithmetic: `parseFloat((itemsTotal + deliveryFee + otherCharges).toFixed(2))`. -/
def grandTotalOfF64 (itemsTotal : ℚ) : ℚ :=
  round2F64 (fadd (fadd itemsTotal (deliveryFeeOf itemsTotal)) otherCharges)

/-- The constant `deliveryFee` of the cart page (line 97) in binary64 arithmetic. -/
def deliveryFeeF64 (cartItems : List CartItem) : ℚ :=
  deliveryFeeOf (itemsTotalF64 cartItems)

/-- The constant `grandTotal` of the cart page (line 99) in binary64 arithmetic. -/
def grandTotalF64 (cartItems : List CartItem) : ℚ :=
  grandTotalOfF64 (itemsTotalF64 cartItems)

/-- A product whose price is the binary64 number written `3995.98`, at 75 percent discount. -/
def fractionalProduct : Product :=
  { _id := "F", name := "Lamp", images := ["lamp.png"], price := rn (399598 / 100),
    discountPercent := 75, category := "Home", stock := some 4, sizes := none }

/-- A product whose price is the binary64 number written `0.007`, at 100 percent discount. -/
def tinyProduct : Product :=
  { _id := "T", name := "Bead", images := ["bead.png"], price := rn (7 / 1000),
    discountPercent := 100, category := "Craft", stock := some 4, sizes := none }

/-- A line item of product `id` without variant at the given unit price. -/
def pricedItem (id : String) (price : ℚ) (quantity : ℤ) : CartItem :=
  { _id := id, name := "Mug", image := none, price := price, originalPrice := price,
    quantity := quantity, selectedSize := none, category := "Kitchen" }

/-- A cart of one unit at `19.99` and one unit at `0.01` (the binary64 numbers so written). -/
def centsCart : List CartItem :=
  [pricedItem "A" (rn (1999 / 100)) 1, pricedItem "B" (rn (1 / 100)) 1]

/-- The product of the second line item of `centsCart`. -/
def centProduct : Product :=
  { _id := "B", name := "Mug", images := [], price := rn (1 / 100), discountPercent := 0,
    category := "Kitchen", stock := some 9, sizes := none }

/-! ## Unfolding `addToCart` along the item list -/

theorem addToCart_nil (product : Product) (quantity : ℤ) (selectedSize : Option SizeVariant) :
    addToCart product quantity selectedSize [] = [newItem product quantity selectedSize] := by
  simp [addToCart, findIndex]

theorem addToCart_cons_match (product : Product) (quantity : ℤ)
    (selectedSize : Option SizeVariant) (x : CartItem) (xs : List CartItem)
    (h : addMatches product selectedSize x = true) :
    addToCart product quantity selectedSize (x :: xs)
      = { x with quantity := x.quantity + quantity } :: xs := by
  simp [addToCart, findIndex, List.findIdx?_cons, h]

theorem addToCart_cons_nomatch (product : Product) (quantity : ℤ)
    (selectedSize : Option SizeVariant) (x : CartItem) (xs : List CartItem)
    (h : addMatches product selectedSize x = false) :
    addToCart product quantity selectedSize (x :: xs)
      = x :: addToCart product quantity selectedSize xs := by
  unfold addToCart findIndex
  rw [List.findIdx?_cons]
  simp only [h, Bool.false_eq_true, if_false, List.findIdx?_succ]
  cases hf : List.findIdx? (addMatches product selectedSize) xs 0 with
  | none => simp
  | some i =>
    have h1 : ((i : ℤ) + 1 > -1) := by omega
    have h2 : ((i : ℤ) > -1) := by omega
    simp [h1, h2]

theorem addMatches_iff_key (product : Product) (selectedSize : Option SizeVariant)
    (item : CartItem) :
    addMatches product selectedSize item = true
      ↔ itemKey item = (product._id, optLabel selectedSize) := by
  simp [addMatches, itemKey, Prod.ext_iff]

theorem addMatches_false_of_key_ne (product : Product) (selectedSize : Option SizeVariant)
    (item : CartItem) (h : itemKey item ≠ (product._id, optLabel selectedSize)) :
    addMatches product selectedSize item = false := by
  cases hm : addMatches product selectedSize item with
  | false => rfl
  | true => exact absurd ((addMatches_iff_key product selectedSize item).mp hm) h

/-- When no item matches, `addToCart` appends the new item. -/
theorem addToCart_of_absent (product : Product) (quantity : ℤ)
    (selectedSize : Option SizeVariant) (cart : List CartItem)
    (h : ∀ item ∈ cart, addMatches product selectedSize item = false) :
    addToCart product quantity selectedSize cart
      = cart ++ [newItem product quantity selectedSize] := by
  induction cart with
  | nil => exact addToCart_nil product quantity selectedSize
  | cons x xs ih =>
    rw [addToCart_cons_nomatch _ _ _ _ _ (h x (List.mem_cons_self x xs)),
      ih (fun item hi => h item (List.mem_cons_of_mem x hi))]
    rfl

/-- When the first matching item is the one after `front`, `addToCart` adds the quantity
to it and leaves the rest alone. -/
theorem addToCart_of_first_match (product : Product) (quantity : ℤ)
    (selectedSize : Option SizeVariant) (front back : List CartItem) (x : CartItem)
    (hfront : ∀ item ∈ front, addMatches product selectedSize item = false)
    (hx : addMatches product selectedSize x = true) :
    addToCart product quantity selectedSize (front ++ x :: back)
      = front ++ { x with quantity := x.quantity + quantity } :: back := by
  induction front with
  | nil => exact addToCart_cons_match product quantity selectedSize x back hx
  | cons y ys ih =>
    rw [List.cons_append, addToCart_cons_nomatch _ _ _ _ _ (hfront y (List.mem_cons_self y ys)),
      ih (fun item hi => hfront item (List.mem_cons_of_mem y hi))]
    rfl

/-- An item that the call does not match keeps its position and its value. -/
theorem addToCart_getElem?_of_nomatch (product : Product) (quantity : ℤ)
    (selectedSize : Option SizeVariant) (cart : List CartItem) (i : ℕ) (item : CartItem)
    (hi : cart[i]? = some item) (hm : addMatches product selectedSize item = false) :
    (addToCart product quantity selectedSize cart)[i]? = some item := by
  induction cart generalizing i with
  | nil => simp at hi
  | cons x xs ih =>
    cases hx : addMatches product selectedSize x with
    | true =>
      rw [addToCart_cons_match _ _ _ _ _ hx]
      cases i with
      | zero =>
        simp only [List.getElem?_cons_zero, Option.some.injEq] at hi
        rw [hi, hm] at hx
        exact absurd hx (by simp)
      | succ j => simpa using hi
    | false =>
      rw [addToCart_cons_nomatch _ _ _ _ _ hx]
      cases i with
      | zero => simpa using hi
      | succ j =>
        simp only [List.getElem?_cons_succ] at hi ⊢
        exact ih j hi

/-- Repeated adds that all match the last item of the cart (and no earlier one) pile their
quantities onto that item. -/
theorem addAll_onto_last (calls : List AddCall) (cart : List CartItem) (item : CartItem)
    (habs : ∀ c ∈ calls, ∀ x ∈ cart, addMatches c.product c.selectedSize x = false)
    (hitem : ∀ c ∈ calls, addMatches c.product c.selectedSize item = true) :
    addAll calls (cart ++ [item])
      = cart ++ [{ item with quantity := item.quantity + (calls.map (fun c => c.quantity)).sum }] := by
  induction calls generalizing item with
  | nil => simp [addAll]
  | cons c cs ih =>
    have hstep : addAll (c :: cs) (cart ++ [item])
        = addAll cs (cart ++ [{ item with quantity := item.quantity + c.quantity }]) := by
      show addAll cs (addToCart c.product c.quantity c.selectedSize (cart ++ [item])) = _
      rw [addToCart_of_first_match c.product c.quantity c.selectedSize cart [] item
        (habs c (List.mem_cons_self c cs)) (hitem c (List.mem_cons_self c cs))]
    rw [hstep, ih _ (fun d hd => habs d (List.mem_cons_of_mem c hd))
      (fun d hd => by
        have := hitem d (List.mem_cons_of_mem c hd)
        simpa [addMatches] using this)]
    simp [add_assoc]

/-! ## Identity keys under the mutations -/

theorem itemKey_newItem (product : Product) (quantity : ℤ) (selectedSize : Option SizeVariant) :
    itemKey (newItem product quantity selectedSize) = (product._id, optLabel selectedSize) := rfl

theorem map_itemKey_addToCart (product : Product) (quantity : ℤ)
    (selectedSize : Option SizeVariant) (cart : List CartItem) :
    (addToCart product quantity selectedSize cart).map itemKey
      = if (product._id, optLabel selectedSize) ∈ cart.map itemKey then cart.map itemKey
        else cart.map itemKey ++ [(product._id, optLabel selectedSize)] := by
  induction cart with
  | nil => simp [addToCart_nil, itemKey_newItem]
  | cons x xs ih =>
    cases hx : addMatches product selectedSize x with
    | true =>
      have hk := (addMatches_iff_key product selectedSize x).mp hx
      rw [addToCart_cons_match _ _ _ _ _ hx]
      have hk2 : itemKey { x with quantity := x.quantity + quantity } = itemKey x := rfl
      simp [hk2, hk]
    | false =>
      have hk : ¬ itemKey x = (product._id, optLabel selectedSize) := by
        intro h
        rw [(addMatches_iff_key product selectedSize x).mpr h] at hx
        exact absurd hx (by simp)
      have hk2 : ¬ (product._id, optLabel selectedSize) = itemKey x := fun h => hk h.symm
      rw [addToCart_cons_nomatch _ _ _ _ _ hx, List.map_cons, ih]
      by_cases hmem : (product._id, optLabel selectedSize) ∈ xs.map itemKey
      · simp [hmem]
      · simp [hmem, hk2]

theorem uniqueKeys_addToCart (product : Product) (quantity : ℤ)
    (selectedSize : Option SizeVariant) (cart : List CartItem) (h : uniqueKeys cart) :
    uniqueKeys (addToCart product quantity selectedSize cart) := by
  unfold uniqueKeys at h ⊢
  rw [map_itemKey_addToCart]
  split
  · exact h
  · rename_i hmem
    rw [List.nodup_append]
    refine ⟨h, List.nodup_singleton _, ?_⟩
    intro k hk hk2
    rw [List.mem_singleton] at hk2
    exact hmem (hk2 ▸ hk)

theorem uniqueKeys_removeFromCart (productId : String) (sizeLabel : Option String)
    (cart : List CartItem) (h : uniqueKeys cart) :
    uniqueKeys (removeFromCart productId sizeLabel cart) :=
  List.Nodup.sublist (List.Sublist.map itemKey (List.filter_sublist cart)) h

theorem itemKey_updateItem (productId : String) (quantity : ℤ) (sizeLabel : Option String)
    (item : CartItem) : itemKey (updateItem productId quantity sizeLabel item) = itemKey item := by
  unfold updateItem
  split
  · rfl
  · split <;> rfl

theorem uniqueKeys_updateQuantity (productId : String) (quantity : ℤ)
    (sizeLabel : Option String) (cart : List CartItem) (h : uniqueKeys cart) :
    uniqueKeys (updateQuantity productId quantity sizeLabel cart) := by
  unfold updateQuantity
  split
  · exact uniqueKeys_removeFromCart productId sizeLabel cart h
  · unfold uniqueKeys at h ⊢
    rw [List.map_map]
    have : itemKey ∘ updateItem productId quantity sizeLabel = itemKey :=
      funext (fun item => itemKey_updateItem productId quantity sizeLabel item)
    rw [this]
    exact h

theorem uniqueKeys_applyOp (cart : List CartItem) (op : CartOp) (h : uniqueKeys cart) :
    uniqueKeys (applyOp cart op) := by
  cases op with
  | add product quantity selectedSize => exact uniqueKeys_addToCart product quantity selectedSize cart h
  | remove productId sizeLabel => exact uniqueKeys_removeFromCart productId sizeLabel cart h
  | update productId quantity sizeLabel =>
    exact uniqueKeys_updateQuantity productId quantity sizeLabel cart h
  | clear => exact List.nodup_nil

theorem uniqueKeys_foldl_applyOp (ops : List CartOp) (cart : List CartItem)
    (h : uniqueKeys cart) : uniqueKeys (ops.foldl applyOp cart) := by
  induction ops generalizing cart with
  | nil => exact h
  | cons op rest ih => exact ih (applyOp cart op) (uniqueKeys_applyOp cart op h)

/-! ## Claims about `addToCart` -/

/-- C1: on a cart that holds no line item with the key of the calls, a non-empty sequence
of `addToCart` calls that all carry the same product id and variant label (with any integer
quantities, in particular quantities at least 1) leaves the old items in place followed by
exactly one line item with that key; its quantity is the sum of the quantities, and its
price is the discounted price computed from the product and variant of the first call,
whatever price or discount percent the later calls carry. -/
theorem addToCart_same_key_merges (cart : List CartItem) (first : AddCall)
    (rest : List AddCall)
    (habs : ∀ item ∈ cart, itemKey item ≠ (first.product._id, optLabel first.selectedSize))
    (hsame : ∀ c ∈ rest, c.product._id = first.product._id
      ∧ optLabel c.selectedSize = optLabel first.selectedSize) :
    ∃ merged : CartItem,
      addAll (first :: rest) cart = cart ++ [merged]
      ∧ (addAll (first :: rest) cart).filter
          (fun item => itemKey item == (first.product._id, optLabel first.selectedSize))
          = [merged]
      ∧ merged.quantity = ((first :: rest).map (fun c => c.quantity)).sum
      ∧ merged.price =
          (match first.selectedSize with
            | some v => v.price
            | none => first.product.price)
          - (match first.selectedSize with
            | some v => v.price
            | none => first.product.price) * first.product.discountPercent / 100 := by
  have hkey : ∀ c ∈ rest, ∀ x : CartItem,
      addMatches c.product c.selectedSize x = addMatches first.product first.selectedSize x := by
    intro c hc x
    obtain ⟨h1, h2⟩ := hsame c hc
    simp [addMatches, h1, h2]
  have hfirst : ∀ x ∈ cart, addMatches first.product first.selectedSize x = false :=
    fun x hx => addMatches_false_of_key_ne _ _ x (habs x hx)
  have hrun : addAll (first :: rest) cart
      = cart ++ [{ newItem first.product first.quantity first.selectedSize with
          quantity := first.quantity + (rest.map (fun c => c.quantity)).sum }] := by
    show addAll rest (addToCart first.product first.quantity first.selectedSize cart) = _
    rw [addToCart_of_absent _ _ _ _ hfirst]
    exact addAll_onto_last rest cart _
      (fun c hc x hx => by rw [hkey c hc]; exact hfirst x hx)
      (fun c hc => by
        rw [hkey c hc]
        exact (addMatches_iff_key _ _ _).mpr (itemKey_newItem _ _ _))
  refine ⟨_, hrun, ?_, ?_, ?_⟩
  · rw [hrun, List.filter_append]
    have hnil : cart.filter
        (fun item => itemKey item == (first.product._id, optLabel first.selectedSize)) = [] := by
      rw [List.filter_eq_nil_iff]
      intro x hx
      simpa using habs x hx
    rw [hnil]
    simp [itemKey, newItem]
  · simp
  · cases first.selectedSize <;> simp [newItem]

/-- Witness of C1: three adds of product `"P"` without variant to the empty cart, the later
ones carrying another price and discount. -/
theorem addToCart_same_key_merges_witness :
    ∃ merged : CartItem,
      addAll
        [ ⟨⟨"P", "n", ["i"], 200, 10, "c", some 5, none⟩, 1, none⟩,
          ⟨⟨"P", "n", ["i"], 300, 50, "c", some 5, none⟩, 2, none⟩,
          ⟨⟨"P", "n", ["i"], 400, 0, "c", some 5, none⟩, 4, none⟩ ] [] = [] ++ [merged]
      ∧ merged.quantity = 7 ∧ merged.price = 180 := by
  obtain ⟨merged, h1, _, h3, h4⟩ := addToCart_same_key_merges []
    ⟨⟨"P", "n", ["i"], 200, 10, "c", some 5, none⟩, 1, none⟩
    [ ⟨⟨"P", "n", ["i"], 300, 50, "c", some 5, none⟩, 2, none⟩,
      ⟨⟨"P", "n", ["i"], 400, 0, "c", some 5, none⟩, 4, none⟩ ]
    (by simp) (by simp [optLabel])
  refine ⟨merged, h1, ?_, ?_⟩
  · rw [h3]; simp
  · rw [h4]; norm_num

/-- C2: on a cart holding neither key, adding product `P` with variant `A` and then with a
variant `B` of another label appends two line items, one per variant label, with different
identity keys and each with quantity `q`. -/
theorem addToCart_two_variants (cart : List CartItem) (P : Product) (q : ℤ)
    (A B : SizeVariant) (hlabel : A.label ≠ B.label)
    (hA : ∀ item ∈ cart, itemKey item ≠ (P._id, some A.label))
    (hB : ∀ item ∈ cart, itemKey item ≠ (P._id, some B.label)) :
    addToCart P q (some B) (addToCart P q (some A) cart)
        = cart ++ [newItem P q (some A), newItem P q (some B)]
      ∧ itemKey (newItem P q (some A)) = (P._id, some A.label)
      ∧ itemKey (newItem P q (some B)) = (P._id, some B.label)
      ∧ itemKey (newItem P q (some A)) ≠ itemKey (newItem P q (some B))
      ∧ (newItem P q (some A)).quantity = q
      ∧ (newItem P q (some B)).quantity = q := by
  have h1 : addToCart P q (some A) cart = cart ++ [newItem P q (some A)] :=
    addToCart_of_absent P q (some A) cart
      (fun x hx => addMatches_false_of_key_ne P (some A) x (hA x hx))
  have h2 : addToCart P q (some B) (cart ++ [newItem P q (some A)])
      = (cart ++ [newItem P q (some A)]) ++ [newItem P q (some B)] := by
    apply addToCart_of_absent
    intro x hx
    rw [List.mem_append, List.mem_singleton] at hx
    rcases hx with hx | hx
    · exact addMatches_false_of_key_ne P (some B) x (hB x hx)
    · subst hx
      apply addMatches_false_of_key_ne
      simp [itemKey, newItem, optLabel, hlabel]
  refine ⟨?_, rfl, rfl, ?_, rfl, rfl⟩
  · rw [h1, h2]; simp
  · simp [itemKey, newItem, optLabel, hlabel]

/-- Witness of C2: sizes `"S"` and `"M"` of one product added to the empty cart. -/
theorem addToCart_two_variants_witness :
    addToCart ⟨"P", "n", ["i"], 100, 0, "c", none, none⟩ 2 (some ⟨"M", 120, 3⟩)
        (addToCart ⟨"P", "n", ["i"], 100, 0, "c", none, none⟩ 2 (some ⟨"S", 110, 3⟩) [])
      = [] ++ [newItem ⟨"P", "n", ["i"], 100, 0, "c", none, none⟩ 2 (some ⟨"S", 110, 3⟩),
          newItem ⟨"P", "n", ["i"], 100, 0, "c", none, none⟩ 2 (some ⟨"M", 120, 3⟩)] :=
  (addToCart_two_variants [] ⟨"P", "n", ["i"], 100, 0, "c", none, none⟩ 2
    ⟨"S", 110, 3⟩ ⟨"M", 120, 3⟩ (by decide) (by simp) (by simp)).1

theorem plainCart_reachable : addToCart plainProduct 2 none [] = plainCart := by
  simp [addToCart_nil, newItem, plainProduct, plainCart]
  norm_num

/-- C3: uniqueness of the identity key (product id, selected variant label or none) is
preserved by `addToCart`, `removeFromCart`, `updateQuantity` and `clearCart`, and it holds
in every cart reached from the empty cart by these mutations. -/
theorem uniqueKeys_invariant (cart : List CartItem) (h : uniqueKeys cart) :
    (∀ (product : Product) (quantity : ℤ) (selectedSize : Option SizeVariant),
        uniqueKeys (addToCart product quantity selectedSize cart))
      ∧ (∀ (productId : String) (sizeLabel : Option String),
        uniqueKeys (removeFromCart productId sizeLabel cart))
      ∧ (∀ (productId : String) (quantity : ℤ) (sizeLabel : Option String),
        uniqueKeys (updateQuantity productId quantity sizeLabel cart))
      ∧ uniqueKeys (clearCart cart)
      ∧ (∀ ops : List CartOp, uniqueKeys (runOps ops)) :=
  ⟨fun product quantity selectedSize => uniqueKeys_addToCart product quantity selectedSize cart h,
    fun productId sizeLabel => uniqueKeys_removeFromCart productId sizeLabel cart h,
    fun productId quantity sizeLabel =>
      uniqueKeys_updateQuantity productId quantity sizeLabel cart h,
    List.nodup_nil,
    fun ops => uniqueKeys_foldl_applyOp ops [] List.nodup_nil⟩

/-- Witness of C3: the one-item cart has unique keys, and so has the cart after adding the
same product with a size. -/
theorem uniqueKeys_invariant_witness :
    uniqueKeys plainCart
      ∧ uniqueKeys (addToCart plainProduct 1 (some ⟨"L", 20, 4⟩) plainCart) :=
  ⟨by simp [uniqueKeys, plainCart],
    (uniqueKeys_invariant plainCart (by simp [uniqueKeys, plainCart])).1
      plainProduct 1 (some ⟨"L", 20, 4⟩)⟩

/-! ## `removeFromCart` and `updateQuantity` -/

/-- For a label argument that is `null` or a non-empty string, the filter callback of
`removeFromCart` keeps exactly the items whose identity key differs from the requested one. -/
theorem removeKeeps_eq_key_ne (productId : String) (sizeLabel : Option String)
    (hlabel : sizeLabel ≠ some "") (item : CartItem) :
    removeKeeps productId sizeLabel item = (itemKey item != (productId, sizeLabel)) := by
  rcases item with ⟨id, name, image, price, originalPrice, quantity, sel, category⟩
  rw [Bool.eq_iff_iff]
  cases sel with
  | none =>
    cases sizeLabel with
    | none => simp [removeKeeps, labelFalsy, itemKey, optLabel]
    | some s =>
      have hs : s ≠ "" := fun h => hlabel (by rw [h])
      simp [removeKeeps, labelFalsy, labelEqArg, itemKey, optLabel, hs]
  | some v =>
    cases sizeLabel with
    | none => simp [removeKeeps, labelEqArg, itemKey, optLabel]
    | some s =>
      simp only [removeKeeps, labelEqArg, itemKey, optLabel]
      simp
      tauto

/-- For a label argument that is `null` or a non-empty string, `removeFromCart` returns
exactly the items whose identity key differs from the requested one, in order. -/
theorem removeFromCart_eq_filter_key (productId : String) (sizeLabel : Option String)
    (hlabel : sizeLabel ≠ some "") (cart : List CartItem) :
    removeFromCart productId sizeLabel cart
      = cart.filter (fun item => itemKey item != (productId, sizeLabel)) := by
  unfold removeFromCart
  congr 1
  funext item
  exact removeKeeps_eq_key_ne productId sizeLabel hlabel item

/-- C5, the failing input: the cart holds only the no-variant item of product `"P"`, so no
item has the key (`"P"`, label `""`); still `removeFromCart("P", "")` removes the item,
because the empty label is falsy in the test `!sizeLabel`. -/
theorem removeFromCart_empty_label_removes_plain_item :
    plainCart.filter (fun item => itemKey item != ("P", some "")) = plainCart
      ∧ removeFromCart "P" (some "") plainCart = []
      ∧ removeFromCart "P" (some "") plainCart ≠ plainCart := by
  refine ⟨?_, ?_, ?_⟩ <;>
    simp [plainCart, removeFromCart, removeKeeps, labelFalsy, itemKey, optLabel]

/-- C6: for a quantity `q ≤ 0`, `updateQuantity(productId, q, label)` produces the same
cart as `removeFromCart(productId, label)`. -/
theorem updateQuantity_nonpos_eq_removeFromCart (cart : List CartItem) (productId : String)
    (sizeLabel : Option String) (q : ℤ) (hq : q ≤ 0) :
    updateQuantity productId q sizeLabel cart = removeFromCart productId sizeLabel cart := by
  unfold updateQuantity
  rw [if_pos hq]

/-- Witness of C6: setting the quantity of the only item to 0 empties the cart, as removing
it does. -/
theorem updateQuantity_nonpos_eq_removeFromCart_witness :
    updateQuantity "P" 0 none plainCart = removeFromCart "P" none plainCart
      ∧ removeFromCart "P" none plainCart = [] :=
  ⟨updateQuantity_nonpos_eq_removeFromCart plainCart "P" none 0 (by decide),
    by simp [plainCart, removeFromCart, removeKeeps, labelFalsy]⟩

/-- For a label argument that is `null` or a non-empty string, the map callback of
`updateQuantity` sets the quantity of the item with the requested identity key and returns
every other item as it is. -/
theorem updateItem_eq_of_label (productId : String) (q : ℤ) (sizeLabel : Option String)
    (hlabel : sizeLabel ≠ some "") (item : CartItem) :
    updateItem productId q sizeLabel item
      = if itemKey item = (productId, sizeLabel) then { item with quantity := q } else item := by
  rcases item with ⟨id, name, image, price, originalPrice, quantity, sel, category⟩
  cases sel with
  | none =>
    cases sizeLabel with
    | none =>
      by_cases h1 : id = productId <;>
        simp [updateItem, labelFalsy, labelEqArg, itemKey, optLabel, h1]
    | some s =>
      have hs : s ≠ "" := fun h => hlabel (by rw [h])
      simp [updateItem, labelFalsy, labelEqArg, itemKey, optLabel, hs]
  | some v =>
    cases sizeLabel with
    | none => simp [updateItem, labelEqArg, itemKey, optLabel]
    | some s =>
      by_cases h1 : id = productId <;> by_cases h2 : v.label = s <;>
        simp [updateItem, labelEqArg, itemKey, optLabel, h1, h2]

/-- For a positive quantity and a label argument that is `null` or a non-empty string,
`updateQuantity` changes only the quantity of the items with the requested key. -/
theorem updateQuantity_pos_eq_map_key (productId : String) (q : ℤ) (hq : 0 < q)
    (sizeLabel : Option String) (hlabel : sizeLabel ≠ some "") (cart : List CartItem) :
    updateQuantity productId q sizeLabel cart
      = cart.map (fun item =>
          if itemKey item = (productId, sizeLabel) then { item with quantity := q }
          else item) := by
  have hq2 : ¬ q ≤ 0 := by omega
  simp only [updateQuantity, hq2, if_false]
  congr 1
  funext item
  exact updateItem_eq_of_label productId q sizeLabel hlabel item

/-- C7, the failing input: no item of the cart has the key (`"P"`, label `""`), yet
`updateQuantity("P", 7, "")` changes the quantity of the no-variant item of `"P"` from 2 to
7, because the empty label is falsy in the test `!sizeLabel`. -/
theorem updateQuantity_empty_label_changes_plain_item :
    (∀ item ∈ plainCart, itemKey item ≠ ("P", some ""))
      ∧ (updateQuantity "P" 7 (some "") plainCart).map (fun item => item.quantity) = [7]
      ∧ plainCart.map (fun item => item.quantity) = [2]
      ∧ updateQuantity "P" 7 (some "") plainCart ≠ plainCart := by
  refine ⟨?_, ?_, ?_, ?_⟩ <;>
    simp [plainCart, updateQuantity, updateItem, labelFalsy, itemKey, optLabel]

/-- C8: `addToCart` never matches a request against a line item that differs from it in
having a variant: an item without variant keeps its place and value when the call carries a
variant, and an item with a variant keeps its place and value when the call carries none. -/
theorem addToCart_variant_frame (cart : List CartItem) (product : Product) (q : ℤ)
    (selectedSize : Option SizeVariant) (i : ℕ) (item : CartItem)
    (hi : cart[i]? = some item)
    (hdiff : item.selectedSize.isSome ≠ selectedSize.isSome) :
    (addToCart product q selectedSize cart)[i]? = some item := by
  apply addToCart_getElem?_of_nomatch product q selectedSize cart i item hi
  apply addMatches_false_of_key_ne
  intro hk
  apply hdiff
  have h2 : optLabel item.selectedSize = optLabel selectedSize := by
    simpa [itemKey] using (congrArg Prod.snd hk)
  cases hs : item.selectedSize <;> cases ht : selectedSize <;>
    simp [optLabel, hs, ht] at h2 ⊢

/-- Witness of C8: adding size `"L"` of product `"P"` leaves the no-variant item of `"P"`
at index 0 as it was. -/
theorem addToCart_variant_frame_witness :
    (addToCart plainProduct 1 (some ⟨"L", 20, 4⟩) plainCart)[0]? = plainCart[0]? :=
  addToCart_variant_frame plainCart plainProduct 1 (some ⟨"L", 20, 4⟩) 0
    ⟨"P", "Mug", some "mug.png", 99 / 8, 25 / 2, 2, none, "Kitchen"⟩
    (by simp [plainCart]) (by simp)

/-! ## Totals -/

theorem foldl_add_price (cart : List CartItem) (acc : ℚ) :
    cart.foldl (fun (total : ℚ) (item : CartItem) => total + item.price * item.quantity) acc
      = acc + (cart.map (fun item => item.price * (item.quantity : ℚ))).sum := by
  induction cart generalizing acc with
  | nil => simp
  | cons x xs ih => simp [ih, add_assoc]

theorem foldl_add_quantity (cart : List CartItem) (acc : ℤ) :
    cart.foldl (fun count item => count + item.quantity) acc
      = acc + (cart.map (fun item => item.quantity)).sum := by
  induction cart generalizing acc with
  | nil => simp
  | cons x xs ih => simp [ih, add_assoc]

/-- C9 as stated fails: for the cart holding two units at unit price 12.375,
`getCartTotal` returns 24.75, while rounding the unit price to 2 decimals first gives
2 × 12.38 = 24.76; the rounded `itemsTotal` of the cart page is 24.75 as well. -/
theorem getCartTotal_ne_perItemRoundedTotal :
    getCartTotal plainCart = 99 / 4
      ∧ perItemRoundedTotal plainCart = 619 / 25
      ∧ itemsTotal plainCart = 99 / 4
      ∧ getCartTotal plainCart ≠ perItemRoundedTotal plainCart := by
  have h1 : getCartTotal plainCart = 99 / 4 := by
    simp [getCartTotal, plainCart]; norm_num
  have hfloor : ⌊(99 / 8 : ℚ) * 100 + 1 / 2⌋ = 1238 := by
    rw [Int.floor_eq_iff]; constructor <;> norm_num
  have hfloor2 : ⌊(99 / 4 : ℚ) * 100 + 1 / 2⌋ = 2475 := by
    rw [Int.floor_eq_iff]; constructor <;> norm_num
  have h2 : perItemRoundedTotal plainCart = 619 / 25 := by
    simp only [perItemRoundedTotal, plainCart, round2, List.map_cons, List.map_nil,
      List.sum_cons, List.sum_nil]
    rw [if_neg (by norm_num), hfloor]
    norm_num
  have h3 : itemsTotal plainCart = 99 / 4 := by
    rw [itemsTotal, h1, round2, if_neg (by norm_num), hfloor2]
    norm_num
  refine ⟨h1, h2, h3, ?_⟩
  rw [h1, h2]
  norm_num

/-- C9, amended: `getCartTotal` returns the sum over all line items of the stored unit
price times the quantity, no item price being rounded; the cart page rounds this sum once
to 2 decimal places (`itemsTotal`). -/
theorem getCartTotal_eq_sum (cart : List CartItem) :
    getCartTotal cart = (cart.map (fun item => item.price * (item.quantity : ℚ))).sum
      ∧ itemsTotal cart
        = round2 ((cart.map (fun item => item.price * (item.quantity : ℚ))).sum) := by
  have h : getCartTotal cart
      = (cart.map (fun item => item.price * (item.quantity : ℚ))).sum := by
    simp [getCartTotal, foldl_add_price]
  exact ⟨h, by rw [itemsTotal, h]⟩

/-- C10: `getCartCount` returns the sum of the quantities of all line items, which is 0 for
the empty cart; it is not the number of line items (a cart of one item with quantity 2 has
count 2). -/
theorem getCartCount_eq_sum (cart : List CartItem) :
    getCartCount cart = (cart.map (fun item => item.quantity)).sum
      ∧ getCartCount [] = 0
      ∧ getCartCount plainCart = 2 ∧ plainCart.length = 1 := by
  refine ⟨by simp [getCartCount, foldl_add_quantity], rfl, ?_, rfl⟩
  simp [getCartCount, plainCart]

/-! ## Persistence and pricing lines -/

/-- C11, evaluated: `clearCart` empties the list and removes the `'cart'` slot, but the
save effect that runs after the change of `cartItems` writes the slot again, so afterwards
the slot holds the serialised empty list and is not without value. -/
theorem clearCart_then_saveEffect_saved (s : CartStore) :
    (clearCartStore s).saved = none
      ∧ (saveEffect (clearCartStore s)).cartItems = []
      ∧ (saveEffect (clearCartStore s)).saved = some []
      ∧ (saveEffect (clearCartStore s)).saved ≠ none := by
  refine ⟨rfl, rfl, rfl, ?_⟩
  simp [saveEffect, clearCartStore]

/-- A multiple of one hundredth is its own rounding to 2 decimal places. -/
theorem round2_hundredths (k : ℤ) : round2 ((k : ℚ) / 100) = (k : ℚ) / 100 := by
  unfold round2
  by_cases hk : ((k : ℚ) / 100) < 0
  · rw [if_pos hk]
    have hfl : ⌊-((k : ℚ) / 100) * 100 + 1 / 2⌋ = -k := by
      rw [Int.floor_eq_iff]
      constructor
      · push_cast; linarith
      · push_cast; linarith
    rw [hfl]
    push_cast
    ring
  · rw [if_neg hk]
    have hfl : ⌊(k : ℚ) / 100 * 100 + 1 / 2⌋ = k := by
      rw [Int.floor_eq_iff]
      constructor
      · linarith
      · linarith
    rw [hfl]

/-- An integer amount is its own rounding to 2 decimal places. -/
theorem round2_intCast (n : ℤ) : round2 (n : ℚ) = (n : ℚ) := by
  have h := round2_hundredths (n * 100)
  have e : (((n * 100 : ℤ) : ℚ)) / 100 = (n : ℚ) := by push_cast; ring
  rw [e] at h
  exact h

theorem getCartTotal_pricedCart (price : ℚ) : getCartTotal (pricedCart price) = price := by
  simp [getCartTotal, pricedCart]

/-- C12: the delivery fee is 0 exactly when the items total is at least 999 and 50 exactly
when it is below 999; the totals 950.00, 999.00 and 1000.00 give the fees 50, 0 and 0,
also when they arise as the rounded total of a cart. -/
theorem deliveryFee_threshold (t : ℚ) :
    (deliveryFeeOf t = 0 ↔ 999 ≤ t)
      ∧ (deliveryFeeOf t = 50 ↔ t < 999)
      ∧ deliveryFeeOf 950 = 50 ∧ deliveryFeeOf 999 = 0 ∧ deliveryFeeOf 1000 = 0
      ∧ deliveryFee (pricedCart 950) = 50
      ∧ deliveryFee (pricedCart 999) = 0
      ∧ deliveryFee (pricedCart 1000) = 0 := by
  have h950 : itemsTotal (pricedCart 950) = 950 := by
    rw [itemsTotal, getCartTotal_pricedCart]; exact_mod_cast round2_intCast 950
  have h999 : itemsTotal (pricedCart 999) = 999 := by
    rw [itemsTotal, getCartTotal_pricedCart]; exact_mod_cast round2_intCast 999
  have h1000 : itemsTotal (pricedCart 1000) = 1000 := by
    rw [itemsTotal, getCartTotal_pricedCart]; exact_mod_cast round2_intCast 1000
  refine ⟨?_, ?_, ?_, ?_, ?_, ?_, ?_, ?_⟩
  · unfold deliveryFeeOf
    by_cases h : t ≥ 999
    · simp [h]
    · simp [h]
  · unfold deliveryFeeOf
    by_cases h : t ≥ 999
    · simp [h]
    · simp [h]; linarith
  · norm_num [deliveryFeeOf]
  · norm_num [deliveryFeeOf]
  · norm_num [deliveryFeeOf]
  · rw [deliveryFee, h950]; norm_num [deliveryFeeOf]
  · rw [deliveryFee, h999]; norm_num [deliveryFeeOf]
  · rw [deliveryFee, h1000]; norm_num [deliveryFeeOf]

/-! ## Stock reconciliation -/

theorem foldl_cons_entries {α β : Type} (f : α → β) (xs : List α) (acc : List β) :
    xs.foldl (fun stockData item => f item :: stockData) acc = (xs.map f).reverse ++ acc := by
  induction xs generalizing acc with
  | nil => simp
  | cons x rest ih => simp [ih]

/-- For a non-empty cart `fetchProductsStock` holds the writes of the line items, the
latest first. -/
theorem fetchProductsStock_eq (getById : String → Option Product) (cartItems : List CartItem)
    (prev : StockData) (hne : cartItems ≠ []) :
    fetchProductsStock getById cartItems prev = (cartItems.map (entryFor getById)).reverse := by
  have hlen : ¬ cartItems.length = 0 := by
    intro h
    exact hne (List.length_eq_zero.mp h)
  simp [fetchProductsStock, hlen, foldl_cons_entries]

/-- In a list of writes with pairwise different keys every write is the one read back under
its key. -/
theorem lookup_of_mem_of_nodup (writes : StockData)
    (hnodup : (writes.map (fun e => e.1)).Nodup) (e : String × StockEntry) (he : e ∈ writes) :
    stockLookup writes e.1 = some e.2 := by
  unfold stockLookup
  obtain ⟨k, v⟩ := e
  induction writes with
  | nil => simp at he
  | cons w rest ih =>
    obtain ⟨k2, v2⟩ := w
    rw [List.map_cons, List.nodup_cons] at hnodup
    rw [List.lookup_cons]
    rcases List.mem_cons.mp he with h | h
    · have hk : k = k2 := congrArg Prod.fst h
      have hv : v = v2 := congrArg Prod.snd h
      simp [hk, hv]
    · have hne : k ≠ k2 := by
        intro heq
        exact hnodup.1 (heq ▸ List.mem_map_of_mem (fun e => e.1) h)
      have hb : (k == k2) = false := by simpa using hne
      rw [hb]
      exact ih hnodup.2 h

/-- For an item without variant, or with a variant of non-empty label, the write made from
a fetched product goes under the stock key of the item and records the stock of the variant
of that label (0 when the product has none), resp. the flat stock (0 when absent). -/
theorem fetchedEntry_of_label_ne_empty (item : CartItem) (product : Product)
    (hlabel : optLabel item.selectedSize ≠ some "") :
    (fetchedEntry item product).1 = stockKey item
      ∧ (fetchedEntry item product).2.stock =
        (match item.selectedSize with
          | some sel =>
            (match (product.sizes.getD []).find? (fun s => s.label == sel.label) with
              | some v => v.stock
              | none => 0)
          | none => product.stock.getD 0) := by
  cases hsel : item.selectedSize with
  | none => simp [fetchedEntry, plainEntry, stockKey, hsel]
  | some sel =>
    have hne : sel.label ≠ "" := by
      intro h
      apply hlabel
      simp [optLabel, hsel, h]
    simp [fetchedEntry, stockKey, hsel, hne]

/-- C14, the failing input: the item carries the variant of label `""`, and the fetched
product has that variant with stock 5; the write made for the item goes under the key `"P"`
with the flat stock 0, and the stock read back for the item (key `"P-"`) is 0, not 5. -/
theorem fetchedEntry_empty_label_records_flat_stock :
    ((sizedProduct "P" [⟨"", 100, 5⟩]).sizes.getD []).find? (fun s => s.label == "")
        = some ⟨"", 100, 5⟩
      ∧ (fetchedEntry (variantItem "P" "" 1) (sizedProduct "P" [⟨"", 100, 5⟩])).1 = "P"
      ∧ (fetchedEntry (variantItem "P" "" 1) (sizedProduct "P" [⟨"", 100, 5⟩])).2.stock = 0
      ∧ stockKey (variantItem "P" "" 1) = "P-"
      ∧ getAvailableStock
          (fetchProductsStock (fun _ => some (sizedProduct "P" [⟨"", 100, 5⟩]))
            [variantItem "P" "" 1] [])
          (variantItem "P" "" 1) = 0 := by
  refine ⟨by simp [sizedProduct], by simp [fetchedEntry, variantItem, plainEntry],
    by simp [fetchedEntry, variantItem, plainEntry, sizedProduct], by decide, ?_⟩
  simp [getAvailableStock, stockLookup, fetchProductsStock, entryFor, fetchedEntry,
    variantItem, plainEntry, stockKey, List.lookup_cons]

/-- C15: for a line item whose stock entry is loaded with a stock `s ≥ 0`, the available
stock is `s`, the item is reported out of stock iff `s = 0`, and it is reported available
with an insufficient quantity iff `s ≠ 0` and its quantity exceeds `s`. In the scenario
cart, 5 units against variant stock 3 are available, 3 in stock and insufficient; 1 unit
against flat stock 0 is out of stock. -/
theorem stock_classification (productsStock : StockData) (item : CartItem)
    (entry : StockEntry) (hload : stockLookup productsStock (stockKey item) = some entry)
    (hs : 0 ≤ entry.stock) :
    getAvailableStock productsStock item = entry.stock
      ∧ (isProductAvailable productsStock item = false ↔ entry.stock = 0)
      ∧ ((isProductAvailable productsStock item = true
            ∧ isQuantityAvailable productsStock item = false)
          ↔ (entry.stock ≠ 0 ∧ item.quantity > entry.stock))
      ∧ isProductAvailable (fetchProductsStock scenarioCatalog scenarioCart [])
          (variantItem "P1" "L" 5) = true
      ∧ getAvailableStock (fetchProductsStock scenarioCatalog scenarioCart [])
          (variantItem "P1" "L" 5) = 3
      ∧ isQuantityAvailable (fetchProductsStock scenarioCatalog scenarioCart [])
          (variantItem "P1" "L" 5) = false
      ∧ isProductAvailable (fetchProductsStock scenarioCatalog scenarioCart [])
          (flatItem "P2" 1) = false := by
  have hav : getAvailableStock productsStock item = entry.stock := by
    simp [getAvailableStock, hload]
  refine ⟨hav, ?_, ?_, by decide, by decide, by decide, by decide⟩
  · simp only [isProductAvailable, hload, decide_eq_false_iff_not]
    omega
  · simp only [isProductAvailable, isQuantityAvailable, hav, hload, decide_eq_true_eq,
      decide_eq_false_iff_not]
    omega

/-- Witness of C15: the entry loaded for 5 units of variant `"L"` has stock 3. -/
theorem stock_classification_witness :
    getAvailableStock (fetchProductsStock scenarioCatalog scenarioCart [])
        (variantItem "P1" "L" 5) = 3
      ∧ (isProductAvailable (fetchProductsStock scenarioCatalog scenarioCart [])
          (variantItem "P1" "L" 5) = false ↔ (3 : ℤ) = 0) :=
  ⟨(stock_classification (fetchProductsStock scenarioCatalog scenarioCart [])
      (variantItem "P1" "L" 5) ⟨3, 100, "Shirt", true, some "L", none⟩
      (by decide) (by decide)).1,
    (stock_classification (fetchProductsStock scenarioCatalog scenarioCart [])
      (variantItem "P1" "L" 5) ⟨3, 100, "Shirt", true, some "L", none⟩
      (by decide) (by decide)).2.1⟩

/-! ## Checkout -/

theorem isQuantityAvailable_false_of_gt (productsStock : StockData) (item : CartItem)
    (h : item.quantity > getAvailableStock productsStock item) :
    isQuantityAvailable productsStock item = false := by
  simp only [isQuantityAvailable, decide_eq_false_iff_not]
  omega

/-- A line item that is out of stock or short of stock keeps `handleCheckout` from reaching
`setShowAddressModal(true)`. -/
theorem handleCheckout_not_open (isAuthenticated : Bool) (user : Option User)
    (productsStock : StockData) (cartItems : List CartItem) (item : CartItem)
    (hmem : item ∈ cartItems)
    (hitem : isProductAvailable productsStock item = false
      ∨ isQuantityAvailable productsStock item = false) :
    opensAddressModal (handleCheckout isAuthenticated user productsStock cartItems) = false := by
  unfold handleCheckout
  by_cases ha : (!isAuthenticated) = true
  · rw [if_pos ha]; rfl
  · rw [if_neg ha]
    by_cases hl : cartItems.length = 0
    · rw [if_pos hl]; rfl
    · rw [if_neg hl]
      dsimp only
      by_cases hout :
          (cartItems.filter (fun item => !isProductAvailable productsStock item)).length > 0
      · rw [if_pos hout]; rfl
      · rw [if_neg hout]
        have hins :
            (cartItems.filter (fun item => !isQuantityAvailable productsStock item)).length
              > 0 := by
          rcases hitem with h | h
          · exfalso
            apply hout
            apply List.length_pos_of_mem (a := item)
            rw [List.mem_filter]
            exact ⟨hmem, by simp [h]⟩
          · apply List.length_pos_of_mem (a := item)
            rw [List.mem_filter]
            exact ⟨hmem, by simp [h]⟩
        rw [if_pos hins]; rfl

/-- A line item that is out of stock or short of stock disables the checkout button. -/
theorem checkoutDisabled_of_item (loadingStock : Bool) (productsStock : StockData)
    (cartItems : List CartItem) (item : CartItem) (hmem : item ∈ cartItems)
    (hitem : isProductAvailable productsStock item = false
      ∨ isQuantityAvailable productsStock item = false) :
    checkoutDisabled loadingStock productsStock cartItems = true := by
  unfold checkoutDisabled
  rw [Bool.or_eq_true]
  right
  rw [List.any_eq_true]
  refine ⟨item, hmem, ?_⟩
  rcases hitem with h | h
  · simp [h]
  · simp [h]

/-- C16: for an authenticated user, if some line item of the cart is out of stock or has a
quantity greater than its available stock, `handleCheckout` does not open the address
modal and the checkout button is disabled. -/
theorem checkout_blocked_of_bad_item (user : Option User) (productsStock : StockData)
    (cartItems : List CartItem) (loadingStock : Bool)
    (hbad : ∃ item ∈ cartItems, isProductAvailable productsStock item = false
      ∨ item.quantity > getAvailableStock productsStock item) :
    opensAddressModal (handleCheckout true user productsStock cartItems) = false
      ∧ checkoutDisabled loadingStock productsStock cartItems = true := by
  obtain ⟨item, hmem, hitem⟩ := hbad
  have hitem2 : isProductAvailable productsStock item = false
      ∨ isQuantityAvailable productsStock item = false :=
    hitem.imp id (isQuantityAvailable_false_of_gt productsStock item)
  constructor
  · exact handleCheckout_not_open true user productsStock cartItems item hmem hitem2
  · exact checkoutDisabled_of_item loadingStock productsStock cartItems item hmem hitem2

/-- Witness of C16: in the scenario cart the second item is out of stock, so checkout is
blocked. -/
theorem checkout_blocked_of_bad_item_witness :
    opensAddressModal (handleCheckout true none
        (fetchProductsStock scenarioCatalog scenarioCart []) scenarioCart) = false
      ∧ checkoutDisabled false (fetchProductsStock scenarioCatalog scenarioCart [])
        scenarioCart = true :=
  checkout_blocked_of_bad_item none (fetchProductsStock scenarioCatalog scenarioCart [])
    scenarioCart false ⟨flatItem "P2" 1, by simp [scenarioCart], Or.inl (by decide)⟩

/-- C17 as stated fails: the fetch for the first line item fails, the second line item has
another identity key but the same stock-map key `"P-L-M"` and its write (stock 5) comes
after the stock-0 write of the failed item; the failed item is then read as available with
stock 5 and checkout is not blocked. -/
theorem failed_fetch_entry_overwritten :
    clashCatalog (variantItem "P" "L-M" 1)._id = none
      ∧ itemKey (variantItem "P" "L-M" 1) ≠ itemKey (variantItem "P-L" "M" 1)
      ∧ stockKey (variantItem "P" "L-M" 1) = stockKey (variantItem "P-L" "M" 1)
      ∧ getAvailableStock (fetchProductsStock clashCatalog clashCart [])
          (variantItem "P" "L-M" 1) = 5
      ∧ isProductAvailable (fetchProductsStock clashCatalog clashCart [])
          (variantItem "P" "L-M" 1) = true
      ∧ opensAddressModal (handleCheckout true none
          (fetchProductsStock clashCatalog clashCart []) clashCart) = true
      ∧ checkoutDisabled false (fetchProductsStock clashCatalog clashCart []) clashCart
          = false := by
  refine ⟨by decide, by decide, by decide, by decide, by decide, by decide, by decide⟩

/-- C17, amended: when the fetch for a line item fails and no two line items write under
the same stock-map key, every line item has the entry of its own fetch result recorded
under the key it wrote, the failed item has an entry with stock 0 under its own stock key,
and checkout is blocked (the address modal is not opened, the button is disabled). -/
theorem failed_fetch_blocks_checkout (getById : String → Option Product)
    (cartItems : List CartItem) (prev : StockData) (user : Option User)
    (loadingStock : Bool) (item : CartItem) (hmem : item ∈ cartItems)
    (hfail : getById item._id = none)
    (hkeys : (cartItems.map (fun i => (entryFor getById i).1)).Nodup) :
    (∀ other ∈ cartItems,
        stockLookup (fetchProductsStock getById cartItems prev) (entryFor getById other).1
          = some (entryFor getById other).2)
      ∧ (∀ other ∈ cartItems, ∀ product, getById other._id = some product →
          entryFor getById other = fetchedEntry other product)
      ∧ stockLookup (fetchProductsStock getById cartItems prev) (stockKey item)
          = some (failedEntry item).2
      ∧ getAvailableStock (fetchProductsStock getById cartItems prev) item = 0
      ∧ isProductAvailable (fetchProductsStock getById cartItems prev) item = false
      ∧ opensAddressModal (handleCheckout true user
          (fetchProductsStock getById cartItems prev) cartItems) = false
      ∧ checkoutDisabled loadingStock (fetchProductsStock getById cartItems prev) cartItems
          = true := by
  have hne : cartItems ≠ [] := List.ne_nil_of_mem hmem
  have hall : ∀ other ∈ cartItems,
      stockLookup (fetchProductsStock getById cartItems prev) (entryFor getById other).1
        = some (entryFor getById other).2 := by
    intro other hother
    rw [fetchProductsStock_eq getById cartItems prev hne]
    apply lookup_of_mem_of_nodup
    · rw [List.map_reverse, List.nodup_reverse, List.map_map]
      exact hkeys
    · rw [List.mem_reverse]
      exact List.mem_map_of_mem (entryFor getById) hother
  have hitem : entryFor getById item = failedEntry item := by
    simp [entryFor, hfail]
  have hlook : stockLookup (fetchProductsStock getById cartItems prev) (stockKey item)
      = some (failedEntry item).2 := by
    have h := hall item hmem
    rw [hitem] at h
    exact h
  have havail : isProductAvailable (fetchProductsStock getById cartItems prev) item
      = false := by
    simp [isProductAvailable, hlook, failedEntry]
  refine ⟨hall, ?_, hlook, ?_, havail, ?_, ?_⟩
  · intro other _ product hp
    simp [entryFor, hp]
  · simp [getAvailableStock, hlook, failedEntry]
  · exact handleCheckout_not_open true user _ cartItems item hmem (Or.inl havail)
  · exact checkoutDisabled_of_item loadingStock _ cartItems item hmem (Or.inl havail)

/-- Witness of C17: in the scenario cart extended by an item of the unknown product `"P3"`
the keys `"P1-L"`, `"P2"`, `"P3"` differ, the fetch of `"P3"` fails, and checkout is
blocked. -/
theorem failed_fetch_blocks_checkout_witness :
    scenarioCatalog (flatItem "P3" 1)._id = none
      ∧ getAvailableStock
          (fetchProductsStock scenarioCatalog (scenarioCart ++ [flatItem "P3" 1]) [])
          (flatItem "P3" 1) = 0
      ∧ checkoutDisabled false
          (fetchProductsStock scenarioCatalog (scenarioCart ++ [flatItem "P3" 1]) [])
          (scenarioCart ++ [flatItem "P3" 1]) = true :=
  ⟨by decide,
    (failed_fetch_blocks_checkout scenarioCatalog (scenarioCart ++ [flatItem "P3" 1]) []
      none false (flatItem "P3" 1) (by simp) (by decide) (by decide)).2.2.2.1,
    (failed_fetch_blocks_checkout scenarioCatalog (scenarioCart ++ [flatItem "P3" 1]) []
      none false (flatItem "P3" 1) (by simp) (by decide) (by decide)).2.2.2.2.2.2⟩

/-! ## Order placement, quantities, fetch count -/

/-- C18: with a complete address `handlePlaceOrder` submits a payload whose `grandTotal` is
the grand total of the pricing lines for the current cart; when the order creation
succeeds the cart is empty afterwards, and when it fails the cart is the cart from before
the attempt. -/
theorem handlePlaceOrder_submits_and_clears (create : OrderData → Bool) (address : Address)
    (cartItems : List CartItem) (hcomplete : addressComplete address = true) :
    ∃ payload : OrderData,
      (handlePlaceOrder create address cartItems).submitted = some payload
      ∧ payload.grandTotal = grandTotal cartItems
      ∧ payload.grandTotal
          = round2 (itemsTotal cartItems + deliveryFee cartItems + otherCharges)
      ∧ (create payload = true → (handlePlaceOrder create address cartItems).cartItems = [])
      ∧ (create payload = false
          → (handlePlaceOrder create address cartItems).cartItems = cartItems) := by
  refine ⟨orderDataOf address cartItems, ?_, rfl, rfl, ?_, ?_⟩
  · unfold handlePlaceOrder
    rw [hcomplete]
    by_cases hc : create (orderDataOf address cartItems) = true
    · simp [hc]
    · simp [hc]
  · intro hc
    unfold handlePlaceOrder
    rw [hcomplete]
    simp [hc, clearCart]
  · intro hc
    unfold handlePlaceOrder
    rw [hcomplete]
    simp [hc]

/-- Witness of C18: a rejected order leaves the scenario cart as it is, an accepted one
empties it. -/
theorem handlePlaceOrder_submits_and_clears_witness :
    addressComplete sampleAddress = true
      ∧ (handlePlaceOrder (fun _ => false) sampleAddress scenarioCart).cartItems
          = scenarioCart
      ∧ (handlePlaceOrder (fun _ => true) sampleAddress scenarioCart).cartItems = [] := by
  refine ⟨by decide, ?_, ?_⟩
  · obtain ⟨payload, _, _, _, _, hfail⟩ :=
      handlePlaceOrder_submits_and_clears (fun _ => false) sampleAddress scenarioCart
        (by decide)
    exact hfail rfl
  · obtain ⟨payload, _, _, _, hok, _⟩ :=
      handlePlaceOrder_submits_and_clears (fun _ => true) sampleAddress scenarioCart
        (by decide)
    exact hok rfl

theorem quantitiesPositive_addToCart (product : Product) (quantity : ℤ)
    (selectedSize : Option SizeVariant) (cart : List CartItem) (hq : 1 ≤ quantity)
    (h : quantitiesPositive cart) :
    quantitiesPositive (addToCart product quantity selectedSize cart) := by
  induction cart with
  | nil =>
    rw [addToCart_nil]
    intro item hi
    rw [List.mem_singleton] at hi
    rw [hi]
    exact hq
  | cons x xs ih =>
    have hx : 1 ≤ x.quantity := h x (List.mem_cons_self x xs)
    have hxs : quantitiesPositive xs := fun item hi => h item (List.mem_cons_of_mem x hi)
    cases hm : addMatches product selectedSize x with
    | true =>
      rw [addToCart_cons_match _ _ _ _ _ hm]
      intro item hi
      rcases List.mem_cons.mp hi with hi | hi
      · rw [hi]
        show 1 ≤ x.quantity + quantity
        omega
      · exact hxs item hi
    | false =>
      rw [addToCart_cons_nomatch _ _ _ _ _ hm]
      intro item hi
      rcases List.mem_cons.mp hi with hi | hi
      · rw [hi]; exact hx
      · exact ih hxs item hi

theorem quantitiesPositive_removeFromCart (productId : String) (sizeLabel : Option String)
    (cart : List CartItem) (h : quantitiesPositive cart) :
    quantitiesPositive (removeFromCart productId sizeLabel cart) :=
  fun item hi => h item (List.mem_of_mem_filter hi)

theorem quantitiesPositive_updateQuantity (productId : String) (quantity : ℤ)
    (sizeLabel : Option String) (cart : List CartItem) (h : quantitiesPositive cart) :
    quantitiesPositive (updateQuantity productId quantity sizeLabel cart) := by
  unfold updateQuantity
  by_cases hq : quantity ≤ 0
  · rw [if_pos hq]
    exact quantitiesPositive_removeFromCart productId sizeLabel cart h
  · rw [if_neg hq]
    intro item hi
    obtain ⟨old, hold, rfl⟩ := List.mem_map.mp hi
    have hold1 : 1 ≤ old.quantity := h old hold
    unfold updateItem
    split
    · show 1 ≤ quantity
      omega
    · split
      · show 1 ≤ quantity
        omega
      · exact hold1

theorem quantitiesPositive_foldl (ops : List CartOp) (cart : List CartItem)
    (hadd : addsPositive ops) (h : quantitiesPositive cart) :
    quantitiesPositive (ops.foldl applyOp cart) := by
  induction ops generalizing cart with
  | nil => exact h
  | cons op rest ih =>
    have hrest : addsPositive rest := fun o ho => hadd o (List.mem_cons_of_mem op ho)
    have hop := hadd op (List.mem_cons_self op rest)
    apply ih (applyOp cart op) hrest
    cases op with
    | add product quantity selectedSize =>
      exact quantitiesPositive_addToCart product quantity selectedSize cart hop h
    | remove productId sizeLabel =>
      exact quantitiesPositive_removeFromCart productId sizeLabel cart h
    | update productId quantity sizeLabel =>
      exact quantitiesPositive_updateQuantity productId quantity sizeLabel cart h
    | clear =>
      intro item hi
      simp [applyOp, clearCart] at hi

/-- C19: in every cart reached from the empty cart by `addToCart` calls with quantity at
least 1, `removeFromCart` calls and `updateQuantity` calls with any integer quantity
(positive, zero or negative), every line item has an integer quantity of at least 1. -/
theorem reachable_quantities_positive (ops : List CartOp) (hadd : addsPositive ops) :
    ∀ item ∈ runOps ops, 1 ≤ item.quantity := by
  have h0 : quantitiesPositive [] := by
    intro item hi
    simp at hi
  exact quantitiesPositive_foldl ops [] hadd h0

/-- Witness of C19: add 2, set the quantity to 5, add 1, set another item to -3, remove an
absent item; the cart then holds one line item, of quantity 6. -/
theorem reachable_quantities_positive_witness :
    (runOps [.add plainProduct 2 none, .update "P" 5 none, .add plainProduct 1 none,
        .update "Q" (-3) none, .remove "Z" none]).all
        (fun item => decide (1 ≤ item.quantity)) = true
      ∧ (runOps [.add plainProduct 2 none, .update "P" 5 none, .add plainProduct 1 none,
        .update "Q" (-3) none, .remove "Z" none]).map (fun item => item.quantity) = [6] := by
  constructor
  · rw [List.all_eq_true]
    intro item hi
    rw [decide_eq_true_eq]
    exact reachable_quantities_positive _ (by
      intro op hop
      simp only [List.mem_cons, List.mem_singleton, List.not_mem_nil, or_false] at hop
      rcases hop with h | h | h | h | h <;> subst h <;> simp) item hi
  · decide

/-- C20 as stated fails: for a cart holding the sizes `"S"` and `"M"` of one product, one
reconciliation requests the product twice, while the cart has one distinct product id. -/
theorem fetchRequests_two_variants_fetch_twice :
    uniqueKeys [variantItem "P" "S" 1, variantItem "P" "M" 1]
      ∧ fetchRequests [variantItem "P" "S" 1, variantItem "P" "M" 1] = ["P", "P"]
      ∧ (fetchRequests [variantItem "P" "S" 1, variantItem "P" "M" 1]).length = 2
      ∧ (distinctProductIds [variantItem "P" "S" 1, variantItem "P" "M" 1]).length = 1 := by
  refine ⟨?_, by decide, by decide, by decide⟩
  simp [uniqueKeys, itemKey, variantItem, optLabel]

/-- C20, amended: one stock reconciliation issues one product fetch for each line item, in
the order of the line items, so the number of fetches is the number of line items; it is
never less than the number of distinct product ids. -/
theorem fetchRequests_one_per_item (cart : List CartItem) :
    fetchRequests cart = cart.map (fun item => item._id)
      ∧ (fetchRequests cart).length = cart.length
      ∧ (distinctProductIds cart).length ≤ (fetchRequests cart).length := by
  have h : fetchRequests cart = cart.map (fun item => item._id) := by
    unfold fetchRequests
    split
    · rename_i hlen
      rw [List.length_eq_zero] at hlen
      rw [hlen]
      rfl
    · rfl
  refine ⟨h, by rw [h, List.length_map], ?_⟩
  rw [h]
  exact List.Sublist.length_le (List.dedup_sublist _)

/-! ## Re-fetching the stock after a cart change -/

theorem length_addToCart (product : Product) (quantity : ℤ)
    (selectedSize : Option SizeVariant) (cart : List CartItem) :
    (addToCart product quantity selectedSize cart).length
      = if cart.any (addMatches product selectedSize) then cart.length else cart.length + 1 := by
  induction cart with
  | nil => simp [addToCart_nil]
  | cons x xs ih =>
    cases hx : addMatches product selectedSize x with
    | true => rw [addToCart_cons_match _ _ _ _ _ hx]; simp [hx]
    | false =>
      rw [addToCart_cons_nomatch _ _ _ _ _ hx, List.length_cons, ih]
      simp only [List.any_cons, hx, Bool.false_or, List.length_cons]
      split <;> rfl

theorem length_updateQuantity_pos (productId : String) (quantity : ℤ) (hq : 0 < quantity)
    (sizeLabel : Option String) (cart : List CartItem) :
    (updateQuantity productId quantity sizeLabel cart).length = cart.length := by
  have h : ¬ quantity ≤ 0 := by omega
  simp [updateQuantity, h]

theorem length_handleQuantityChange_pos (productsStock : StockData) (item : CartItem)
    (newQuantity : ℤ) (hq : 1 ≤ newQuantity) (cart : List CartItem) :
    (handleQuantityChange productsStock item newQuantity cart).length = cart.length := by
  have h1 : ¬ newQuantity < 1 := by omega
  unfold handleQuantityChange
  rw [if_neg h1]
  dsimp only
  split
  · rfl
  · exact length_updateQuantity_pos _ _ (by omega) _ _

/-- C21 as stated fails: on the cart page, with the stock of product `"P"` (10) loaded for
the one-item cart, the quantity of the item is changed from 2 to 5; the cart changes, the
number of line items stays 1, so the stock effect (dependency `cartItems.length`) issues no
fetch, and `handleCheckout` opens the address step on the stock map loaded before the
change. -/
theorem stock_fetch_not_triggered_by_quantity_change :
    stockFetchOnMount plainCart = true
      ∧ (handleQuantityChange (fetchProductsStock mugCatalog plainCart [])
          ⟨"P", "Mug", some "mug.png", 99 / 8, 25 / 2, 2, none, "Kitchen"⟩ 5 plainCart).map
          (fun item => item.quantity) = [5]
      ∧ plainCart.map (fun item => item.quantity) = [2]
      ∧ stockFetchOnChange plainCart
          (handleQuantityChange (fetchProductsStock mugCatalog plainCart [])
            ⟨"P", "Mug", some "mug.png", 99 / 8, 25 / 2, 2, none, "Kitchen"⟩ 5 plainCart)
          = false
      ∧ stockFetchOnChange plainCart (updateQuantity "P" 5 none plainCart) = false
      ∧ opensAddressModal (handleCheckout true none
          (fetchProductsStock mugCatalog plainCart [])
          (handleQuantityChange (fetchProductsStock mugCatalog plainCart [])
            ⟨"P", "Mug", some "mug.png", 99 / 8, 25 / 2, 2, none, "Kitchen"⟩ 5 plainCart))
          = true := by
  refine ⟨by decide, by decide, by decide, by decide, by decide, by decide⟩

/-- C21, amended: the stock is fetched when the cart page is mounted with a non-empty cart,
which is the case after every `addToCart` (it is called from the product pages only, while
the cart page is not mounted); while the cart page stays mounted a quantity change
(`updateQuantity` with a positive quantity, `handleQuantityChange` with a request of at
least 1) never issues the fetches, and `removeFromCart` issues them exactly when it removes
a line item and leaves the cart non-empty. -/
theorem stockFetch_after_change (cart : List CartItem) :
    (∀ (product : Product) (quantity : ℤ) (selectedSize : Option SizeVariant),
        stockFetchOnMount (addToCart product quantity selectedSize cart) = true)
      ∧ (∀ (productId : String) (quantity : ℤ) (sizeLabel : Option String), 0 < quantity →
        stockFetchOnChange cart (updateQuantity productId quantity sizeLabel cart) = false)
      ∧ (∀ (productsStock : StockData) (item : CartItem) (newQuantity : ℤ),
        1 ≤ newQuantity →
        stockFetchOnChange cart (handleQuantityChange productsStock item newQuantity cart)
          = false)
      ∧ (∀ (productId : String) (sizeLabel : Option String),
        stockFetchOnChange cart (removeFromCart productId sizeLabel cart) = true
          ↔ ((∃ item ∈ cart, removeKeeps productId sizeLabel item = false)
            ∧ removeFromCart productId sizeLabel cart ≠ [])) := by
  refine ⟨?_, ?_, ?_, ?_⟩
  · intro product quantity selectedSize
    have hlen := length_addToCart product quantity selectedSize cart
    have hpos : (addToCart product quantity selectedSize cart).length ≠ 0 := by
      rw [hlen]
      split
      · rename_i hany
        rw [List.any_eq_true] at hany
        obtain ⟨item, hmem, _⟩ := hany
        exact Nat.ne_of_gt (List.length_pos_of_mem hmem)
      · omega
    simp [stockFetchOnMount, stockEffectFetches, hpos]
  · intro productId quantity sizeLabel hq
    simp [stockFetchOnChange, length_updateQuantity_pos productId quantity hq sizeLabel cart]
  · intro productsStock item newQuantity hq
    simp [stockFetchOnChange, length_handleQuantityChange_pos productsStock item newQuantity hq]
  · intro productId sizeLabel
    have hfilter : ((removeFromCart productId sizeLabel cart).length = cart.length)
        ↔ ∀ item ∈ cart, removeKeeps productId sizeLabel item = true := by
      unfold removeFromCart
      exact List.filter_length_eq_length
    have hnil : (removeFromCart productId sizeLabel cart).length = 0
        ↔ removeFromCart productId sizeLabel cart = [] := List.length_eq_zero
    simp only [stockFetchOnChange, stockEffectFetches, Bool.and_eq_true, bne_iff_ne, ne_eq,
      Bool.not_eq_true', beq_eq_false_iff_ne, hnil]
    constructor
    · rintro ⟨hlen, hne⟩
      refine ⟨?_, hne⟩
      by_contra hcon
      apply hlen
      rw [eq_comm, hfilter]
      intro item hmem
      cases hk : removeKeeps productId sizeLabel item with
      | true => rfl
      | false => exact absurd ⟨item, hmem, hk⟩ hcon
    · rintro ⟨⟨item, hmem, hk⟩, hne⟩
      refine ⟨?_, hne⟩
      intro hlen
      rw [eq_comm, hfilter] at hlen
      rw [hlen item hmem] at hk
      exact absurd hk (by simp)

/-- Witness of C21: in the two-item scenario cart a quantity change issues no fetch, the
removal of the second item does. -/
theorem stockFetch_after_change_witness :
    stockFetchOnChange scenarioCart (updateQuantity "P1" 2 (some "L") scenarioCart) = false
      ∧ stockFetchOnChange scenarioCart
          (handleQuantityChange [] (flatItem "P2" 1) 3 scenarioCart) = false
      ∧ stockFetchOnChange scenarioCart (removeFromCart "P2" none scenarioCart) = true :=
  ⟨(stockFetch_after_change scenarioCart).2.1 "P1" 2 (some "L") (by decide),
    (stockFetch_after_change scenarioCart).2.2.1 [] (flatItem "P2" 1) 3 (by decide),
    ((stockFetch_after_change scenarioCart).2.2.2 "P2" none).mpr
      ⟨⟨flatItem "P2" 1, by simp [scenarioCart], by decide⟩, by decide⟩⟩

/-! ## Stock-map keys -/

/-- Two character lists without `-`, each followed by `-` and a rest: equal wholes have
equal parts. -/
theorem split_at_dash (a b x y : List Char) (ha : '-' ∉ a) (hb : '-' ∉ b)
    (h : a ++ '-' :: x = b ++ '-' :: y) : a = b ∧ x = y := by
  induction a generalizing b with
  | nil =>
    cases b with
    | nil => simpa using h
    | cons c cs =>
      exfalso
      simp only [List.nil_append, List.cons_append, List.cons.injEq] at h
      exact hb (h.1 ▸ List.mem_cons_self c cs)
  | cons c cs ih =>
    cases b with
    | nil =>
      exfalso
      simp only [List.nil_append, List.cons_append, List.cons.injEq] at h
      exact ha (h.1 ▸ List.mem_cons_self '-' cs)
    | cons d ds =>
      simp only [List.cons_append, List.cons.injEq] at h
      obtain ⟨hcd, hrest⟩ := h
      have hcs : '-' ∉ cs := fun hm => ha (List.mem_cons_of_mem c hm)
      have hds : '-' ∉ ds := fun hm => hb (List.mem_cons_of_mem d hm)
      obtain ⟨h1, h2⟩ := ih ds hcs hds hrest
      exact ⟨by rw [hcd, h1], h2⟩

/-- Among line items whose product ids contain no `-`, equal stock keys force equal
identity keys. -/
theorem itemKey_eq_of_stockKey_eq (a b : CartItem) (ha : '-' ∉ a._id.data)
    (hb : '-' ∉ b._id.data) (h : stockKey a = stockKey b) : itemKey a = itemKey b := by
  unfold stockKey at h
  unfold itemKey optLabel
  cases hsa : a.selectedSize with
  | none =>
    cases hsb : b.selectedSize with
    | none =>
      rw [hsa, hsb] at h
      simp only at h
      simp [h]
    | some w =>
      exfalso
      rw [hsa, hsb] at h
      simp only at h
      apply ha
      rw [h]
      simp [String.data_append]
  | some v =>
    cases hsb : b.selectedSize with
    | none =>
      exfalso
      rw [hsa, hsb] at h
      simp only at h
      apply hb
      rw [← h]
      simp [String.data_append]
    | some w =>
      rw [hsa, hsb] at h
      simp only at h
      have hd := congrArg String.data h
      simp only [String.data_append] at hd
      simp only [List.append_assoc, List.singleton_append] at hd
      obtain ⟨h1, h2⟩ := split_at_dash _ _ _ _ ha hb hd
      simp [String.ext h1, String.ext h2]

/-- C22 as stated fails: the line items (`"P"`, `"L-M"`) and (`"P-L"`, `"M"`) differ in
product id and in variant label, and the line items (`"a-b"`, no variant) and (`"a"`,
`"b"`) differ in having a variant, yet each pair has one stock-map key. -/
theorem stockKey_not_injective :
    itemKey (variantItem "P" "L-M" 1) ≠ itemKey (variantItem "P-L" "M" 1)
      ∧ stockKey (variantItem "P" "L-M" 1) = stockKey (variantItem "P-L" "M" 1)
      ∧ itemKey (flatItem "a-b" 1) ≠ itemKey (variantItem "a" "b" 1)
      ∧ stockKey (flatItem "a-b" 1) = stockKey (variantItem "a" "b" 1) := by
  refine ⟨by decide, by decide, by decide, by decide⟩

/-- C22, amended: among line items whose product ids contain no `-`, the stock-map key is
injective on identity keys: two line items that differ in product id, in variant label or
in having a variant have different stock-map keys, so neither reads the entry of the
other, the entries written for them on a failed fetch differ, and an entry written from a
fetched product for an item without variant or with a non-empty label does not go under
the key of the other. -/
theorem stockKey_injective_of_no_dash (a b : CartItem) (ha : '-' ∉ a._id.data)
    (hb : '-' ∉ b._id.data) (hne : itemKey a ≠ itemKey b) :
    stockKey a ≠ stockKey b
      ∧ (failedEntry a).1 ≠ (failedEntry b).1
      ∧ (optLabel a.selectedSize ≠ some "" →
          ∀ product : Product, (fetchedEntry a product).1 ≠ stockKey b) := by
  have hkey : stockKey a ≠ stockKey b := fun h => hne (itemKey_eq_of_stockKey_eq a b ha hb h)
  refine ⟨hkey, hkey, ?_⟩
  intro hlabel product
  rw [(fetchedEntry_of_label_ne_empty a product hlabel).1]
  exact hkey

/-- Witness of C22: sizes `"S"` and `"M"` of product `"P1"` have different keys. -/
theorem stockKey_injective_of_no_dash_witness :
    stockKey (variantItem "P1" "S" 1) ≠ stockKey (variantItem "P1" "M" 1) :=
  (stockKey_injective_of_no_dash (variantItem "P1" "S" 1) (variantItem "P1" "M" 1)
    (by decide) (by decide) (by decide)).1

/-- C23: a line item of quantity at least 1 without entry in the stock map is reported
available, with available stock 0 and an unavailable quantity, and a cart that holds it is
not taken to the address step by `handleCheckout`. -/
theorem unverified_item_blocks_checkout (productsStock : StockData)
    (cartItems : List CartItem) (item : CartItem) (hmem : item ∈ cartItems)
    (hq : 1 ≤ item.quantity) (hno : stockLookup productsStock (stockKey item) = none) :
    isProductAvailable productsStock item = true
      ∧ getAvailableStock productsStock item = 0
      ∧ isQuantityAvailable productsStock item = false
      ∧ (∀ (isAuthenticated : Bool) (user : Option User),
          opensAddressModal (handleCheckout isAuthenticated user productsStock cartItems)
            = false)
      ∧ (∀ loadingStock : Bool, checkoutDisabled loadingStock productsStock cartItems = true) := by
  have hstock : getAvailableStock productsStock item = 0 := by
    simp [getAvailableStock, hno]
  have hqa : isQuantityAvailable productsStock item = false := by
    apply isQuantityAvailable_false_of_gt
    rw [hstock]
    omega
  refine ⟨by simp [isProductAvailable, hno], hstock, hqa, ?_, ?_⟩
  · intro isAuthenticated user
    exact handleCheckout_not_open isAuthenticated user productsStock cartItems item hmem
      (Or.inr hqa)
  · intro loadingStock
    exact checkoutDisabled_of_item loadingStock productsStock cartItems item hmem (Or.inr hqa)

/-- Witness of C23: with the empty stock map the one-item cart is not checked out. -/
theorem unverified_item_blocks_checkout_witness :
    opensAddressModal (handleCheckout true none [] plainCart) = false :=
  (unverified_item_blocks_checkout [] plainCart
    ⟨"P", "Mug", some "mug.png", 99 / 8, 25 / 2, 2, none, "Kitchen"⟩
    (by simp [plainCart]) (by decide) (by decide)).2.2.2.1 true none

/-! ## Quantity changes on the cart page -/

theorem removeKeeps_false_of_key (item x : CartItem) (hk : itemKey x = itemKey item) :
    removeKeeps item._id (optLabel item.selectedSize) x = false := by
  have h1 : x._id = item._id := congrArg Prod.fst hk
  have h2 : optLabel x.selectedSize = optLabel item.selectedSize := congrArg Prod.snd hk
  cases hx : x.selectedSize with
  | none =>
    cases hi : item.selectedSize with
    | none => simp [removeKeeps, hx, optLabel, labelFalsy, h1]
    | some v => simp [hx, hi, optLabel] at h2
  | some w =>
    cases hi : item.selectedSize with
    | none => simp [hx, hi, optLabel] at h2
    | some v =>
      have hl : w.label = v.label := by simpa [hx, hi, optLabel] using h2
      simp [removeKeeps, hx, optLabel, labelEqArg, h1, hl]

theorem updateItem_quantity_of_key (item x : CartItem) (q : ℤ)
    (hk : itemKey x = itemKey item) :
    (updateItem item._id q (optLabel item.selectedSize) x).quantity = q := by
  have h1 : x._id = item._id := congrArg Prod.fst hk
  have h2 : optLabel x.selectedSize = optLabel item.selectedSize := congrArg Prod.snd hk
  cases hx : x.selectedSize with
  | none =>
    cases hi : item.selectedSize with
    | none => simp [updateItem, hx, optLabel, labelFalsy, h1]
    | some v => simp [hx, hi, optLabel] at h2
  | some w =>
    cases hi : item.selectedSize with
    | none => simp [hx, hi, optLabel] at h2
    | some v =>
      have hl : w.label = v.label := by simpa [hx, hi, optLabel] using h2
      simp [updateItem, hx, optLabel, labelEqArg, h1, hl]

theorem updateItem_cases (productId : String) (q : ℤ) (sizeLabel : Option String)
    (x : CartItem) :
    updateItem productId q sizeLabel x = x
      ∨ updateItem productId q sizeLabel x = { x with quantity := q } := by
  unfold updateItem
  split
  · exact Or.inr rfl
  · split
    · exact Or.inr rfl
    · exact Or.inl rfl

/-- What `handleQuantityChange` does to the requested line item: below 1 no line item of its
identity key remains; at least 1 and above the available stock of the item the cart is left
as it is; otherwise the items keep their places and the items of its key get the requested
quantity. Every line item of the result is a line item of the old cart or carries the
requested quantity, which then is at most the available stock of the requested item. -/
theorem handleQuantityChange_cases (productsStock : StockData) (cartItems : List CartItem)
    (item : CartItem) (newQuantity : ℤ) (hmem : item ∈ cartItems) :
    (newQuantity < 1 →
        handleQuantityChange productsStock item newQuantity cartItems
            = removeFromCart item._id (optLabel item.selectedSize) cartItems
          ∧ ∀ x ∈ handleQuantityChange productsStock item newQuantity cartItems,
              itemKey x ≠ itemKey item)
      ∧ (1 ≤ newQuantity → newQuantity > getAvailableStock productsStock item →
        handleQuantityChange productsStock item newQuantity cartItems = cartItems)
      ∧ (0 ≤ getAvailableStock productsStock item →
        newQuantity > getAvailableStock productsStock item →
        handleQuantityChange productsStock item newQuantity cartItems = cartItems)
      ∧ (1 ≤ newQuantity → newQuantity ≤ getAvailableStock productsStock item →
        (handleQuantityChange productsStock item newQuantity cartItems).map itemKey
            = cartItems.map itemKey
          ∧ (∃ x ∈ handleQuantityChange productsStock item newQuantity cartItems,
              itemKey x = itemKey item)
          ∧ ∀ x ∈ handleQuantityChange productsStock item newQuantity cartItems,
              itemKey x = itemKey item → x.quantity = newQuantity)
      ∧ (∀ x ∈ handleQuantityChange productsStock item newQuantity cartItems,
          x ∈ cartItems
            ∨ (x.quantity = newQuantity
              ∧ newQuantity ≤ getAvailableStock productsStock item)) := by
  have hupd : 1 ≤ newQuantity → newQuantity ≤ getAvailableStock productsStock item →
      handleQuantityChange productsStock item newQuantity cartItems
        = cartItems.map (updateItem item._id newQuantity (optLabel item.selectedSize)) := by
    intro h1 h2
    have h1n : ¬ newQuantity < 1 := by omega
    have h2n : ¬ newQuantity > getAvailableStock productsStock item := by omega
    have h3n : ¬ newQuantity ≤ 0 := by omega
    simp [handleQuantityChange, updateQuantity, h1n, h2n, h3n]
  have hsame : 1 ≤ newQuantity → newQuantity > getAvailableStock productsStock item →
      handleQuantityChange productsStock item newQuantity cartItems = cartItems := by
    intro h1 h2
    have h1n : ¬ newQuantity < 1 := by omega
    simp [handleQuantityChange, h1n, h2]
  have hrem : newQuantity < 1 →
      handleQuantityChange productsStock item newQuantity cartItems
        = removeFromCart item._id (optLabel item.selectedSize) cartItems := by
    intro h
    simp [handleQuantityChange, h]
  refine ⟨?_, hsame, ?_, ?_, ?_⟩
  · intro h
    refine ⟨hrem h, ?_⟩
    intro x hx hk
    rw [hrem h, removeFromCart, List.mem_filter] at hx
    rw [removeKeeps_false_of_key item x hk] at hx
    exact absurd hx.2 (by simp)
  · intro h0 h
    exact hsame (by omega) h
  · intro h1 h2
    rw [hupd h1 h2]
    refine ⟨?_, ?_, ?_⟩
    · rw [List.map_map]
      congr 1
      funext x
      exact itemKey_updateItem _ _ _ x
    · exact ⟨_, List.mem_map_of_mem _ hmem, itemKey_updateItem _ _ _ item⟩
    · intro x hx hk
      obtain ⟨old, _, rfl⟩ := List.mem_map.mp hx
      rw [itemKey_updateItem] at hk
      exact updateItem_quantity_of_key item old newQuantity hk
  · intro x hx
    by_cases h1 : newQuantity < 1
    · rw [hrem h1] at hx
      exact Or.inl (List.mem_of_mem_filter hx)
    · by_cases h2 : newQuantity > getAvailableStock productsStock item
      · rw [hsame (by omega) h2] at hx
        exact Or.inl hx
      · rw [hupd (by omega) (by omega)] at hx
        obtain ⟨old, hold, rfl⟩ := List.mem_map.mp hx
        rcases updateItem_cases item._id newQuantity (optLabel item.selectedSize) old
          with h | h
        · rw [h]; exact Or.inl hold
        · rw [h]; exact Or.inr ⟨rfl, by omega⟩

/-- For a line item without variant or with a non-empty label, `handleQuantityChange`
touches the line items of its identity key only: a request below 1 keeps exactly the items
of another key, a request of at least 1 within the available stock sets the quantity of
the items of its key and returns every other item as it is. -/
theorem handleQuantityChange_of_label_ne_empty (productsStock : StockData)
    (cartItems : List CartItem) (item : CartItem) (newQuantity : ℤ)
    (hlabel : optLabel item.selectedSize ≠ some "") :
    (newQuantity < 1 →
        handleQuantityChange productsStock item newQuantity cartItems
          = cartItems.filter (fun x => itemKey x != itemKey item))
      ∧ (1 ≤ newQuantity → newQuantity ≤ getAvailableStock productsStock item →
        handleQuantityChange productsStock item newQuantity cartItems
          = cartItems.map (fun x =>
              if itemKey x = itemKey item then { x with quantity := newQuantity } else x)) := by
  constructor
  · intro h
    simp only [handleQuantityChange, h, if_true]
    exact removeFromCart_eq_filter_key item._id (optLabel item.selectedSize) hlabel cartItems
  · intro h1 h2
    have h1n : ¬ newQuantity < 1 := by omega
    have h2n : ¬ newQuantity > getAvailableStock productsStock item := by omega
    simp only [handleQuantityChange, h1n, h2n, if_false]
    exact updateQuantity_pos_eq_map_key item._id newQuantity (by omega)
      (optLabel item.selectedSize) hlabel cartItems

/-- C24, the failing input: the cart holds the item of product `"P"` without variant
(stock 2 loaded under `"P"`) and the item of `"P"` with the variant of label `""` (stock 5
loaded under `"P-"`), each with quantity 1. The request 4 for the second item is within its
stock 5 and `updateQuantity("P", 4, "")` sets both quantities to 4, so the first item gets
a quantity above its available stock 2; the request 0 for the second item removes both.
The same happens on the stock that `fetchProductsStock` loads for `emptyLabelCart` from
`dashCatalog`, where the key `"P-"` is written for the product of id `"P-"`. -/
theorem handleQuantityChange_empty_label_exceeds_stock :
    getAvailableStock [("P-", ⟨5, 100, "Shirt", true, none, none⟩),
        ("P", ⟨2, 100, "Mug", false, none, none⟩)] (flatItem "P" 1) = 2
      ∧ getAvailableStock [("P-", ⟨5, 100, "Shirt", true, none, none⟩),
        ("P", ⟨2, 100, "Mug", false, none, none⟩)] (variantItem "P" "" 1) = 5
      ∧ handleQuantityChange [("P-", ⟨5, 100, "Shirt", true, none, none⟩),
          ("P", ⟨2, 100, "Mug", false, none, none⟩)] (variantItem "P" "" 1) 4
          [flatItem "P" 1, variantItem "P" "" 1]
        = [flatItem "P" 4, variantItem "P" "" 4]
      ∧ (flatItem "P" 4).quantity
          > getAvailableStock [("P-", ⟨5, 100, "Shirt", true, none, none⟩),
            ("P", ⟨2, 100, "Mug", false, none, none⟩)] (flatItem "P" 4)
      ∧ handleQuantityChange [("P-", ⟨5, 100, "Shirt", true, none, none⟩),
          ("P", ⟨2, 100, "Mug", false, none, none⟩)] (variantItem "P" "" 1) 0
          [flatItem "P" 1, variantItem "P" "" 1]
        = []
      ∧ getAvailableStock (fetchProductsStock dashCatalog emptyLabelCart [])
          (flatItem "P" 1) = 2
      ∧ getAvailableStock (fetchProductsStock dashCatalog emptyLabelCart [])
          (variantItem "P" "" 1) = 5
      ∧ handleQuantityChange (fetchProductsStock dashCatalog emptyLabelCart [])
          (variantItem "P" "" 1) 4 emptyLabelCart
        = [flatItem "P" 4, variantItem "P" "" 4, flatItem "P-" 1]
      ∧ handleQuantityChange (fetchProductsStock dashCatalog emptyLabelCart [])
          (variantItem "P" "" 1) 0 emptyLabelCart
        = [flatItem "P-" 1] := by
  refine ⟨by decide, by decide, by decide, by decide, by decide, by decide, by decide,
    by decide, by decide⟩

/-! ## Prices and totals under `addToCart` -/

theorem getCartCount_cons (x : CartItem) (xs : List CartItem) :
    getCartCount (x :: xs) = x.quantity + getCartCount xs := by
  simp [getCartCount, foldl_add_quantity]

theorem getCartTotal_cons (x : CartItem) (xs : List CartItem) :
    getCartTotal (x :: xs) = x.price * (x.quantity : ℚ) + getCartTotal xs := by
  simp [getCartTotal, foldl_add_price]

/-- Read exactly, `addToCart` increases `getCartCount` by `q` and `getCartTotal` by `q` times
the unit price of the affected line item: the stored price of the first matching line item
when there is one, the newly computed discounted price otherwise. -/
theorem addToCart_count_total (cart : List CartItem) (product : Product) (q : ℤ)
    (selectedSize : Option SizeVariant) :
    getCartCount (addToCart product q selectedSize cart) = getCartCount cart + q
      ∧ getCartTotal (addToCart product q selectedSize cart)
        = getCartTotal cart + (q : ℚ) *
          (match cart.find? (addMatches product selectedSize) with
            | some item => item.price
            | none => (newItem product q selectedSize).price) := by
  induction cart with
  | nil =>
    rw [addToCart_nil]
    constructor
    · simp [getCartCount, newItem]
    · simp [getCartTotal, newItem]
      ring
  | cons x xs ih =>
    cases hx : addMatches product selectedSize x with
    | true =>
      rw [addToCart_cons_match _ _ _ _ _ hx, getCartCount_cons, getCartTotal_cons,
        getCartCount_cons, getCartTotal_cons]
      simp only [List.find?_cons, hx]
      constructor
      · ring
      · push_cast; ring
    | false =>
      rw [addToCart_cons_nomatch _ _ _ _ _ hx, getCartCount_cons, getCartTotal_cons,
        getCartCount_cons, getCartTotal_cons, ih.1, ih.2]
      simp only [List.find?_cons, hx]
      constructor
      · ring
      · ring

/-! ## Grand total and displayed price -/

/-- Every value of `round2` is a whole number of hundredths. -/
theorem round2_is_hundredths (x : ℚ) : ∃ k : ℤ, round2 x = (k : ℚ) / 100 := by
  unfold round2
  split
  · exact ⟨-⌊-x * 100 + 1 / 2⌋, by push_cast; ring⟩
  · exact ⟨⌊x * 100 + 1 / 2⌋, rfl⟩

/-- On an items total (a whole number of hundredths) the grand total is the items total
plus the delivery fee. -/
theorem grandTotal_eq_add_fee (cart : List CartItem) :
    grandTotal cart = itemsTotal cart + deliveryFee cart := by
  obtain ⟨k, hk⟩ := round2_is_hundredths (getCartTotal cart)
  have hi : itemsTotal cart = (k : ℚ) / 100 := hk
  unfold grandTotal grandTotalOf deliveryFee
  rw [hi]
  unfold deliveryFeeOf otherCharges
  split
  · have e : (k : ℚ) / 100 + 0 + 0 = (k : ℚ) / 100 := by ring
    rw [e, round2_hundredths]; ring
  · have e : (k : ℚ) / 100 + 50 + 0 = (((k + 5000 : ℤ)) : ℚ) / 100 := by push_cast; ring
    rw [e, round2_hundredths]; push_cast; ring

/-- The price shown on the product detail page is the rounding to the nearest integer of
the unit price that `addToCart` stores. -/
theorem detailDiscountedPrice_eq_round (product : Product) (q : ℤ)
    (selectedSize : Option SizeVariant) :
    detailDiscountedPrice product selectedSize
      = (mathRound (newItem product q selectedSize).price : ℚ) := by
  cases selectedSize <;> rfl

/-- C28 as stated fails: for the product priced 12.5 with 1 percent discount the detail
page shows 12, while `addToCart` stores the unit price 12.375. -/
theorem detailDiscountedPrice_ne_cart_price :
    detailDiscountedPrice plainProduct none = 12
      ∧ (newItem plainProduct 1 none).price = 99 / 8
      ∧ detailDiscountedPrice plainProduct none ≠ (newItem plainProduct 1 none).price := by
  have hprice : (newItem plainProduct 1 none).price = 99 / 8 := by
    simp [newItem, plainProduct]; norm_num
  have hshown : detailDiscountedPrice plainProduct none = 12 := by
    rw [detailDiscountedPrice_eq_round plainProduct 1 none, hprice]
    have hfl : mathRound (99 / 8) = 12 := by
      unfold mathRound
      rw [Int.floor_eq_iff]; constructor <;> norm_num
    rw [hfl]; norm_num
  refine ⟨hshown, hprice, ?_⟩
  rw [hshown, hprice]
  norm_num

/-- C28, amended: the discounted price shown on the product detail page is the unit price
that `addToCart` stores for the same product and variant, rounded to the nearest integer
(a tie going up); the two are equal exactly when the stored unit price is an integer. -/
theorem detailDiscountedPrice_eq_iff (product : Product) (q : ℤ)
    (selectedSize : Option SizeVariant) :
    detailDiscountedPrice product selectedSize
        = (mathRound (newItem product q selectedSize).price : ℚ)
      ∧ (detailDiscountedPrice product selectedSize = (newItem product q selectedSize).price
          ↔ ∃ n : ℤ, (newItem product q selectedSize).price = (n : ℚ)) := by
  have h := detailDiscountedPrice_eq_round product q selectedSize
  refine ⟨h, ?_⟩
  rw [h]
  constructor
  · intro heq
    exact ⟨mathRound (newItem product q selectedSize).price, heq.symm⟩
  · rintro ⟨n, hn⟩
    rw [hn]
    have hfl : mathRound (n : ℚ) = n := by
      unfold mathRound
      rw [Int.floor_eq_iff]
      constructor <;> linarith
    rw [hfl]

/-! ## Image helper -/

/-- When neither pattern matches, `getGoogleDriveImageUrl` returns a non-empty URL as it
is, and `extractGoogleDriveFileId` returns `null`. -/
theorem getGoogleDriveImageUrl_of_no_match (url : String) (hne : url ≠ "")
    (hfile : firstMatch fileMatchAt url.toList = none)
    (hopen : firstMatch openMatchAt url.toList = none) :
    extractGoogleDriveFileId url = none ∧ getGoogleDriveImageUrl url = some url := by
  constructor
  · unfold extractGoogleDriveFileId
    rw [if_neg hne]
    simp only [hfile, hopen]
  · unfold getGoogleDriveImageUrl
    rw [if_neg hne]
    split
    · rfl
    · simp only [hfile, hopen]

/-- When the `id=` pattern does not match and the URL is not in direct form, both functions
use the id captured by the `/file/d/` pattern. -/
theorem getGoogleDriveImageUrl_of_file_only (url : String) (captured : List Char)
    (hne : url ≠ "")
    (hdirect : includesLiteral "drive.google.com/uc?export=view&id=".toList url.toList = false)
    (hfile : firstMatch fileMatchAt url.toList = some captured)
    (hopen : firstMatch openMatchAt url.toList = none) :
    extractGoogleDriveFileId url = some (String.mk captured)
      ∧ getGoogleDriveImageUrl url = some (directBase ++ String.mk captured) := by
  constructor
  · unfold extractGoogleDriveFileId
    rw [if_neg hne]
    simp only [hfile]
  · unfold getGoogleDriveImageUrl
    rw [if_neg hne, hdirect]
    simp only [hfile, hopen, Bool.false_eq_true, if_false]

/-- When the `/file/d/` pattern does not match and the URL is not in direct form, both
functions use the id captured by the `id=` pattern. -/
theorem getGoogleDriveImageUrl_of_open_only (url : String) (captured : List Char)
    (hne : url ≠ "")
    (hdirect : includesLiteral "drive.google.com/uc?export=view&id=".toList url.toList = false)
    (hfile : firstMatch fileMatchAt url.toList = none)
    (hopen : firstMatch openMatchAt url.toList = some captured) :
    extractGoogleDriveFileId url = some (String.mk captured)
      ∧ getGoogleDriveImageUrl url = some (directBase ++ String.mk captured) := by
  constructor
  · unfold extractGoogleDriveFileId
    rw [if_neg hne]
    simp only [hfile, hopen]
  · unfold getGoogleDriveImageUrl
    rw [if_neg hne, hdirect]
    simp only [hfile, hopen, Bool.false_eq_true, if_false]

/-- C29, the failing input: the URL is not empty and not in direct form, and both patterns
match it; `extractGoogleDriveFileId` returns the id `ABC` of the `/file/d/` pattern, while
`getGoogleDriveImageUrl` builds the direct URL from the id `XYZ` of the `id=` pattern. -/
theorem getGoogleDriveImageUrl_disagrees_with_extract :
    mixedDriveUrl ≠ ""
      ∧ includesLiteral "drive.google.com/uc?export=view&id=".toList mixedDriveUrl.toList
          = false
      ∧ extractGoogleDriveFileId mixedDriveUrl = some "ABC"
      ∧ getGoogleDriveImageUrl mixedDriveUrl
          = some "https://drive.google.com/uc?export=view&id=XYZ"
      ∧ getGoogleDriveImageUrl mixedDriveUrl
          ≠ some ("https://drive.google.com/uc?export=view&id=" ++ "ABC") := by
  refine ⟨by decide, by decide, by decide, by decide, by decide⟩

/-! ## Cancelling an order -/

/-- C30: `canCancelOrder` is true exactly when the order status is none of `Cancelled`,
`Delivered`, `Shipped`; after a successful `handleCancelOrder` (a reason that is not blank,
a cancel request that resolves) the selected order of the local list has the status
`Cancelled`, so `canCancelOrder` is false for it, and every other order is unchanged and
in its place. -/
theorem handleCancelOrder_cancels_once (cancel : String → String → Bool) (now : ℕ)
    (selectedOrder : Order) (cancelReason : String) (orders : List Order)
    (hreason : reasonBlank cancelReason = false)
    (hok : cancel selectedOrder._id cancelReason = true) :
    (∀ order : Order, canCancelOrder order = true
        ↔ (order.orderStatus ≠ "Cancelled" ∧ order.orderStatus ≠ "Delivered"
          ∧ order.orderStatus ≠ "Shipped"))
      ∧ (handleCancelOrder cancel now selectedOrder cancelReason orders).length
          = orders.length
      ∧ (∀ (i : ℕ) (order : Order), orders[i]? = some order →
          order._id = selectedOrder._id →
          ∃ updated : Order,
            (handleCancelOrder cancel now selectedOrder cancelReason orders)[i]? = some updated
            ∧ updated._id = order._id
            ∧ updated.grandTotal = order.grandTotal
            ∧ updated.orderStatus = "Cancelled"
            ∧ canCancelOrder updated = false)
      ∧ (∀ (i : ℕ) (order : Order), orders[i]? = some order →
          order._id ≠ selectedOrder._id →
          (handleCancelOrder cancel now selectedOrder cancelReason orders)[i]? = some order) := by
  have hrun : handleCancelOrder cancel now selectedOrder cancelReason orders
      = orders.map (cancelInList selectedOrder cancelReason now) := by
    simp [handleCancelOrder, hreason, hok]
  refine ⟨?_, ?_, ?_, ?_⟩
  · intro order
    simp [canCancelOrder, and_assoc]
  · rw [hrun, List.length_map]
  · intro i order hi hid
    refine ⟨cancelInList selectedOrder cancelReason now order, ?_, ?_, ?_, ?_, ?_⟩
    · rw [hrun, List.getElem?_map, hi]; rfl
    · simp [cancelInList, hid]
    · simp [cancelInList, hid]
    · simp [cancelInList, hid]
    · simp [cancelInList, hid, canCancelOrder]
  · intro i order hi hid
    rw [hrun, List.getElem?_map, hi]
    simp [cancelInList, hid]

/-- Witness of C30: cancelling the order `"o1"` of the sample list sets its status to
`Cancelled` and leaves the delivered order `"o2"` as it is. -/
theorem handleCancelOrder_cancels_once_witness :
    reasonBlank "ordered twice" = false
      ∧ (handleCancelOrder (fun _ _ => true) 7
          ⟨"o1", "Processing", 1000, none⟩ "ordered twice" sampleOrders)[1]?
        = some ⟨"o2", "Delivered", 250, none⟩ :=
  ⟨by decide,
    (handleCancelOrder_cancels_once (fun _ _ => true) 7 ⟨"o1", "Processing", 1000, none⟩
      "ordered twice" sampleOrders (by decide) rfl).2.2.2 1 ⟨"o2", "Delivered", 250, none⟩
      (by simp [sampleOrders]) (by decide)⟩

/-! ## Binary64 rounding -/

theorem roundHalfEven_eq_of_near (y : ℚ) (m : ℤ) (h : |y - m| < 1 / 2) :
    roundHalfEven y = m := by
  rw [abs_lt] at h
  obtain ⟨h1, h2⟩ := h
  unfold roundHalfEven
  by_cases hle : (m : ℚ) ≤ y
  · have hfl : ⌊y⌋ = m := by
      rw [Int.floor_eq_iff]
      constructor
      · exact hle
      · linarith
    rw [hfl, if_pos (by linarith)]
  · have hfl : ⌊y⌋ = m - 1 := by
      rw [Int.floor_eq_iff]
      push_cast
      constructor
      · linarith
      · linarith
    rw [hfl]
    push_cast
    rw [if_neg (by linarith), if_pos (by linarith)]
    ring

theorem abs_roundHalfEven_sub_le (y : ℚ) : |(roundHalfEven y : ℚ) - y| ≤ 1 / 2 := by
  have h1 : (⌊y⌋ : ℚ) ≤ y := Int.floor_le y
  have h2 : y < ⌊y⌋ + 1 := Int.lt_floor_add_one y
  unfold roundHalfEven
  rw [abs_le]
  split
  · constructor <;> linarith
  · split
    · push_cast; constructor <;> linarith
    · split
      · constructor <;> linarith
      · push_cast; constructor <;> linarith

theorem ulpExp_eq (x : ℚ) (e : ℤ) (hlo : (2 : ℚ) ^ (e + 52) ≤ |x|)
    (hhi : |x| < (2 : ℚ) ^ (e + 53)) (he : -1074 ≤ e) : ulpExp x = e := by
  have hpos : 0 < |x| := lt_of_lt_of_le (by positivity) hlo
  have h1 : e + 52 ≤ Int.log 2 |x| := by
    rw [← Int.zpow_le_iff_le_log (by norm_num) hpos]
    exact_mod_cast hlo
  have h2 : Int.log 2 |x| < e + 53 := by
    rw [← Int.lt_zpow_iff_log_lt (by norm_num) hpos]
    exact_mod_cast hhi
  unfold ulpExp
  omega

/-- Evaluation of `rn`: for `x` in the binade whose unit in the last place is `2 ^ e`, the
multiple `m * 2 ^ e` that is less than half a unit away is the rounded value. -/
theorem rn_eval (x : ℚ) (m e : ℤ) (hlo : (2 : ℚ) ^ (e + 52) ≤ |x|)
    (hhi : |x| < (2 : ℚ) ^ (e + 53)) (he : -1074 ≤ e)
    (hnear : |x / 2 ^ e - m| < 1 / 2) : rn x = (m : ℚ) * 2 ^ e := by
  unfold rn
  rw [ulpExp_eq x e hlo hhi he, roundHalfEven_eq_of_near _ m hnear]


theorem roundHalfEven_intCast (n : ℤ) : roundHalfEven (n : ℚ) = n :=
  roundHalfEven_eq_of_near _ n (by simp)

theorem rn_zero : rn 0 = 0 := by
  unfold rn
  have h : roundHalfEven ((0 : ℚ) / 2 ^ ulpExp 0) = 0 := by
    rw [zero_div]
    exact_mod_cast roundHalfEven_intCast 0
  rw [h]
  simp

/-- Every multiple `m * 2 ^ e` with `|m| < 2 ^ 53` and `e ≥ -1074` is a binary64 number:
rounding leaves it as it is. -/
theorem rn_of_int_mul_zpow (m e : ℤ) (hm : |m| < 2 ^ 53) (he : -1074 ≤ e) :
    rn ((m : ℚ) * 2 ^ e) = (m : ℚ) * 2 ^ e := by
  by_cases hm0 : m = 0
  · rw [hm0]; simp [rn_zero]
  · have h2pos : (0 : ℚ) < 2 ^ e := by positivity
    have hxpos : 0 < |(m : ℚ) * 2 ^ e| := by
      rw [abs_pos]
      exact mul_ne_zero (by exact_mod_cast hm0) (ne_of_gt h2pos)
    have hmq : |(m : ℚ)| < 2 ^ (53 : ℤ) := by
      have h1 : ((|m| : ℤ) : ℚ) < ((2 ^ 53 : ℤ) : ℚ) := by exact_mod_cast hm
      rw [Int.cast_abs] at h1
      norm_num at h1 ⊢
      exact h1
    have hlt : |(m : ℚ) * 2 ^ e| < (2 : ℚ) ^ (e + 53) := by
      rw [abs_mul, abs_of_pos h2pos, zpow_add₀ (by norm_num : (2 : ℚ) ≠ 0), mul_comm]
      exact mul_lt_mul_of_pos_left hmq h2pos
    have hlog : Int.log 2 |(m : ℚ) * 2 ^ e| < e + 53 := by
      rw [← Int.lt_zpow_iff_log_lt (by norm_num) hxpos]
      exact_mod_cast hlt
    have hE : ulpExp ((m : ℚ) * 2 ^ e) ≤ e := by
      unfold ulpExp
      omega
    unfold rn
    generalize ulpExp ((m : ℚ) * 2 ^ e) = E at hE ⊢
    obtain ⟨n, hn⟩ := Int.eq_ofNat_of_zero_le (sub_nonneg.mpr hE)
    have he2 : e = (n : ℤ) + E := by omega
    have hpow : (2 : ℚ) ^ e = 2 ^ n * 2 ^ E := by
      rw [he2, zpow_add₀ (by norm_num : (2 : ℚ) ≠ 0), zpow_natCast]
    have hne : (2 : ℚ) ^ E ≠ 0 := by positivity
    have hquot : (m : ℚ) * 2 ^ e / 2 ^ E = ((m * 2 ^ n : ℤ) : ℚ) := by
      rw [hpow]
      push_cast
      field_simp
      ring
    rw [hquot, roundHalfEven_intCast, hpow]
    push_cast
    ring

theorem rn_intCast (n : ℤ) (hn : |n| < 2 ^ 53) : rn (n : ℚ) = (n : ℚ) := by
  have h := rn_of_int_mul_zpow n 0 hn (by norm_num)
  simpa using h

/-- The rounding error is at most half a unit in the last place. -/
theorem abs_rn_sub_le (x : ℚ) : |rn x - x| ≤ 2 ^ ulpExp x / 2 := by
  have hpos : (0 : ℚ) < 2 ^ ulpExp x := by positivity
  have h := abs_roundHalfEven_sub_le (x / 2 ^ ulpExp x)
  have e : rn x - x = ((roundHalfEven (x / 2 ^ ulpExp x) : ℚ) - x / 2 ^ ulpExp x)
      * 2 ^ ulpExp x := by
    unfold rn
    field_simp
  rw [e, abs_mul, abs_of_pos hpos]
  calc |(roundHalfEven (x / 2 ^ ulpExp x) : ℚ) - x / 2 ^ ulpExp x| * 2 ^ ulpExp x
      ≤ 1 / 2 * 2 ^ ulpExp x := mul_le_mul_of_nonneg_right h (le_of_lt hpos)
    _ = 2 ^ ulpExp x / 2 := by ring

/-- Below `2 ^ B` (in the normal range) the rounding error is at most `2 ^ (B - 54)`. -/
theorem abs_rn_sub_le_of_lt (x : ℚ) (B : ℤ) (hx : |x| < 2 ^ B) (hB : -1021 ≤ B) :
    |rn x - x| ≤ 2 ^ (B - 54) := by
  by_cases hx0 : x = 0
  · rw [hx0, rn_zero]
    simp only [sub_zero, abs_zero]
    positivity
  · have hxpos : 0 < |x| := abs_pos.mpr hx0
    have hlog : Int.log 2 |x| < B := by
      rw [← Int.lt_zpow_iff_log_lt (by norm_num) hxpos]
      exact_mod_cast hx
    have hE : ulpExp x ≤ B - 53 := by
      unfold ulpExp
      omega
    have h := abs_rn_sub_le x
    have hmono : (2 : ℚ) ^ ulpExp x ≤ 2 ^ (B - 53) :=
      zpow_le_zpow_right₀ (by norm_num) hE
    have hsplit : (2 : ℚ) ^ (B - 53) = 2 ^ (B - 54) * 2 := by
      rw [show B - 53 = (B - 54) + 1 by ring, zpow_add₀ (by norm_num : (2 : ℚ) ≠ 0), zpow_one]
    linarith


theorem rn_eq_of_near (x r : ℚ) (m e : ℤ) (hr : r = (m : ℚ) * 2 ^ e)
    (hlo : (2 : ℚ) ^ (e + 52) ≤ |x|) (hhi : |x| < (2 : ℚ) ^ (e + 53)) (he : -1074 ≤ e)
    (hnear : |x / 2 ^ e - m| < 1 / 2) : rn x = r := by
  rw [hr]
  exact rn_eval x m e hlo hhi he hnear

theorem roundHalfEven_le_of_le (y : ℚ) (n : ℤ) (h : y ≤ n) : roundHalfEven y ≤ n := by
  have hf : (⌊y⌋ : ℚ) ≤ y := Int.floor_le y
  have hfn : ⌊y⌋ ≤ n := by exact_mod_cast hf.trans h
  have hstep : 0 < y - ⌊y⌋ → ⌊y⌋ + 1 ≤ n := by
    intro hpos
    have : (⌊y⌋ : ℚ) < n := by linarith
    have : ⌊y⌋ < n := by exact_mod_cast this
    omega
  unfold roundHalfEven
  split
  · exact hfn
  · rename_i h1
    split
    · exact hstep (by linarith)
    · split
      · exact hfn
      · exact hstep (by linarith)

theorem roundHalfEven_nonneg (y : ℚ) (h : 0 ≤ y) : 0 ≤ roundHalfEven y := by
  have hf : 0 ≤ ⌊y⌋ := Int.floor_nonneg.mpr h
  unfold roundHalfEven
  split
  · exact hf
  · split
    · omega
    · split
      · exact hf
      · omega

theorem rn_nonneg (x : ℚ) (h : 0 ≤ x) : 0 ≤ rn x := by
  unfold rn
  have h2 : (0 : ℚ) < 2 ^ ulpExp x := zpow_pos (by norm_num) _
  have : 0 ≤ roundHalfEven (x / 2 ^ ulpExp x) :=
    roundHalfEven_nonneg _ (div_nonneg h h2.le)
  exact mul_nonneg (by exact_mod_cast this) h2.le

theorem rn_nonpos (x : ℚ) (h : x ≤ 0) : rn x ≤ 0 := by
  unfold rn
  have h2 : (0 : ℚ) < 2 ^ ulpExp x := zpow_pos (by norm_num) _
  have : roundHalfEven (x / 2 ^ ulpExp x) ≤ 0 :=
    roundHalfEven_le_of_le _ 0 (by simpa using div_nonpos_of_nonpos_of_nonneg h h2.le)
  exact mul_nonpos_of_nonpos_of_nonneg (by exact_mod_cast this) h2.le

/-- Rounding does not pass a binary64 number: below a binary64 number `r ≥ 0` the rounded
value stays at or below `r`. -/
theorem rn_le_of_le (x r : ℚ) (hr : rn r = r) (h0 : 0 ≤ r) (hx : x ≤ r) : rn x ≤ r := by
  rcases le_or_lt x 0 with hneg | hpos
  · exact (rn_nonpos x hneg).trans h0
  · have hrpos : 0 < r := hpos.trans_le hx
    have hlog : Int.log 2 |x| ≤ Int.log 2 |r| := by
      rw [abs_of_pos hpos, abs_of_pos hrpos]
      exact Int.log_mono_right hpos hx
    have hE : ulpExp x ≤ ulpExp r := by
      unfold ulpExp
      have := max_le_max hlog (le_refl (-1022 : ℤ))
      omega
    obtain ⟨n, hn⟩ := Int.eq_ofNat_of_zero_le (sub_nonneg.mpr hE)
    have h2 : (0 : ℚ) < 2 ^ ulpExp x := zpow_pos (by norm_num) _
    have hsplit : (2 : ℚ) ^ ulpExp r = ((2 ^ n : ℤ) : ℚ) * 2 ^ ulpExp x := by
      have : ulpExp r = (n : ℤ) + ulpExp x := by omega
      rw [this, zpow_add₀ (by norm_num : (2 : ℚ) ≠ 0), zpow_natCast]
      push_cast
      ring
    have hrq : r / 2 ^ ulpExp x
        = ((roundHalfEven (r / 2 ^ ulpExp r) * 2 ^ n : ℤ) : ℚ) := by
      conv_lhs => rw [← hr]
      unfold rn
      rw [hsplit]
      push_cast
      field_simp
      ring
    have hle : x / 2 ^ ulpExp x ≤ ((roundHalfEven (r / 2 ^ ulpExp r) * 2 ^ n : ℤ) : ℚ) := by
      rw [← hrq]
      exact div_le_div_of_nonneg_right hx h2.le
    have hround := roundHalfEven_le_of_le _ _ hle
    have hcast : (roundHalfEven (x / 2 ^ ulpExp x) : ℚ)
        ≤ ((roundHalfEven (r / 2 ^ ulpExp r) * 2 ^ n : ℤ) : ℚ) := by exact_mod_cast hround
    calc rn x = (roundHalfEven (x / 2 ^ ulpExp x) : ℚ) * 2 ^ ulpExp x := rfl
      _ ≤ ((roundHalfEven (r / 2 ^ ulpExp r) * 2 ^ n : ℤ) : ℚ) * 2 ^ ulpExp x :=
          mul_le_mul_of_nonneg_right hcast h2.le
      _ = r := by rw [← hrq]; field_simp

/-! ## The new line item in binary64 arithmetic -/

theorem findIndex_of_all_false {α : Type} (p : α → Bool) (xs : List α)
    (h : ∀ x ∈ xs, p x = false) : findIndex p xs = -1 := by
  unfold findIndex
  rw [List.findIdx?_eq_none_iff.mpr h]

/-- When no item matches, `addToCartF64` appends the new item. -/
theorem addToCartF64_of_absent (product : Product) (quantity : ℤ)
    (selectedSize : Option SizeVariant) (cart : List CartItem)
    (h : ∀ item ∈ cart, addMatches product selectedSize item = false) :
    addToCartF64 product quantity selectedSize cart
      = cart ++ [newItemF64 product quantity selectedSize] := by
  unfold addToCartF64
  rw [findIndex_of_all_false _ _ h]
  simp

/-- When an item matches, no price is computed: `addToCartF64` and `addToCart` agree. -/
theorem addToCartF64_of_present (product : Product) (quantity : ℤ)
    (selectedSize : Option SizeVariant) (cart : List CartItem) (x : CartItem) (hx : x ∈ cart)
    (h : addMatches product selectedSize x = true) :
    addToCartF64 product quantity selectedSize cart
      = addToCart product quantity selectedSize cart := by
  unfold addToCartF64 addToCart findIndex
  cases hf : List.findIdx? (addMatches product selectedSize) cart with
  | none =>
    rw [List.findIdx?_eq_none_iff] at hf
    rw [hf x hx] at h
    exact absurd h (by decide)
  | some i =>
    have h2 : ((i : ℤ) > -1) := by omega
    simp only [h2, if_true]

/-- C4 as stated fails: adding the product priced `3995.98` at 75 percent discount to the
empty cart stores the price `998.9949999999999`, the binary64 value of
`price - (price * 75) / 100`; the base price times (1 - 75/100) is `998.995`, computed
exactly or in binary64 arithmetic. -/
theorem addToCartF64_price_ne_formula :
    addToCartF64 fractionalProduct 1 none [] = [newItemF64 fractionalProduct 1 none]
      ∧ (newItemF64 fractionalProduct 1 none).originalPrice
          = 8787252948720681 / 2199023255552
      ∧ (newItemF64 fractionalProduct 1 none).price = 1098406618590085 / 1099511627776
      ∧ formulaPriceF64 (newItemF64 fractionalProduct 1 none).originalPrice
            fractionalProduct.discountPercent = 8787252948720681 / 8796093022208
      ∧ (newItemF64 fractionalProduct 1 none).price
          ≠ formulaPriceF64 (newItemF64 fractionalProduct 1 none).originalPrice
              fractionalProduct.discountPercent
      ∧ (newItemF64 fractionalProduct 1 none).price
          ≠ (newItemF64 fractionalProduct 1 none).originalPrice
              * (1 - fractionalProduct.discountPercent / 100) := by
  have hp : rn ((399598 : ℚ) / 100) = ((8787252948720681 : ℚ) / 2199023255552) := by
    apply rn_eq_of_near _ _ (8787252948720681) (-41)
    · norm_num
    · norm_num [abs_of_pos]
    · norm_num [abs_of_pos]
    · norm_num
    · rw [abs_lt]; constructor <;> norm_num
  have ha : rn (((8787252948720681 : ℚ) / 2199023255552) * 75) = ((599397 : ℚ) / 2) := by
    apply rn_eq_of_near _ _ (5148781024641024) (-34)
    · norm_num
    · norm_num [abs_of_pos]
    · norm_num [abs_of_pos]
    · norm_num
    · rw [abs_lt]; constructor <;> norm_num
  have hb : rn (((599397 : ℚ) / 2) / 100) = ((6590439711540511 : ℚ) / 2199023255552) := by
    apply rn_eq_of_near _ _ (6590439711540511) (-41)
    · norm_num
    · norm_num [abs_of_pos]
    · norm_num [abs_of_pos]
    · norm_num
    · rw [abs_lt]; constructor <;> norm_num
  have hc : rn (((8787252948720681 : ℚ) / 2199023255552) - ((6590439711540511 : ℚ) / 2199023255552))
      = ((1098406618590085 : ℚ) / 1099511627776) := by
    apply rn_eq_of_near _ _ (8787252948720680) (-43)
    · norm_num
    · norm_num [abs_of_pos]
    · norm_num [abs_of_pos]
    · norm_num
    · rw [abs_lt]; constructor <;> norm_num
  have hq : rn ((75 : ℚ) / 100) = ((3 : ℚ) / 4) := by
    apply rn_eq_of_near _ _ (6755399441055744) (-53)
    · norm_num
    · norm_num [abs_of_pos]
    · norm_num [abs_of_pos]
    · norm_num
    · rw [abs_lt]; constructor <;> norm_num
  have ho : rn ((1 : ℚ) - ((3 : ℚ) / 4)) = ((1 : ℚ) / 4) := by
    apply rn_eq_of_near _ _ (4503599627370496) (-54)
    · norm_num
    · norm_num [abs_of_pos]
    · norm_num [abs_of_pos]
    · norm_num
    · rw [abs_lt]; constructor <;> norm_num
  have hf : rn (((8787252948720681 : ℚ) / 2199023255552) * ((1 : ℚ) / 4))
      = ((8787252948720681 : ℚ) / 8796093022208) := by
    apply rn_eq_of_near _ _ (8787252948720681) (-43)
    · norm_num
    · norm_num [abs_of_pos]
    · norm_num [abs_of_pos]
    · norm_num
    · rw [abs_lt]; constructor <;> norm_num
  have horig : (newItemF64 fractionalProduct 1 none).originalPrice
      = 8787252948720681 / 2199023255552 := hp
  have hprice : (newItemF64 fractionalProduct 1 none).price
      = 1098406618590085 / 1099511627776 := by
    show fsub (rn (399598 / 100)) (fdiv (fmul (rn (399598 / 100)) 75) 100) = _
    unfold fsub fdiv fmul
    rw [hp, ha, hb, hc]
  have hformula : formulaPriceF64 (newItemF64 fractionalProduct 1 none).originalPrice
      fractionalProduct.discountPercent = 8787252948720681 / 8796093022208 := by
    rw [horig]
    show fmul _ (fsub 1 (fdiv 75 100)) = _
    unfold fsub fdiv fmul
    rw [hq, ho, hf]
  refine ⟨addToCartF64_of_absent _ _ _ _ (by simp), horig, hprice, hformula, ?_, ?_⟩
  · rw [hformula, hprice]; norm_num
  · rw [hprice, horig]
    show _ ≠ _ * (1 - (75 : ℚ) / 100)
    norm_num

/-- The binary64 value of `price - (price * d) / 100` is within `2 ^ (-31)` of the exact
value, for a price below `2 ^ 20` and a percentage between 0 and 100. -/
theorem discountedPriceF64_near (p d : ℚ) (hp0 : 0 ≤ p) (hp1 : p < 2 ^ 20) (hd0 : 0 ≤ d)
    (hd1 : d ≤ 100) : |discountedPriceF64 p d - (p - p * d / 100)| ≤ 1 / 2 ^ 31 := by
  unfold discountedPriceF64 fsub fdiv fmul
  have hpd0 : 0 ≤ p * d := mul_nonneg hp0 hd0
  have hpd1 : p * d ≤ p * 100 := mul_le_mul_of_nonneg_left hd1 hp0
  have hx1 : |p * d| < 2 ^ (27 : ℤ) := by
    rw [abs_of_nonneg hpd0]
    norm_num at hp1 ⊢
    linarith
  have e1 := abs_rn_sub_le_of_lt (p * d) 27 hx1 (by norm_num)
  generalize rn (p * d) = a at e1 ⊢
  rw [abs_le] at e1
  norm_num at e1
  have hx2 : |a / 100| < 2 ^ (21 : ℤ) := by
    rw [abs_lt]
    norm_num at hp1 ⊢
    constructor <;> linarith
  have e2 := abs_rn_sub_le_of_lt (a / 100) 21 hx2 (by norm_num)
  generalize rn (a / 100) = b at e2 ⊢
  rw [abs_le] at e2
  norm_num at e2
  have hx3 : |p - b| < 2 ^ (22 : ℤ) := by
    rw [abs_lt]
    norm_num at hp1 ⊢
    constructor <;> linarith
  have e3 := abs_rn_sub_le_of_lt (p - b) 22 hx3 (by norm_num)
  generalize rn (p - b) = c at e3 ⊢
  rw [abs_le] at e3 ⊢
  norm_num at e3 ⊢
  constructor <;> linarith

theorem rn_natCast (n : ℕ) (hn : n < 2 ^ 53) : rn (n : ℚ) = (n : ℚ) := by
  have h := rn_intCast (n : ℤ) (by rw [abs_of_nonneg (Int.natCast_nonneg n)]; exact_mod_cast hn)
  exact_mod_cast h

theorem newItemF64_originalPrice (product : Product) (q : ℤ)
    (selectedSize : Option SizeVariant) :
    (newItemF64 product q selectedSize).originalPrice
      = (match selectedSize with
          | some v => v.price
          | none => product.price) := by
  cases selectedSize <;> rfl

theorem newItemF64_price (product : Product) (q : ℤ) (selectedSize : Option SizeVariant) :
    (newItemF64 product q selectedSize).price
      = fsub (newItemF64 product q selectedSize).originalPrice
          (fdiv (fmul (newItemF64 product q selectedSize).originalPrice
            product.discountPercent) 100) := by
  cases selectedSize <;> rfl

/-- C4, amended: when no line item matches (product id, variant label), `addToCart`
returns the old items unchanged and in order followed by exactly one new item: its original
price is the base price (the variant price when a variant is given, else the product
price), its price is the binary64 value of `base - (base * discountPercent) / 100`, each of
the three operations rounded to the nearest binary64 number; this is the base price times
(1 - discountPercent/100) when no operation rounds, and within `2 ^ (-31)` of it for a base
price in `[0, 2 ^ 20)` and a percentage in `[0, 100]`; its quantity is `q`, and its name,
image (the first product image) and category are copied from the product. -/
theorem addToCartF64_appends_new_item (cart : List CartItem) (product : Product) (q : ℤ)
    (selectedSize : Option SizeVariant)
    (habs : ∀ item ∈ cart, itemKey item ≠ (product._id, optLabel selectedSize)) :
    ∃ added : CartItem,
      addToCartF64 product q selectedSize cart = cart ++ [added]
      ∧ added.originalPrice =
          (match selectedSize with
            | some v => v.price
            | none => product.price)
      ∧ added.price
          = fsub added.originalPrice (fdiv (fmul added.originalPrice product.discountPercent) 100)
      ∧ (fmul added.originalPrice product.discountPercent
            = added.originalPrice * product.discountPercent →
          fdiv (added.originalPrice * product.discountPercent) 100
            = added.originalPrice * product.discountPercent / 100 →
          fsub added.originalPrice (added.originalPrice * product.discountPercent / 100)
            = added.originalPrice - added.originalPrice * product.discountPercent / 100 →
          added.price = added.originalPrice * (1 - product.discountPercent / 100))
      ∧ (0 ≤ added.originalPrice → added.originalPrice < 2 ^ 20 →
          0 ≤ product.discountPercent → product.discountPercent ≤ 100 →
          |added.price - added.originalPrice * (1 - product.discountPercent / 100)|
            ≤ 1 / 2 ^ 31)
      ∧ added.quantity = q
      ∧ added._id = product._id
      ∧ added.selectedSize = selectedSize
      ∧ added.name = product.name
      ∧ added.image = product.images.head?
      ∧ added.category = product.category := by
  refine ⟨newItemF64 product q selectedSize,
    addToCartF64_of_absent product q selectedSize cart
      (fun x hx => addMatches_false_of_key_ne product selectedSize x (habs x hx)),
    ?_, newItemF64_price product q selectedSize, ?_, ?_, rfl, rfl, rfl, rfl, ?_, rfl⟩
  · cases selectedSize <;> rfl
  · intro h1 h2 h3
    rw [newItemF64_price, h1, h2, h3]
    ring
  · intro h0 h1 hd0 hd1
    have h := discountedPriceF64_near _ _ h0 h1 hd0 hd1
    rw [newItemF64_price]
    have e : (newItemF64 product q selectedSize).originalPrice
          * (1 - product.discountPercent / 100)
        = (newItemF64 product q selectedSize).originalPrice
          - (newItemF64 product q selectedSize).originalPrice
            * product.discountPercent / 100 := by ring
    rw [e]
    exact h
  · simp only [newItemF64]
    cases product.images <;> simp

/-- Witness of C4: a size priced 200 of a product with 25 percent discount is added at
unit price 150. -/
theorem addToCartF64_appends_new_item_witness :
    ∃ added : CartItem,
      addToCartF64 ⟨"Q", "Shirt", ["a.png", "b.png"], 180, 25, "Wear", none, none⟩ 3
          (some ⟨"XL", 200, 6⟩) plainCart = plainCart ++ [added]
      ∧ added.originalPrice = 200 ∧ added.price = 150 ∧ added.quantity = 3
      ∧ added.image = some "a.png" := by
  obtain ⟨added, h1, h2, h3, _, _, h4, _, _, _, h8, _⟩ :=
    addToCartF64_appends_new_item plainCart
      ⟨"Q", "Shirt", ["a.png", "b.png"], 180, 25, "Wear", none, none⟩ 3
      (some ⟨"XL", 200, 6⟩) (by simp [plainCart, itemKey])
  refine ⟨added, h1, h2, ?_, h4, h8⟩
  have e1 : rn ((200 : ℚ) * 25) = 5000 := by
    have := rn_intCast 5000 (by norm_num [abs_of_pos])
    norm_num at this ⊢
    exact this
  have e2 : rn ((5000 : ℚ) / 100) = 50 := by
    have := rn_intCast 50 (by norm_num [abs_of_pos])
    norm_num at this ⊢
    exact this
  have e3 : rn ((200 : ℚ) - 50) = 150 := by
    have := rn_intCast 150 (by norm_num [abs_of_pos])
    norm_num at this ⊢
    exact this
  rw [h3, h2]
  show fsub 200 (fdiv (fmul 200 25) 100) = 150
  unfold fsub fdiv fmul
  rw [e1, e2, e3]

/-! ## Bounds of the stored price -/

/-- C25 as stated fails: the product priced `0.007` at 100 percent discount is stored at
the price `-8.673617379884035e-19`: negative, and not 0. -/
theorem newItemF64_price_negative :
    tinyProduct.discountPercent = 100
      ∧ (newItemF64 tinyProduct 1 none).originalPrice
          = 8070450532247929 / 1152921504606846976
      ∧ 0 ≤ (newItemF64 tinyProduct 1 none).originalPrice
      ∧ (newItemF64 tinyProduct 1 none).price = -(1 / 1152921504606846976)
      ∧ (newItemF64 tinyProduct 1 none).price < 0
      ∧ (newItemF64 tinyProduct 1 none).price ≠ 0 := by
  have hp : rn ((7 : ℚ) / 1000) = ((8070450532247929 : ℚ) / 1152921504606846976) := by
    apply rn_eq_of_near _ _ (8070450532247929) (-60)
    · norm_num
    · norm_num [abs_of_pos]
    · norm_num [abs_of_pos]
    · norm_num
    · rw [abs_lt]; constructor <;> norm_num
  have ha : rn (((8070450532247929 : ℚ) / 1152921504606846976) * 100)
      = ((6305039478318695 : ℚ) / 9007199254740992) := by
    apply rn_eq_of_near _ _ (6305039478318695) (-53)
    · norm_num
    · norm_num [abs_of_pos]
    · norm_num [abs_of_pos]
    · norm_num
    · rw [abs_lt]; constructor <;> norm_num
  have hb : rn (((6305039478318695 : ℚ) / 9007199254740992) / 100)
      = ((4035225266123965 : ℚ) / 576460752303423488) := by
    apply rn_eq_of_near _ _ (8070450532247930) (-60)
    · norm_num
    · norm_num [abs_of_pos]
    · norm_num [abs_of_pos]
    · norm_num
    · rw [abs_lt]; constructor <;> norm_num
  have hc : rn (((8070450532247929 : ℚ) / 1152921504606846976)
        - ((4035225266123965 : ℚ) / 576460752303423488))
      = (-((1 : ℚ) / 1152921504606846976)) := by
    apply rn_eq_of_near _ _ (-4503599627370496) (-112)
    · norm_num
    · norm_num [abs_of_neg]
    · norm_num [abs_of_neg]
    · norm_num
    · rw [abs_lt]; constructor <;> norm_num
  have horig : (newItemF64 tinyProduct 1 none).originalPrice
      = 8070450532247929 / 1152921504606846976 := hp
  have hprice : (newItemF64 tinyProduct 1 none).price = -(1 / 1152921504606846976) := by
    show fsub (rn (7 / 1000)) (fdiv (fmul (rn (7 / 1000)) 100) 100) = _
    unfold fsub fdiv fmul
    rw [hp, ha, hb, hc]
  refine ⟨rfl, horig, ?_, hprice, ?_, ?_⟩
  · rw [horig]; norm_num
  · rw [hprice]; norm_num
  · rw [hprice]; norm_num

/-- C25, amended: for a base price `p ≥ 0` (a binary64 number: the variant price when a
variant is given, else the product price) and a discount percent `d` with `0 ≤ d ≤ 100`,
the line item created by `addToCart` has original price `p` and a price at most the
original price; the price is the original price when `d = 0` or `p = 0`; for `p < 2 ^ 20`
the price is within `2 ^ (-31)` of `p - p * d / 100`, so at least `-2 ^ (-31)`, and at most
`2 ^ (-31)` in absolute value when `d = 100`; and when none of the three operations of
`p - (p * d) / 100` rounds, the price is at least 0, it is the original price only when
`d = 0` or `p = 0`, and it is 0 when `d = 100`. -/
theorem newItemF64_price_bounds (product : Product) (q : ℤ)
    (selectedSize : Option SizeVariant) (p : ℚ)
    (hbase : p = match selectedSize with
      | some v => v.price
      | none => product.price)
    (hdouble : rn p = p)
    (hp : 0 ≤ p) (hd0 : 0 ≤ product.discountPercent) (hd1 : product.discountPercent ≤ 100) :
    (newItemF64 product q selectedSize).originalPrice = p
      ∧ (newItemF64 product q selectedSize).price
          ≤ (newItemF64 product q selectedSize).originalPrice
      ∧ (product.discountPercent = 0 ∨ p = 0 →
          (newItemF64 product q selectedSize).price
            = (newItemF64 product q selectedSize).originalPrice)
      ∧ (p < 2 ^ 20 →
          |(newItemF64 product q selectedSize).price - (p - p * product.discountPercent / 100)|
              ≤ 1 / 2 ^ 31
            ∧ -(1 / 2 ^ 31) ≤ (newItemF64 product q selectedSize).price
            ∧ (product.discountPercent = 100 →
                |(newItemF64 product q selectedSize).price| ≤ 1 / 2 ^ 31))
      ∧ (fmul p product.discountPercent = p * product.discountPercent →
          fdiv (p * product.discountPercent) 100 = p * product.discountPercent / 100 →
          fsub p (p * product.discountPercent / 100) = p - p * product.discountPercent / 100 →
          0 ≤ (newItemF64 product q selectedSize).price
            ∧ ((newItemF64 product q selectedSize).price
                = (newItemF64 product q selectedSize).originalPrice
              ↔ (product.discountPercent = 0 ∨ p = 0))
            ∧ (product.discountPercent = 100 →
                (newItemF64 product q selectedSize).price = 0)) := by
  have horig : (newItemF64 product q selectedSize).originalPrice = p := by
    rw [hbase]; exact newItemF64_originalPrice product q selectedSize
  have hprice : (newItemF64 product q selectedSize).price
      = fsub p (fdiv (fmul p product.discountPercent) 100) := by
    rw [newItemF64_price, horig]
  have hmul0 : 0 ≤ p * product.discountPercent := mul_nonneg hp hd0
  have hmul1 : p * product.discountPercent ≤ p * 100 := mul_le_mul_of_nonneg_left hd1 hp
  refine ⟨horig, ?_, ?_, ?_, ?_⟩
  · rw [hprice, horig]
    have hb : 0 ≤ fdiv (fmul p product.discountPercent) 100 :=
      rn_nonneg _ (div_nonneg (rn_nonneg _ hmul0) (by norm_num))
    exact rn_le_of_le _ p hdouble hp (by linarith)
  · intro h
    have hz : p * product.discountPercent = 0 := by
      rcases h with h | h
      · rw [h, mul_zero]
      · rw [h, zero_mul]
    rw [hprice, horig]
    unfold fsub fdiv fmul
    rw [hz, rn_zero, zero_div, rn_zero, sub_zero, hdouble]
  · intro hlt
    have hnear := discountedPriceF64_near p product.discountPercent hp hlt hd0 hd1
    rw [hprice]
    refine ⟨hnear, ?_, ?_⟩
    · have := (abs_le.mp hnear).1
      unfold discountedPriceF64 at this
      linarith
    · intro h100
      unfold discountedPriceF64 at hnear
      rw [h100] at hnear ⊢
      have e : p - p * 100 / 100 = 0 := by ring
      rw [e, sub_zero] at hnear
      exact hnear
  · intro h1 h2 h3
    have hexact : (newItemF64 product q selectedSize).price
        = p - p * product.discountPercent / 100 := by
      rw [hprice, h1, h2, h3]
    refine ⟨?_, ?_, ?_⟩
    · rw [hexact]; linarith
    · rw [hexact, horig]
      constructor
      · intro h
        have hz : p * product.discountPercent = 0 := by linarith
        rcases mul_eq_zero.mp hz with h0 | h0
        · exact Or.inr h0
        · exact Or.inl h0
      · rintro (h | h)
        · rw [h]; ring
        · rw [h]; ring
    · intro h
      rw [hexact, h]
      ring

/-- Witness of C25: a size priced 200 at 25 percent discount is stored with original price
200 and a price at most 200. -/
theorem newItemF64_price_bounds_witness :
    rn 200 = 200
      ∧ (newItemF64 ⟨"Q", "Shirt", [], 180, 25, "Wear", none, none⟩ 3
          (some ⟨"XL", 200, 6⟩)).originalPrice = 200
      ∧ (newItemF64 ⟨"Q", "Shirt", [], 180, 25, "Wear", none, none⟩ 3
          (some ⟨"XL", 200, 6⟩)).price
        ≤ (newItemF64 ⟨"Q", "Shirt", [], 180, 25, "Wear", none, none⟩ 3
          (some ⟨"XL", 200, 6⟩)).originalPrice :=
  ⟨by exact_mod_cast rn_natCast 200 (by norm_num),
    (newItemF64_price_bounds ⟨"Q", "Shirt", [], 180, 25, "Wear", none, none⟩ 3
      (some ⟨"XL", 200, 6⟩) 200 rfl (by exact_mod_cast rn_natCast 200 (by norm_num))
      (by norm_num) (by norm_num) (by norm_num)).1,
    (newItemF64_price_bounds ⟨"Q", "Shirt", [], 180, 25, "Wear", none, none⟩ 3
      (some ⟨"XL", 200, 6⟩) 200 rfl (by exact_mod_cast rn_natCast 200 (by norm_num))
      (by norm_num) (by norm_num) (by norm_num)).2.1⟩

/-! ## Count and total under `addToCart` in binary64 arithmetic -/

theorem getCartCount_append_singleton (cart : List CartItem) (x : CartItem) :
    getCartCount (cart ++ [x]) = getCartCount cart + x.quantity := by
  simp [getCartCount, List.foldl_append]

theorem getCartTotal_append_singleton (cart : List CartItem) (x : CartItem) :
    getCartTotal (cart ++ [x]) = getCartTotal cart + x.price * (x.quantity : ℚ) := by
  simp [getCartTotal, List.foldl_append]

theorem getCartTotalF64_append_singleton (cart : List CartItem) (x : CartItem) :
    getCartTotalF64 (cart ++ [x])
      = fadd (getCartTotalF64 cart) (fmul x.price (x.quantity : ℚ)) := by
  simp [getCartTotalF64, List.foldl_append]

/-- The count and the exact total of the items that `addToCartF64` returns. -/
theorem addToCartF64_count_total_exact (cart : List CartItem) (product : Product) (q : ℤ)
    (selectedSize : Option SizeVariant) :
    getCartCount (addToCartF64 product q selectedSize cart) = getCartCount cart + q
      ∧ getCartTotal (addToCartF64 product q selectedSize cart)
        = getCartTotal cart + (q : ℚ) *
          (match cart.find? (addMatches product selectedSize) with
            | some item => item.price
            | none => (newItemF64 product q selectedSize).price) := by
  by_cases h : ∀ item ∈ cart, addMatches product selectedSize item = false
  · have hnone : cart.find? (addMatches product selectedSize) = none := by
      rw [List.find?_eq_none]
      intro x hx
      rw [h x hx]
      decide
    rw [addToCartF64_of_absent _ _ _ _ h, getCartCount_append_singleton,
      getCartTotal_append_singleton, hnone]
    refine ⟨rfl, ?_⟩
    show _ + (newItemF64 product q selectedSize).price * (q : ℚ) = _
    ring
  · push_neg at h
    obtain ⟨x, hx, hm⟩ := h
    have hm2 : addMatches product selectedSize x = true := by
      cases hb : addMatches product selectedSize x with
      | true => rfl
      | false => exact absurd hb hm
    rw [addToCartF64_of_present _ _ _ _ x hx hm2]
    have hold := addToCart_count_total cart product q selectedSize
    refine ⟨hold.1, ?_⟩
    rw [hold.2]
    cases hf : cart.find? (addMatches product selectedSize) with
    | some item => rfl
    | none =>
      rw [List.find?_eq_none] at hf
      exact absurd hm2 (hf x hx)

/-- The binary64 total of a cart of at most `2 ^ 20` line items with line amounts at least 0
and exact total at most `2 ^ 29` is within `length / 2 ^ 23` of the exact total. -/
theorem getCartTotalF64_near (cart : List CartItem)
    (hpos : ∀ item ∈ cart, 0 ≤ item.price * (item.quantity : ℚ))
    (hlen : cart.length ≤ 2 ^ 20) (htot : getCartTotal cart ≤ 2 ^ 29) :
    |getCartTotalF64 cart - getCartTotal cart| ≤ (cart.length : ℚ) / 2 ^ 23
      ∧ 0 ≤ getCartTotalF64 cart ∧ 0 ≤ getCartTotal cart := by
  induction cart using List.reverseRecOn with
  | nil => simp [getCartTotalF64, getCartTotal]
  | append_singleton l a ih =>
    have ha : 0 ≤ a.price * (a.quantity : ℚ) := hpos a (by simp)
    rw [getCartTotal_append_singleton] at htot ⊢
    rw [getCartTotalF64_append_singleton]
    have hl : l.length + 1 ≤ 2 ^ 20 := by simpa using hlen
    have hlq : ((l.length : ℚ)) + 1 ≤ 2 ^ 20 := by exact_mod_cast hl
    have hpos0 : ∀ item ∈ l, 0 ≤ item.price * (item.quantity : ℚ) :=
      fun item hi => hpos item (List.mem_append_left _ hi)
    have hnonneg : 0 ≤ getCartTotal l := by
      unfold getCartTotal
      rw [foldl_add_price, zero_add]
      apply List.sum_nonneg
      intro x hx
      obtain ⟨item, hi, rfl⟩ := List.mem_map.mp hx
      exact hpos0 item hi
    obtain ⟨e0, p0, _⟩ := ih hpos0 (by omega) (by linarith)
    rw [List.length_append, List.length_singleton]
    push_cast
    unfold fadd fmul
    rw [abs_le] at e0
    norm_num at htot hlq e0
    have hx1 : |a.price * (a.quantity : ℚ)| < 2 ^ (30 : ℤ) := by
      rw [abs_of_nonneg ha]
      norm_num
      linarith
    have e1 := abs_rn_sub_le_of_lt _ 30 hx1 (by norm_num)
    have p1 : 0 ≤ rn (a.price * (a.quantity : ℚ)) := rn_nonneg _ ha
    generalize rn (a.price * (a.quantity : ℚ)) = a1 at e1 p1 ⊢
    rw [abs_le] at e1
    norm_num at e1
    have hx2 : |getCartTotalF64 l + a1| < 2 ^ (30 : ℤ) := by
      rw [abs_of_nonneg (by linarith)]
      norm_num
      linarith
    have e2 := abs_rn_sub_le_of_lt _ 30 hx2 (by norm_num)
    have p2 : 0 ≤ rn (getCartTotalF64 l + a1) := rn_nonneg _ (by linarith)
    generalize rn (getCartTotalF64 l + a1) = s at e2 p2 ⊢
    rw [abs_le] at e2 ⊢
    norm_num at e2 ⊢
    refine ⟨⟨?_, ?_⟩, p2, by linarith⟩ <;> linarith

/-- C26 as stated fails: the cart holds one unit at `19.99` and one unit at `0.01`, total
`20`; one more unit of the second product merges into its line item, and the new total is
`20.009999999999998`, which is not the old total plus `1 × 0.01` (`20.01`), computed exactly
or in binary64 arithmetic. -/
theorem getCartTotalF64_merge_not_additive :
    centsCart.find? (addMatches centProduct none) = some (pricedItem "B" (rn (1 / 100)) 1)
      ∧ addToCartF64 centProduct 1 none centsCart
          = [pricedItem "A" (rn (1999 / 100)) 1, pricedItem "B" (rn (1 / 100)) 2]
      ∧ getCartTotalF64 centsCart = 20
      ∧ getCartTotalF64 (addToCartF64 centProduct 1 none centsCart)
          = 2816157141990113 / 140737488355328
      ∧ fadd (getCartTotalF64 centsCart) (fmul 1 (rn (1 / 100)))
          = 5632314283980227 / 281474976710656
      ∧ getCartTotalF64 (addToCartF64 centProduct 1 none centsCart)
          ≠ fadd (getCartTotalF64 centsCart) (fmul 1 (rn (1 / 100)))
      ∧ getCartTotalF64 (addToCartF64 centProduct 1 none centsCart)
          ≠ getCartTotalF64 centsCart + 1 * rn (1 / 100) := by
  have hA : rn ((1999 : ℚ) / 100) = ((5626684784446013 : ℚ) / 281474976710656) := by
    apply rn_eq_of_near _ _ (5626684784446013) (-48)
    · norm_num
    · norm_num [abs_of_pos]
    · norm_num [abs_of_pos]
    · norm_num
    · rw [abs_lt]; constructor <;> norm_num
  have hB : rn ((1 : ℚ) / 100) = ((5764607523034235 : ℚ) / 576460752303423488) := by
    apply rn_eq_of_near _ _ (5764607523034235) (-59)
    · norm_num
    · norm_num [abs_of_pos]
    · norm_num [abs_of_pos]
    · norm_num
    · rw [abs_lt]; constructor <;> norm_num
  have hA1 : rn (((5626684784446013 : ℚ) / 281474976710656) * 1)
      = ((5626684784446013 : ℚ) / 281474976710656) := by
    apply rn_eq_of_near _ _ (5626684784446013) (-48)
    · norm_num
    · norm_num [abs_of_pos]
    · norm_num [abs_of_pos]
    · norm_num
    · rw [abs_lt]; constructor <;> norm_num
  have h0A : rn (0 + ((5626684784446013 : ℚ) / 281474976710656))
      = ((5626684784446013 : ℚ) / 281474976710656) := by
    apply rn_eq_of_near _ _ (5626684784446013) (-48)
    · norm_num
    · norm_num [abs_of_pos]
    · norm_num [abs_of_pos]
    · norm_num
    · rw [abs_lt]; constructor <;> norm_num
  have hB1 : rn (((5764607523034235 : ℚ) / 576460752303423488) * 1)
      = ((5764607523034235 : ℚ) / 576460752303423488) := by
    apply rn_eq_of_near _ _ (5764607523034235) (-59)
    · norm_num
    · norm_num [abs_of_pos]
    · norm_num [abs_of_pos]
    · norm_num
    · rw [abs_lt]; constructor <;> norm_num
  have hAB : rn (((5626684784446013 : ℚ) / 281474976710656)
        + ((5764607523034235 : ℚ) / 576460752303423488))
      = (20 : ℚ) := by
    apply rn_eq_of_near _ _ (5629499534213120) (-48)
    · norm_num
    · norm_num [abs_of_pos]
    · norm_num [abs_of_pos]
    · norm_num
    · rw [abs_lt]; constructor <;> norm_num
  have hB2 : rn (((5764607523034235 : ℚ) / 576460752303423488) * 2)
      = ((5764607523034235 : ℚ) / 288230376151711744) := by
    apply rn_eq_of_near _ _ (5764607523034235) (-58)
    · norm_num
    · norm_num [abs_of_pos]
    · norm_num [abs_of_pos]
    · norm_num
    · rw [abs_lt]; constructor <;> norm_num
  have hAB2 : rn (((5626684784446013 : ℚ) / 281474976710656)
        + ((5764607523034235 : ℚ) / 288230376151711744))
      = ((2816157141990113 : ℚ) / 140737488355328) := by
    apply rn_eq_of_near _ _ (5632314283980226) (-48)
    · norm_num
    · norm_num [abs_of_pos]
    · norm_num [abs_of_pos]
    · norm_num
    · rw [abs_lt]; constructor <;> norm_num
  have h1B : rn (1 * ((5764607523034235 : ℚ) / 576460752303423488))
      = ((5764607523034235 : ℚ) / 576460752303423488) := by
    apply rn_eq_of_near _ _ (5764607523034235) (-59)
    · norm_num
    · norm_num [abs_of_pos]
    · norm_num [abs_of_pos]
    · norm_num
    · rw [abs_lt]; constructor <;> norm_num
  have h20B : rn ((20 : ℚ) + ((5764607523034235 : ℚ) / 576460752303423488))
      = ((5632314283980227 : ℚ) / 281474976710656) := by
    apply rn_eq_of_near _ _ (5632314283980227) (-48)
    · norm_num
    · norm_num [abs_of_pos]
    · norm_num [abs_of_pos]
    · norm_num
    · rw [abs_lt]; constructor <;> norm_num
  have hfind : centsCart.find? (addMatches centProduct none)
      = some (pricedItem "B" (rn (1 / 100)) 1) := by
    simp [centsCart, List.find?_cons, addMatches, pricedItem, centProduct, optLabel]
  have hadd : addToCartF64 centProduct 1 none centsCart
      = [pricedItem "A" (rn (1999 / 100)) 1, pricedItem "B" (rn (1 / 100)) 2] := by
    rw [addToCartF64_of_present centProduct 1 none centsCart (pricedItem "B" (rn (1 / 100)) 1)
      (by simp [centsCart]) (by simp [addMatches, pricedItem, centProduct, optLabel])]
    exact addToCart_of_first_match centProduct 1 none [pricedItem "A" (rn (1999 / 100)) 1] []
      (pricedItem "B" (rn (1 / 100)) 1)
      (by simp [addMatches, pricedItem, centProduct, optLabel])
      (by simp [addMatches, pricedItem, centProduct, optLabel])
  have hold : getCartTotalF64 centsCart = 20 := by
    simp only [getCartTotalF64, centsCart, pricedItem, List.foldl, Int.cast_one, fadd, fmul]
    rw [hA, hB, hA1, h0A, hB1, hAB]
  have hnew : getCartTotalF64 (addToCartF64 centProduct 1 none centsCart)
      = 2816157141990113 / 140737488355328 := by
    rw [hadd]
    simp only [getCartTotalF64, pricedItem, List.foldl, Int.cast_one, Int.cast_ofNat, fadd,
      fmul]
    rw [hA, hB, hA1, h0A, hB2, hAB2]
  have hsum : fadd (getCartTotalF64 centsCart) (fmul 1 (rn (1 / 100)))
      = 5632314283980227 / 281474976710656 := by
    rw [hold]
    unfold fadd fmul
    rw [hB, h1B, h20B]
  refine ⟨hfind, hadd, hold, hnew, hsum, ?_, ?_⟩
  · rw [hnew, hsum]; norm_num
  · rw [hnew, hold, hB]; norm_num

/-- C26, amended: `addToCart` increases `getCartCount` by exactly `q`. When it appends a
new line item, the new total is the binary64 sum of the old total and the binary64 product
of the new unit price and `q`. Whenever the old and the new total are computed without
rounding error, the total increases by exactly `q` times the unit price of the affected
line item: the stored price of the first matching line item when there is one, the newly
computed discounted price otherwise. For carts of at most `2 ^ 20` line items with line
amounts at least 0 and exact totals at most `2 ^ 29`, the increase is within
`(old length + new length) / 2 ^ 23` of `q` times that unit price. -/
theorem addToCartF64_count_total (cart : List CartItem) (product : Product) (q : ℤ)
    (selectedSize : Option SizeVariant) :
    getCartCount (addToCartF64 product q selectedSize cart) = getCartCount cart + q
      ∧ ((∀ item ∈ cart, addMatches product selectedSize item = false) →
          getCartTotalF64 (addToCartF64 product q selectedSize cart)
            = fadd (getCartTotalF64 cart)
                (fmul (newItemF64 product q selectedSize).price (q : ℚ)))
      ∧ (getCartTotalF64 cart = getCartTotal cart →
          getCartTotalF64 (addToCartF64 product q selectedSize cart)
            = getCartTotal (addToCartF64 product q selectedSize cart) →
          getCartTotalF64 (addToCartF64 product q selectedSize cart)
            = getCartTotalF64 cart + (q : ℚ) *
              (match cart.find? (addMatches product selectedSize) with
                | some item => item.price
                | none => (newItemF64 product q selectedSize).price))
      ∧ ((∀ item ∈ cart, 0 ≤ item.price * (item.quantity : ℚ)) →
          (∀ item ∈ addToCartF64 product q selectedSize cart,
            0 ≤ item.price * (item.quantity : ℚ)) →
          cart.length ≤ 2 ^ 20 →
          (addToCartF64 product q selectedSize cart).length ≤ 2 ^ 20 →
          getCartTotal cart ≤ 2 ^ 29 →
          getCartTotal (addToCartF64 product q selectedSize cart) ≤ 2 ^ 29 →
          |getCartTotalF64 (addToCartF64 product q selectedSize cart)
              - (getCartTotalF64 cart + (q : ℚ) *
                (match cart.find? (addMatches product selectedSize) with
                  | some item => item.price
                  | none => (newItemF64 product q selectedSize).price))|
            ≤ ((cart.length : ℚ) + ((addToCartF64 product q selectedSize cart).length : ℚ))
                / 2 ^ 23) := by
  have hexact := addToCartF64_count_total_exact cart product q selectedSize
  refine ⟨hexact.1, ?_, ?_, ?_⟩
  · intro h
    rw [addToCartF64_of_absent _ _ _ _ h, getCartTotalF64_append_singleton]
    rfl
  · intro h1 h2
    rw [h2, h1, hexact.2]
  · intro hp0 hp1 hl0 hl1 ht0 ht1
    have e0 := (getCartTotalF64_near cart hp0 hl0 ht0).1
    have e1 := (getCartTotalF64_near _ hp1 hl1 ht1).1
    rw [hexact.2] at e1
    rw [abs_le] at e0 e1 ⊢
    constructor <;> linarith

/-- Witness of C26: two units of a new product priced 100 are added to a cart of one unit
at 100; the count becomes 3 and the total 300, no operation rounding. -/
theorem addToCartF64_count_total_witness :
    [flatItem "P" 1].all (fun item => !(addMatches (flatProduct "Z" 10) none item)) = true
      ∧ getCartTotalF64 [flatItem "P" 1] = getCartTotal [flatItem "P" 1]
      ∧ getCartTotalF64 (addToCartF64 (flatProduct "Z" 10) 2 none [flatItem "P" 1])
          = getCartTotal (addToCartF64 (flatProduct "Z" 10) 2 none [flatItem "P" 1])
      ∧ getCartCount (addToCartF64 (flatProduct "Z" 10) 2 none [flatItem "P" 1]) = 3
      ∧ getCartTotalF64 (addToCartF64 (flatProduct "Z" 10) 2 none [flatItem "P" 1])
          = fadd 100 (fmul 100 2)
      ∧ getCartTotalF64 (addToCartF64 (flatProduct "Z" 10) 2 none [flatItem "P" 1]) = 300
      ∧ getCartTotalF64 (addToCartF64 (flatProduct "Z" 10) 2 none [flatItem "P" 1])
          = getCartTotalF64 [flatItem "P" 1]
            + 2 * (newItemF64 (flatProduct "Z" 10) 2 none).price
      ∧ |getCartTotalF64 (addToCartF64 (flatProduct "Z" 10) 2 none [flatItem "P" 1])
            - (getCartTotalF64 [flatItem "P" 1]
              + 2 * (newItemF64 (flatProduct "Z" 10) 2 none).price)| ≤ 3 / 2 ^ 23 := by
  have r0 : rn 0 = 0 := rn_zero
  have r100 : rn 100 = 100 := by exact_mod_cast rn_natCast 100 (by norm_num)
  have r200 : rn 200 = 200 := by exact_mod_cast rn_natCast 200 (by norm_num)
  have r300 : rn 300 = 300 := by exact_mod_cast rn_natCast 300 (by norm_num)
  have habs : ∀ item ∈ [flatItem "P" 1], addMatches (flatProduct "Z" 10) none item = false := by
    simp [addMatches, flatItem, flatProduct]
  have hfind : List.find? (addMatches (flatProduct "Z" 10) none) [flatItem "P" 1] = none := by
    simp [addMatches, flatItem, flatProduct]
  have hprice : (newItemF64 (flatProduct "Z" 10) 2 none).price = 100 := by
    show fsub 100 (fdiv (fmul 100 0) 100) = 100
    unfold fsub fdiv fmul
    rw [mul_zero, r0, zero_div, r0, sub_zero, r100]
  have hold : getCartTotalF64 [flatItem "P" 1] = 100 := by
    simp only [getCartTotalF64, flatItem, List.foldl, Int.cast_one, fadd, fmul, mul_one,
      zero_add]
    rw [r100, r100]
  have holdq : getCartTotal [flatItem "P" 1] = 100 := by
    simp [getCartTotal, flatItem]
  obtain ⟨h1, h2, h3, h4⟩ :=
    addToCartF64_count_total [flatItem "P" 1] (flatProduct "Z" 10) 2 none
  have hnew := h2 habs
  rw [hold, hprice] at hnew
  have hnew2 : getCartTotalF64 (addToCartF64 (flatProduct "Z" 10) 2 none [flatItem "P" 1])
      = 300 := by
    rw [hnew]
    unfold fadd fmul
    norm_num
    rw [r200]
    norm_num
    exact r300
  have hnewq : getCartTotal (addToCartF64 (flatProduct "Z" 10) 2 none [flatItem "P" 1])
      = 300 := by
    rw [addToCartF64_of_absent _ _ _ _ habs, getCartTotal_append_singleton, holdq, hprice]
    show (100 : ℚ) + 100 * ((2 : ℤ) : ℚ) = 300
    norm_num
  refine ⟨by simp [addMatches, flatItem, flatProduct], hold.trans holdq.symm,
    hnew2.trans hnewq.symm, ?_, ?_, hnew2, ?_, ?_⟩
  · rw [h1]; simp [getCartCount, flatItem]
  · rw [hnew]; norm_num
  · have h := h3 (hold.trans holdq.symm) (hnew2.trans hnewq.symm)
    rw [hfind] at h
    exact_mod_cast h
  · have hcart : addToCartF64 (flatProduct "Z" 10) 2 none [flatItem "P" 1]
        = [flatItem "P" 1, newItemF64 (flatProduct "Z" 10) 2 none] :=
      addToCartF64_of_absent _ _ _ _ habs
    have h := h4 (by simp [flatItem])
      (by
        intro item hi
        rw [hcart] at hi
        simp only [List.mem_cons, List.mem_singleton, List.not_mem_nil, or_false] at hi
        rcases hi with rfl | rfl
        · simp [flatItem]
        · rw [hprice]
          show (0 : ℚ) ≤ 100 * ((2 : ℤ) : ℚ)
          norm_num)
      (by simp) (by rw [hcart]; simp) (by rw [holdq]; norm_num) (by rw [hnewq]; norm_num)
    rw [hfind, hcart] at h
    rw [hcart]
    norm_num at h ⊢
    exact h

/-- Halfway between an odd integer and its successor, `roundHalfEven` takes the successor. -/
theorem roundHalfEven_tie_odd (y : ℚ) (m : ℤ) (h : y = (m : ℚ) + 1 / 2) (hodd : m % 2 = 1) :
    roundHalfEven y = m + 1 := by
  have hfl : ⌊y⌋ = m := by
    rw [Int.floor_eq_iff]
    constructor <;> linarith
  unfold roundHalfEven
  rw [hfl, h]
  norm_num
  omega

/-- The value of `rn` at a tie whose lower neighbour has an odd significand. -/
theorem rn_eq_of_tie_odd (x r : ℚ) (m e : ℤ) (hr : r = ((m + 1 : ℤ) : ℚ) * 2 ^ e)
    (hlo : (2 : ℚ) ^ (e + 52) ≤ |x|) (hhi : |x| < (2 : ℚ) ^ (e + 53)) (he : -1074 ≤ e)
    (htie : x / 2 ^ e = (m : ℚ) + 1 / 2) (hodd : m % 2 = 1) : rn x = r := by
  unfold rn
  rw [ulpExp_eq x e hlo hhi he, roundHalfEven_tie_odd _ m htie hodd, hr]

/-! ## Items total and grand total in binary64 arithmetic -/

/-- The value of `round2` on a number at least 0 is the nearest whole number of hundredths,
the upper one at a tie. -/
theorem round2_of_near (x : ℚ) (k : ℤ) (h0 : 0 ≤ x) (h1 : (k : ℚ) / 100 - 1 / 200 ≤ x)
    (h2 : x < (k : ℚ) / 100 + 1 / 200) : round2 x = (k : ℚ) / 100 := by
  unfold round2
  rw [if_neg (not_lt.mpr h0)]
  have hfl : ⌊x * 100 + 1 / 2⌋ = k := by
    rw [Int.floor_eq_iff]
    constructor <;> linarith
  rw [hfl]

/-- The value of `round2` on a number below 0 is the nearest whole number of hundredths,
the lower one at a tie. -/
theorem round2_of_near_neg (x : ℚ) (k : ℤ) (h0 : x < 0) (h1 : (k : ℚ) / 100 - 1 / 200 < x)
    (h2 : x ≤ (k : ℚ) / 100 + 1 / 200) : round2 x = (k : ℚ) / 100 := by
  unfold round2
  rw [if_pos h0]
  have hfl : ⌊-x * 100 + 1 / 2⌋ = -k := by
    rw [Int.floor_eq_iff]
    push_cast
    constructor <;> linarith
  rw [hfl]
  push_cast
  ring

/-- A number less than half a hundredth away from `k` hundredths is rounded to them. -/
theorem round2_of_abs_near (x : ℚ) (k : ℤ) (h : |x - (k : ℚ) / 100| < 1 / 200) :
    round2 x = (k : ℚ) / 100 := by
  rw [abs_lt] at h
  rcases lt_or_le x 0 with hneg | hpos
  · exact round2_of_near_neg x k hneg (by linarith) (by linarith)
  · exact round2_of_near x k hpos (by linarith) (by linarith)

theorem round2F64_of_near (x : ℚ) (k : ℤ) (h0 : 0 ≤ x) (h1 : (k : ℚ) / 100 - 1 / 200 ≤ x)
    (h2 : x < (k : ℚ) / 100 + 1 / 200) : round2F64 x = rn ((k : ℚ) / 100) := by
  unfold round2F64
  rw [round2_of_near x k h0 h1 h2]

theorem getCartTotalF64_pricedCart (x : ℚ) (h : rn x = x) :
    getCartTotalF64 (pricedCart x) = x := by
  simp only [getCartTotalF64, pricedCart, List.foldl, Int.cast_one, fadd, fmul, mul_one,
    zero_add]
  rw [h, h]

/-- Every items total is the binary64 number nearest to a whole number of hundredths. -/
theorem itemsTotalF64_hundredths (cart : List CartItem) :
    ∃ k : ℤ, round2 (getCartTotalF64 cart) = (k : ℚ) / 100
      ∧ itemsTotalF64 cart = rn ((k : ℚ) / 100) := by
  obtain ⟨k, hk⟩ := round2_is_hundredths (getCartTotalF64 cart)
  exact ⟨k, hk, by unfold itemsTotalF64 round2F64; rw [hk]⟩

/-- Adding a whole fee `j` in `[0, 50]` and the other charges 0 to a number `t` of
magnitude at most `2 ^ 29 + 1` that is within `2 ^ (-25)` of `k` hundredths, and rounding
to two decimals, gives the binary64 number nearest to `k` hundredths plus `j`: the errors
of the two additions stay below half a hundredth. -/
theorem round2F64_add_fee (t : ℚ) (k j : ℤ) (habs : |t| ≤ 2 ^ 29 + 1) (hj0 : 0 ≤ j)
    (hj1 : j ≤ 50) (hnear : |t - (k : ℚ) / 100| ≤ 1 / 2 ^ 25) :
    round2F64 (fadd (fadd t (j : ℚ)) 0) = rn (((k + 100 * j : ℤ) : ℚ) / 100) := by
  have hq0 : (0 : ℚ) ≤ (j : ℚ) := by exact_mod_cast hj0
  have hq1 : (j : ℚ) ≤ 50 := by exact_mod_cast hj1
  unfold fadd round2F64
  rw [abs_le] at hnear habs
  norm_num at hnear habs
  have hu : |t + (j : ℚ)| < 2 ^ (30 : ℤ) := by
    rw [abs_lt]
    norm_num
    constructor <;> linarith
  have e1 := abs_rn_sub_le_of_lt (t + (j : ℚ)) 30 hu (by norm_num)
  generalize rn (t + (j : ℚ)) = s1 at e1 ⊢
  rw [abs_le] at e1
  norm_num at e1
  have hs : |s1 + 0| < 2 ^ (30 : ℤ) := by
    rw [abs_lt]
    norm_num
    constructor <;> linarith
  have e2 := abs_rn_sub_le_of_lt (s1 + 0) 30 hs (by norm_num)
  generalize rn (s1 + 0) = s2 at e2 ⊢
  rw [abs_le] at e2
  norm_num at e2
  rw [round2_of_abs_near s2 (k + 100 * j)]
  rw [abs_lt]
  push_cast
  constructor <;> linarith

/-- On an items total `t` of magnitude at most `2 ^ 29 + 1` that is within `2 ^ (-25)` of
`k` hundredths, the grand total is the binary64 number nearest to `k` hundredths plus the
delivery fee. -/
theorem grandTotalOfF64_of_near (t : ℚ) (k : ℤ) (habs : |t| ≤ 2 ^ 29 + 1)
    (hnear : |t - (k : ℚ) / 100| ≤ 1 / 2 ^ 25) :
    grandTotalOfF64 t
      = rn (((k + (if t ≥ 999 then 0 else 5000) : ℤ) : ℚ) / 100) := by
  unfold grandTotalOfF64 otherCharges deliveryFeeOf
  by_cases h : t ≥ 999
  · rw [if_pos h, if_pos h]
    have := round2F64_add_fee t k 0 habs (by norm_num) (by norm_num) hnear
    simpa using this
  · rw [if_neg h, if_neg h]
    have := round2F64_add_fee t k 50 habs (by norm_num) (by norm_num) hnear
    simpa using this

/-- C13: the grand total of a cart is `round2 (itemsTotal + deliveryFee + otherCharges)`
with `otherCharges = 0`, where `itemsTotal` is the cart total rounded to 2 decimals (a
value goes to the binary64 number of the nearest whole number of hundredths, at a tie the
one away from 0, and so does the sum in the grand total); a cart total of 950.00 and a
cart total of 1000.00 both give the grand total 1000.00. -/
theorem grandTotalF64_eq_round2 (cart : List CartItem) :
    grandTotalF64 cart
        = round2F64 (fadd (fadd (itemsTotalF64 cart) (deliveryFeeF64 cart)) otherCharges)
      ∧ otherCharges = 0
      ∧ itemsTotalF64 cart = round2F64 (getCartTotalF64 cart)
      ∧ (∀ k : ℤ, 0 ≤ getCartTotalF64 cart →
          (k : ℚ) / 100 - 1 / 200 ≤ getCartTotalF64 cart →
          getCartTotalF64 cart < (k : ℚ) / 100 + 1 / 200 →
          itemsTotalF64 cart = rn ((k : ℚ) / 100))
      ∧ (∀ k : ℤ, getCartTotalF64 cart < 0 →
          (k : ℚ) / 100 - 1 / 200 < getCartTotalF64 cart →
          getCartTotalF64 cart ≤ (k : ℚ) / 100 + 1 / 200 →
          itemsTotalF64 cart = rn ((k : ℚ) / 100))
      ∧ (∀ k : ℤ,
          0 ≤ fadd (fadd (itemsTotalF64 cart) (deliveryFeeF64 cart)) otherCharges →
          (k : ℚ) / 100 - 1 / 200
            ≤ fadd (fadd (itemsTotalF64 cart) (deliveryFeeF64 cart)) otherCharges →
          fadd (fadd (itemsTotalF64 cart) (deliveryFeeF64 cart)) otherCharges
            < (k : ℚ) / 100 + 1 / 200 →
          grandTotalF64 cart = rn ((k : ℚ) / 100))
      ∧ (getCartTotalF64 cart = 950 → grandTotalF64 cart = 1000)
      ∧ (getCartTotalF64 cart = 1000 → grandTotalF64 cart = 1000) := by
  have r950 : rn 950 = 950 := by exact_mod_cast rn_natCast 950 (by norm_num)
  have r1000 : rn 1000 = 1000 := by exact_mod_cast rn_natCast 1000 (by norm_num)
  have q950 : round2 950 = 950 := by exact_mod_cast round2_intCast 950
  have q1000 : round2 1000 = 1000 := by exact_mod_cast round2_intCast 1000
  refine ⟨rfl, rfl, rfl, ?_, ?_, ?_, ?_, ?_⟩
  · intro k h0 h1 h2
    exact round2F64_of_near _ k h0 h1 h2
  · intro k h0 h1 h2
    unfold itemsTotalF64 round2F64
    rw [round2_of_near_neg _ k h0 h1 h2]
  · intro k h0 h1 h2
    exact round2F64_of_near _ k h0 h1 h2
  · intro h
    have hi : itemsTotalF64 cart = 950 := by
      unfold itemsTotalF64 round2F64
      rw [h, q950, r950]
    unfold grandTotalF64 grandTotalOfF64 round2F64 fadd otherCharges deliveryFeeOf
    rw [hi, if_neg (by norm_num)]
    norm_num
    simp only [r1000, q1000]
  · intro h
    have hi : itemsTotalF64 cart = 1000 := by
      unfold itemsTotalF64 round2F64
      rw [h, q1000, r1000]
    unfold grandTotalF64 grandTotalOfF64 round2F64 fadd otherCharges deliveryFeeOf
    rw [hi, if_pos (by norm_num)]
    norm_num
    simp only [r1000, q1000]

/-- Witness of C13: the one-item cart of total 949.99609375 has the items total 950.00, and
the one-item carts of total 950 and of total 1000 have the grand total 1000. -/
theorem grandTotalF64_eq_round2_witness :
    getCartTotalF64 (pricedCart (243199 / 256)) = 243199 / 256
      ∧ itemsTotalF64 (pricedCart (243199 / 256)) = 950
      ∧ getCartTotalF64 (pricedCart 950) = 950 ∧ grandTotalF64 (pricedCart 950) = 1000
      ∧ getCartTotalF64 (pricedCart 1000) = 1000
      ∧ grandTotalF64 (pricedCart 1000) = 1000 := by
  have hX : rn ((243199 : ℚ) / 256) = ((243199 : ℚ) / 256) := by
    apply rn_eq_of_near _ _ (8356254011359232) (-43)
    · norm_num
    · norm_num [abs_of_pos]
    · norm_num [abs_of_pos]
    · norm_num
    · rw [abs_lt]; constructor <;> norm_num
  have r950 : rn 950 = 950 := by exact_mod_cast rn_natCast 950 (by norm_num)
  have r1000 : rn 1000 = 1000 := by exact_mod_cast rn_natCast 1000 (by norm_num)
  have hT := getCartTotalF64_pricedCart (243199 / 256) hX
  have h950 := getCartTotalF64_pricedCart 950 r950
  have h1000 := getCartTotalF64_pricedCart 1000 r1000
  have hitems := (grandTotalF64_eq_round2 (pricedCart (243199 / 256))).2.2.2.1 95000
    (by rw [hT]; norm_num) (by rw [hT]; norm_num) (by rw [hT]; norm_num)
  refine ⟨hT, ?_, h950, (grandTotalF64_eq_round2 (pricedCart 950)).2.2.2.2.2.2.1 h950, h1000,
    (grandTotalF64_eq_round2 (pricedCart 1000)).2.2.2.2.2.2.2 h1000⟩
  rw [hitems]
  norm_num
  exact r950

/-- C27 as stated fails: for the items total `974.07` the grand total is `1024.07`, which
is not the sum `974.07 + 50` (`1024.0700000000002` in binary64 arithmetic), and the grand
total minus the items total is `49.999999999999886`, neither 0 nor 50. -/
theorem grandTotalF64_ne_sum :
    itemsTotalF64 (pricedCart (rn (97407 / 100))) = 8568010330142147 / 8796093022208
      ∧ (949 : ℚ) < itemsTotalF64 (pricedCart (rn (97407 / 100)))
      ∧ itemsTotalF64 (pricedCart (rn (97407 / 100))) < 999
      ∧ grandTotalF64 (pricedCart (rn (97407 / 100))) = 4503907490626273 / 4398046511104
      ∧ fadd (itemsTotalF64 (pricedCart (rn (97407 / 100)))) 50
          = 2251953745313137 / 2199023255552
      ∧ grandTotalF64 (pricedCart (rn (97407 / 100)))
          ≠ fadd (itemsTotalF64 (pricedCart (rn (97407 / 100)))) 50
      ∧ grandTotalF64 (pricedCart (rn (97407 / 100)))
          ≠ itemsTotalF64 (pricedCart (rn (97407 / 100))) + 50
      ∧ fsub (grandTotalF64 (pricedCart (rn (97407 / 100))))
            (itemsTotalF64 (pricedCart (rn (97407 / 100))))
          = 439804651110399 / 8796093022208
      ∧ fsub (grandTotalF64 (pricedCart (rn (97407 / 100))))
            (itemsTotalF64 (pricedCart (rn (97407 / 100)))) ≠ 50
      ∧ fsub (grandTotalF64 (pricedCart (rn (97407 / 100))))
            (itemsTotalF64 (pricedCart (rn (97407 / 100)))) ≠ 0 := by
  have hT : rn ((97407 : ℚ) / 100) = ((8568010330142147 : ℚ) / 8796093022208) := by
    apply rn_eq_of_near _ _ (8568010330142147) (-43)
    · norm_num
    · norm_num [abs_of_pos]
    · norm_num [abs_of_pos]
    · norm_num
    · rw [abs_lt]; constructor <;> norm_num
  have hTT : rn ((8568010330142147 : ℚ) / 8796093022208)
      = ((8568010330142147 : ℚ) / 8796093022208) := by
    apply rn_eq_of_near _ _ (8568010330142147) (-43)
    · norm_num
    · norm_num [abs_of_pos]
    · norm_num [abs_of_pos]
    · norm_num
    · rw [abs_lt]; constructor <;> norm_num
  have hS : rn (((8568010330142147 : ℚ) / 8796093022208) + 50)
      = ((2251953745313137 : ℚ) / 2199023255552) := by
    apply rn_eq_of_tie_odd _ _ (4503907490626273) (-42)
    · norm_num
    · norm_num [abs_of_pos]
    · norm_num [abs_of_pos]
    · norm_num
    · norm_num
    · norm_num
  have hS0 : rn (((2251953745313137 : ℚ) / 2199023255552) + 0)
      = ((2251953745313137 : ℚ) / 2199023255552) := by
    apply rn_eq_of_near _ _ (4503907490626274) (-42)
    · norm_num
    · norm_num [abs_of_pos]
    · norm_num [abs_of_pos]
    · norm_num
    · rw [abs_lt]; constructor <;> norm_num
  have hG : rn ((102407 : ℚ) / 100) = ((4503907490626273 : ℚ) / 4398046511104) := by
    apply rn_eq_of_near _ _ (4503907490626273) (-42)
    · norm_num
    · norm_num [abs_of_pos]
    · norm_num [abs_of_pos]
    · norm_num
    · rw [abs_lt]; constructor <;> norm_num
  have hD : rn (((4503907490626273 : ℚ) / 4398046511104) - ((8568010330142147 : ℚ) / 8796093022208))
      = ((439804651110399 : ℚ) / 8796093022208) := by
    apply rn_eq_of_near _ _ (7036874417766384) (-47)
    · norm_num
    · norm_num [abs_of_pos]
    · norm_num [abs_of_pos]
    · norm_num
    · rw [abs_lt]; constructor <;> norm_num
  have htotal : getCartTotalF64 (pricedCart (rn (97407 / 100)))
      = 8568010330142147 / 8796093022208 := by
    rw [hT]
    exact getCartTotalF64_pricedCart _ hTT
  have hround : round2 (8568010330142147 / 8796093022208) = 97407 / 100 := by
    have h := round2_of_near (8568010330142147 / 8796093022208) 97407 (by norm_num)
      (by norm_num) (by norm_num)
    push_cast at h
    exact h
  have hitems : itemsTotalF64 (pricedCart (rn (97407 / 100)))
      = 8568010330142147 / 8796093022208 := by
    unfold itemsTotalF64 round2F64
    rw [htotal, hround, hT]
  have hroundS : round2 (2251953745313137 / 2199023255552) = 102407 / 100 := by
    have h := round2_of_near (2251953745313137 / 2199023255552) 102407 (by norm_num)
      (by norm_num) (by norm_num)
    push_cast at h
    exact h
  have hgrand : grandTotalF64 (pricedCart (rn (97407 / 100)))
      = 4503907490626273 / 4398046511104 := by
    unfold grandTotalF64 grandTotalOfF64 round2F64 fadd otherCharges deliveryFeeOf
    rw [hitems, if_neg (by norm_num), hS, hS0, hroundS, hG]
  have hsum : fadd (itemsTotalF64 (pricedCart (rn (97407 / 100)))) 50
      = 2251953745313137 / 2199023255552 := by
    rw [hitems]
    exact hS
  have hdiff : fsub (grandTotalF64 (pricedCart (rn (97407 / 100))))
      (itemsTotalF64 (pricedCart (rn (97407 / 100))))
      = 439804651110399 / 8796093022208 := by
    rw [hgrand, hitems]
    exact hD
  refine ⟨hitems, ?_, ?_, hgrand, hsum, ?_, ?_, hdiff, ?_, ?_⟩
  · rw [hitems]; norm_num
  · rw [hitems]; norm_num
  · rw [hgrand, hsum]; norm_num
  · rw [hgrand, hitems]; norm_num
  · rw [hdiff]; norm_num
  · rw [hdiff]; norm_num

/-- C27, amended: every items total is the binary64 number of a whole number `k` of
hundredths. For `949 < k/100 < 999` the grand total is the binary64 number of the
two-decimal amount `k/100 + 50`, above 999 and so above the grand total 999 of the larger
items total 999; and for `|k/100| < 2 ^ 29` the grand total is the binary64 number of the
two-decimal amount `k/100` or of the two-decimal amount `k/100 + 50`. -/
theorem grandTotalF64_not_monotone (cart : List CartItem) :
    ∃ k : ℤ, round2 (getCartTotalF64 cart) = (k : ℚ) / 100
      ∧ itemsTotalF64 cart = rn ((k : ℚ) / 100)
      ∧ (94900 < k → k < 99900 →
          grandTotalF64 cart = rn (((k + 5000 : ℤ) : ℚ) / 100)
            ∧ 999 < grandTotalF64 cart
            ∧ grandTotalOfF64 999 < grandTotalF64 cart)
      ∧ grandTotalOfF64 999 = 999
      ∧ (|(k : ℚ) / 100| < 2 ^ 29 →
          grandTotalF64 cart = rn ((k : ℚ) / 100)
            ∨ grandTotalF64 cart = rn (((k + 5000 : ℤ) : ℚ) / 100)) := by
  obtain ⟨k, hk1, hk2⟩ := itemsTotalF64_hundredths cart
  have r999 : rn 999 = 999 := by exact_mod_cast rn_natCast 999 (by norm_num)
  have h999 : grandTotalOfF64 999 = 999 := by
    have h := grandTotalOfF64_of_near 999 99900 (by norm_num [abs_of_pos]) (by norm_num)
    rw [if_pos (by norm_num)] at h
    rw [h]
    norm_num
    exact r999
  refine ⟨k, hk1, hk2, ?_, h999, ?_⟩
  · intro hlo hhi
    have hlo2 : ((94901 : ℤ) : ℚ) ≤ (k : ℚ) := by
      have : (94901 : ℤ) ≤ k := by omega
      exact_mod_cast this
    have hhi2 : (k : ℚ) ≤ ((99899 : ℤ) : ℚ) := by
      have : k ≤ (99899 : ℤ) := by omega
      exact_mod_cast this
    push_cast at hlo2 hhi2
    have hx : |(k : ℚ) / 100| < 2 ^ (10 : ℤ) := by
      rw [abs_of_nonneg (by linarith)]
      norm_num
      linarith
    have e := abs_rn_sub_le_of_lt ((k : ℚ) / 100) 10 hx (by norm_num)
    have p : 0 ≤ rn ((k : ℚ) / 100) := rn_nonneg _ (by linarith)
    have hy : |((k + 5000 : ℤ) : ℚ) / 100| < 2 ^ (11 : ℤ) := by
      rw [abs_of_nonneg (by push_cast; linarith)]
      push_cast
      norm_num
      linarith
    have e2 := abs_rn_sub_le_of_lt (((k + 5000 : ℤ) : ℚ) / 100) 11 hy (by norm_num)
    have hnear : |rn ((k : ℚ) / 100) - (k : ℚ) / 100| ≤ 1 / 2 ^ 25 := by
      refine e.trans ?_
      norm_num
    rw [abs_le] at e e2
    norm_num at e e2
    have hlt : ¬ (rn ((k : ℚ) / 100) ≥ 999) := by
      rw [not_le]
      linarith
    have hg : grandTotalF64 cart = rn (((k + 5000 : ℤ) : ℚ) / 100) := by
      unfold grandTotalF64
      rw [hk2, grandTotalOfF64_of_near _ k (by rw [abs_of_nonneg p]; norm_num; linarith) hnear,
        if_neg hlt]
    rw [hg, h999]
    push_cast
    refine ⟨rfl, ?_, ?_⟩ <;> linarith
  · intro hx
    have hx2 : |(k : ℚ) / 100| < 2 ^ (29 : ℤ) := by exact_mod_cast hx
    have e := abs_rn_sub_le_of_lt ((k : ℚ) / 100) 29 hx2 (by norm_num)
    have hnear : |rn ((k : ℚ) / 100) - (k : ℚ) / 100| ≤ 1 / 2 ^ 25 := by
      refine e.trans ?_
      norm_num
    have habs : |rn ((k : ℚ) / 100)| ≤ 2 ^ 29 + 1 := by
      rw [abs_le] at hnear ⊢
      rw [abs_lt] at hx
      norm_num at hnear hx ⊢
      constructor <;> linarith
    have hg := grandTotalOfF64_of_near _ k habs hnear
    unfold grandTotalF64
    rw [hk2, hg]
    by_cases h : rn ((k : ℚ) / 100) ≥ 999
    · left
      rw [if_pos h]
      norm_num
    · right
      rw [if_neg h]

/-- Witness of C27: the cart of total 950 has grand total 1000, above the grand total 999
of the items total 999. -/
theorem grandTotalF64_not_monotone_witness :
    getCartTotalF64 (pricedCart 950) = 950
      ∧ grandTotalF64 (pricedCart 950) = 1000
      ∧ (999 : ℚ) < grandTotalF64 (pricedCart 950)
      ∧ grandTotalOfF64 999 < grandTotalF64 (pricedCart 950) := by
  have r950 : rn 950 = 950 := by exact_mod_cast rn_natCast 950 (by norm_num)
  have r1000 : rn 1000 = 1000 := by exact_mod_cast rn_natCast 1000 (by norm_num)
  have h950 := getCartTotalF64_pricedCart 950 r950
  obtain ⟨k, hk1, _, ha, _, _⟩ := grandTotalF64_not_monotone (pricedCart 950)
  have hk : k = 95000 := by
    rw [h950] at hk1
    have q950 : round2 950 = 950 := by exact_mod_cast round2_intCast 950
    rw [q950] at hk1
    have : (k : ℚ) = 95000 := by linarith
    exact_mod_cast this
  subst hk
  obtain ⟨h1, h2, h3⟩ := ha (by norm_num) (by norm_num)
  refine ⟨h950, ?_, h2, h3⟩
  rw [h1]
  norm_num
  exact r1000

end ShopCart
